import Mathlib

/-!
# Synthetic aperture pipeline: shallow embedding of `src/lib/SyntheticAperture.cpp`

The session object `SyntheticAperture` of the C++ source becomes a record that is
passed explicitly; `loadVideo` and `process` return the updated record.

Conventions of the embedding.

* `int` values are `Int`; image dimensions are `Nat` (a `cv::Mat` never has a
  negative size).  The arithmetic is that of the integers: the rectangle
  intersection of OpenCV is written so that it does not overflow, and the remaining
  sums are of coordinates inside a frame.
* A `cv::Mat` is its size together with a total pixel function; only the pixels
  inside the size are meaningful.
* The OpenCV routines whose numeric result is floating point and whose code is not
  part of the repository (the `cv::matchTemplate` response, `cv::norm`) are taken as
  parameters, bundled in `CvOps`.  The number type `F` stands for `float`/`double`
  and is any linearly ordered field; arithmetic on it is exact.
* Displacements are whole numbers stored in `cv::Point2f`; they are kept as `Int`.
  The `float` pixel sums of the synthetic image are whole numbers too; they and their
  mean are kept as rationals, and the conversion to 8 bits rounds and clips as
  `cv::saturate_cast<uchar>` does.
* The drawing calls on the depth map are recorded, not rasterised.
* A call that raises a `cv::Exception` or indexes a vector out of range yields
  `none`.
-/

set_option linter.unusedSectionVars false

namespace SynAp

/-! ## Geometry: `cv::Point`, `cv::Rect` -/

/-- Integer point `cv::Point`; also used for `cv::Point2f` values, which in this
program always hold whole numbers (they are assigned from `int` expressions). -/
structure Point where
  x : Int
  y : Int
  deriving DecidableEq, Repr

/-- Integer rectangle `cv::Rect(x, y, width, height)`. -/
structure Rect where
  x : Int
  y : Int
  width : Int
  height : Int
  deriving DecidableEq, Repr

/-- Intersection `a & b` of two rectangles as OpenCV defines it: the overlap of the
two, or the all-zero rectangle `Rect()` when the overlap has no area. -/
def Rect.inter (a b : Rect) : Rect :=
  let x1 := max a.x b.x
  let y1 := max a.y b.y
  let w := min (a.x + a.width) (b.x + b.width) - x1
  let h := min (a.y + a.height) (b.y + b.height) - y1
  if w ≤ 0 ∨ h ≤ 0 then ⟨0, 0, 0, 0⟩ else ⟨x1, y1, w, h⟩

/-! ## Images -/

/-- Image `cv::Mat`: size and pixel lookup by column `x` and row `y`. -/
structure Mat (α : Type) where
  cols : Nat
  rows : Nat
  px : Int → Int → α

/-- Three 8-bit channels of a colour pixel, in OpenCV order blue, green, red. -/
abbrev Vec3 (α : Type) := Fin 3 → α

/-- The default-constructed `cv::Mat()`: no rows, no columns. -/
def Mat.none_ {α : Type} [Inhabited α] : Mat α := ⟨0, 0, fun _ _ => default⟩

/-- Emptiness test `cv::Mat::empty()`. -/
def Mat.empty {α : Type} (m : Mat α) : Bool := m.cols == 0 || m.rows == 0

/-- Sub-image `m(r)` selected by a rectangle (a view sharing the pixels).  The program
only selects rectangles that lie inside the image. -/
def Mat.roi {α : Type} (m : Mat α) (r : Rect) : Mat α :=
  ⟨r.width.toNat, r.height.toNat, fun x y => m.px (r.x + x) (r.y + y)⟩

/-- Pixel content of the `w × h` block of `m` whose top-left corner is `(x, y)`,
as a list of rows. -/
def Mat.block {α : Type} (m : Mat α) (x y : Int) (w h : Nat) : List (List α) :=
  (List.range h).map fun (j : Nat) =>
    (List.range w).map fun (i : Nat) => m.px (x + (i : Int)) (y + (j : Int))

/-- Whole pixel content of an image, as a list of rows. -/
def Mat.content {α : Type} (m : Mat α) : List (List α) := m.block 0 0 m.cols m.rows

/-- Two images have the same width and height. -/
def Mat.sameSize {α β : Type} (a : Mat α) (b : Mat β) : Prop :=
  a.cols = b.cols ∧ a.rows = b.rows

instance {α β : Type} (a : Mat α) (b : Mat β) : Decidable (a.sameSize b) := by
  unfold Mat.sameSize; infer_instance

/-! ## External numeric routines -/

/-- The floating-point OpenCV routines used by the pipeline.

* `score P T` is the `TM_CCOEFF_NORMED` response of `cv::matchTemplate` for a window
  patch with content `P` against a template with content `T`; by OpenCV's formula it
  is a function of the two pixel blocks.
* `norm p` is `cv::norm` of a two-component point. -/
structure CvOps (F : Type) where
  score : List (List Nat) → List (List Nat) → F
  norm : Point → F

section Pipeline

variable {F : Type} [LinearOrderedField F]

/-- Model of `cv::matchTemplate(image, templ, result, TM_CCOEFF_NORMED)`: the response
map has one entry per placement of the template inside the image.  When the image is
smaller than the template OpenCV either raises an exception or exchanges the two
arguments; neither is a search for the template and the model gives no result. -/
def matchTemplate (ops : CvOps F) (image templ : Mat Nat) : Option (Mat F) :=
  if templ.cols ≤ image.cols ∧ templ.rows ≤ image.rows then
    some ⟨image.cols - templ.cols + 1, image.rows - templ.rows + 1,
      fun x y => ops.score (image.block x y templ.cols templ.rows) templ.content⟩
  else none

/-- Positions of a `cols × rows` map in the order `cv::minMaxLoc` visits them: row by
row, each row left to right. -/
def scanOrder (cols rows : Nat) : List Point :=
  (List.range rows).flatMap fun (j : Nat) =>
    (List.range cols).map fun (i : Nat) => (⟨(i : Int), (j : Int)⟩ : Point)

/-- One step of the maximum search: the candidate replaces the current best only when
its value is strictly larger. -/
def maxStep (m : Mat F) (best q : Point) : Point :=
  if m.px best.x best.y < m.px q.x q.y then q else best

/-- Model of `cv::minMaxLoc(map, nullptr, nullptr, nullptr, &peak_loc)`: the location
of the maximum, the first one in scan order when the maximum is attained several
times.  An empty map has no location. -/
def minMaxLoc (m : Mat F) : Option Point :=
  match scanOrder m.cols m.rows with
  | [] => none
  | p :: ps => some (ps.foldl (maxStep m) p)

/-! ## Session data -/

/-- Configuration record `SA_Parameters` with the defaults of the header. -/
structure SA_Parameters where
  max_frames : Int := 90
  scale_factor : Int := 2
  template_points : List Point := []
  template_size : Int := 32
  search_window_size : Int := 160
  override_width : Int := 0
  override_height : Int := 0
  rotation : Int := 0

/-- A drawing call recorded on the depth map.  The rasterisation done by `cv::putText`
and by the anti-aliased `cv::circle` is not computed; the call and its arguments are
kept. -/
inductive DrawOp (F : Type) where
  | putText (text : String) (org : Point) (color : Vec3 F)
  | circle (center : Point) (radius : Int) (color : Vec3 F)

/-- An image together with the drawing calls applied to it, in order. -/
structure Drawing (F : Type) where
  canvas : Mat (Vec3 Nat)
  ops : List (DrawOp F)

/-- The private members of class `SyntheticAperture`. -/
structure SyntheticAperture (F : Type) where
  m_params : SA_Parameters
  m_status_message : String
  m_frames_gray : List (Mat Nat)
  m_frames_color : List (Mat (Vec3 Nat))
  m_first_color_frame : Mat (Vec3 Nat)
  m_template_image : Mat Nat
  m_synthetic_image : Mat (Vec3 Nat)
  m_depth_map : Drawing F
  m_parallaxes : List F
  m_multi_template_shifts : List (List Point)
  m_video_loaded : Bool
  m_is_processed : Bool

/-- The constructor `SyntheticAperture::SyntheticAperture()`. -/
def SyntheticAperture.new : SyntheticAperture F :=
  { m_params := {}
    m_status_message := "Ready."
    m_frames_gray := []
    m_frames_color := []
    m_first_color_frame := Mat.none_
    m_template_image := Mat.none_
    m_synthetic_image := Mat.none_
    m_depth_map := ⟨Mat.none_, []⟩
    m_parallaxes := []
    m_multi_template_shifts := []
    m_video_loaded := false
    m_is_processed := false }

/-! ## Accessors -/

/-- Accessor `isVideoLoaded()`. -/
def isVideoLoaded (s : SyntheticAperture F) : Bool := s.m_video_loaded

/-- Accessor `isProcessed()`. -/
def isProcessed (s : SyntheticAperture F) : Bool := s.m_is_processed

/-- Accessor `getTemplateImage()`. -/
def getTemplateImage (s : SyntheticAperture F) : Mat Nat := s.m_template_image

/-- Accessor `getSyntheticImage()`. -/
def getSyntheticImage (s : SyntheticAperture F) : Mat (Vec3 Nat) := s.m_synthetic_image

/-- Accessor `getDepthMap()`. -/
def getDepthMap (s : SyntheticAperture F) : Drawing F := s.m_depth_map

/-- Accessor `getShifts()`: the displacement sequence of template 0, or an empty
sequence when there is none. -/
def getShifts (s : SyntheticAperture F) : List Point :=
  match s.m_multi_template_shifts with
  | [] => []
  | sh :: _ => sh

/-! ## Step 2 and 3: tracking -/

/-- The search margin `(search_window_size - template_size) / 2`, with the truncating
division of C++. -/
def searchMargin (params : SA_Parameters) : Int :=
  Int.tdiv (params.search_window_size - params.template_size) 2

/-- The corner `search_offset` of the unclipped search square of a template. -/
def searchOffset (params : SA_Parameters) (template_origin : Point) : Point :=
  ⟨template_origin.x - searchMargin params, template_origin.y - searchMargin params⟩

/-- The clipped search rectangle of a frame: the square of side `search_window_size`
at `search_offset`, intersected with the frame rectangle. -/
def searchWindowRoi (params : SA_Parameters) (search_offset : Point) (frame : Mat Nat) :
    Rect :=
  (Rect.mk search_offset.x search_offset.y
      params.search_window_size params.search_window_size).inter
    ⟨0, 0, frame.cols, frame.rows⟩

/-- Body of the inner loop of `calculateMultiTemplateShifts` for a frame `i ≥ 1`:
clip the search window to the frame, correlate, take the peak and convert it to a
displacement relative to the template origin. -/
def trackFrame (ops : CvOps F) (params : SA_Parameters) (templ : Mat Nat)
    (template_origin search_offset : Point) (frame : Mat Nat) : Option Point :=
  let search_window_roi := searchWindowRoi params search_offset frame
  let search_window := frame.roi search_window_roi
  match matchTemplate ops search_window templ with
  | none => none
  | some correlation_map =>
    match minMaxLoc correlation_map with
    | none => none
    | some peak_loc =>
      some ⟨(search_window_roi.x + peak_loc.x) - template_origin.x,
            (search_window_roi.y + peak_loc.y) - template_origin.y⟩

/-- The inner loop of `calculateMultiTemplateShifts` over the frames `i ≥ 1`. -/
def trackRest (ops : CvOps F) (params : SA_Parameters) (templ : Mat Nat)
    (template_origin search_offset : Point) : List (Mat Nat) → Option (List Point)
  | [] => some []
  | f :: fs =>
    match trackFrame ops params templ template_origin search_offset f with
    | none => none
    | some d =>
      match trackRest ops params templ template_origin search_offset fs with
      | none => none
      | some ds => some (d :: ds)

/-- Body of the outer loop of `calculateMultiTemplateShifts` for one template: the
reference patch cut from frame 0 and the displacement sequence over all frames, entry
0 being `(0, 0)` without a search.  With no frame at all `m_frames_gray[0]` does not
exist. -/
def trackTemplate (ops : CvOps F) (params : SA_Parameters) (frames : List (Mat Nat))
    (template_origin : Point) : Option (Mat Nat × List Point) :=
  match frames with
  | [] => none
  | f0 :: rest =>
    let template_roi : Rect :=
      ⟨template_origin.x, template_origin.y, params.template_size, params.template_size⟩
    let templ := f0.roi template_roi
    let search_offset := searchOffset params template_origin
    match trackRest ops params templ template_origin search_offset rest with
    | none => none
    | some ds => some (templ, ⟨0, 0⟩ :: ds)

/-- The outer loop of `calculateMultiTemplateShifts`: templates are handled in input
order; `m_template_image` is overwritten by each of them. -/
def trackAll (ops : CvOps F) (params : SA_Parameters) (frames : List (Mat Nat)) :
    List Point → Mat Nat → Option (Mat Nat × List (List Point))
  | [], timg => some (timg, [])
  | pt :: pts, _ =>
    match trackTemplate ops params frames pt with
    | none => none
    | some (templ, sh) =>
      match trackAll ops params frames pts templ with
      | none => none
      | some (timg, shs) => some (timg, sh :: shs)

/-- Method `calculateMultiTemplateShifts()`. -/
def calculateMultiTemplateShifts (ops : CvOps F) (s : SyntheticAperture F) :
    Option (SyntheticAperture F) :=
  match trackAll ops s.m_params s.m_frames_gray s.m_params.template_points
      s.m_template_image with
  | none => none
  | some (timg, shs) =>
    some { s with m_template_image := timg, m_multi_template_shifts := shs }

/-! ## Step 4: depth map -/

/-- The constant `std::numeric_limits<float>::max()`. -/
def FLT_MAX : F := (2 ^ 24 - 1) * 2 ^ 104

/-- The constant `std::numeric_limits<float>::min()`, the smallest positive normal
`float`. -/
def FLT_MIN : F := 1 / 2 ^ 126

/-- The threshold `1e-5` guarding the division in `createDepthMap`. -/
def rangeEps : F := 1 / 100000

/-- Body of the first loop of `createDepthMap`: the state is the parallax list, the
running minimum and the running maximum.  An empty displacement sequence contributes
parallax 0 and leaves the extrema alone. -/
def parallaxStep (ops : CvOps F) (acc : List F × F × F) (shifts : List Point) :
    List F × F × F :=
  match shifts.getLast? with
  | none => (acc.1 ++ [0], acc.2.1, acc.2.2)
  | some last =>
    let parallax := ops.norm last
    (acc.1 ++ [parallax], min acc.2.1 parallax, max acc.2.2 parallax)

/-- The first loop of `createDepthMap`, started from `FLT_MAX` and `FLT_MIN`. -/
def parallaxScan (ops : CvOps F) (shifts : List (List Point)) : List F × F × F :=
  shifts.foldl (parallaxStep ops) ([], FLT_MAX, FLT_MIN)

/-- Normalised depth value of one parallax, as computed in the second loop. -/
def normalizedDepth (min_parallax parallax_range p : F) : F :=
  if parallax_range > rangeEps then (p - min_parallax) / parallax_range else 0

/-- Colour `cv::Scalar(255 * (1 - p), 0, 255 * p)` of a normalised depth value. -/
def depthColor (normalized_p : F) : Vec3 F :=
  ![255 * (1 - normalized_p), 0, 255 * normalized_p]

/-- The second loop of `createDepthMap`: one filled disc per parallax, centred on the
template at the same index.  A parallax without a template point at its index is an
out-of-range access. -/
def paintDiscs (params : SA_Parameters) (min_parallax parallax_range : F) :
    List F → List Point → Option (List (DrawOp F))
  | [], _ => some []
  | _ :: _, [] => none
  | p :: ps, pt :: pts =>
    let color := depthColor (normalizedDepth min_parallax parallax_range p)
    let half := Int.tdiv params.template_size 2
    let center : Point := ⟨pt.x + half, pt.y + half⟩
    match paintDiscs params min_parallax parallax_range ps pts with
    | none => none
    | some rest => some (DrawOp.circle center params.template_size color :: rest)

/-- All-zero image `cv::Mat::zeros(size, type)`. -/
def Mat.zeros {α : Type} [Zero α] (cols rows : Nat) : Mat α := ⟨cols, rows, fun _ _ => 0⟩

/-- Method `createDepthMap()`. -/
def createDepthMap (ops : CvOps F) (s : SyntheticAperture F) :
    Option (SyntheticAperture F) :=
  let blank : Mat (Vec3 Nat) :=
    Mat.zeros s.m_first_color_frame.cols s.m_first_color_frame.rows
  if s.m_multi_template_shifts.length < 2 then
    let msg := "Depth map requires at least 2 templates."
    some { s with
      m_parallaxes := []
      m_status_message := msg
      m_depth_map :=
        ⟨s.m_first_color_frame, [DrawOp.putText msg ⟨10, 30⟩ ![0, 0, 255]]⟩ }
  else
    let scan := parallaxScan ops s.m_multi_template_shifts
    let min_parallax := scan.2.1
    let max_parallax := scan.2.2
    let parallax_range := max_parallax - min_parallax
    match paintDiscs s.m_params min_parallax parallax_range scan.1
        s.m_params.template_points with
    | none => none
    | some discs =>
      some { s with m_parallaxes := scan.1, m_depth_map := ⟨blank, discs⟩ }

/-! ## Step 5: synthetic aperture photograph -/

/-- Model of `cv::warpAffine(src, dst, M, src.size(), INTER_LINEAR, BORDER_CONSTANT, 0)`
for the translation matrix `M = (1, 0, tx; 0, 1, ty)` with whole-number entries.
OpenCV inverts `M` and reads `dst(x, y)` from `src` at `(x - tx, y - ty)`; with
whole-number offsets bilinear sampling returns that pixel itself, and positions
outside the source give the border value 0. -/
def warpAffine (src : Mat (Vec3 Nat)) (tx ty : Int) : Mat (Vec3 Nat) :=
  ⟨src.cols, src.rows, fun x y c =>
    if 0 ≤ x - tx ∧ x - tx < src.cols ∧ 0 ≤ y - ty ∧ y - ty < src.rows then
      src.px (x - tx) (y - ty) c
    else 0⟩

/-- The accumulation loop of `createSyntheticImage`.  The `float` sums are whole
numbers and are kept as rationals.  Adding images of different size raises an
exception, and so does a frame without a displacement at its index. -/
def accumulateFrames :
    List (Mat (Vec3 Nat)) → List Point → Mat (Vec3 ℚ) → Option (Mat (Vec3 ℚ))
  | [], _, acc => some acc
  | _ :: _, [], _ => none
  | color_frame :: fs, sh :: shs, acc =>
    let shifted_frame := warpAffine color_frame (-sh.x) (-sh.y)
    if acc.sameSize shifted_frame then
      accumulateFrames fs shs
        ⟨acc.cols, acc.rows, fun x y c => acc.px x y c + (shifted_frame.px x y c : ℚ)⟩
    else none

/-- Rounding `cvRound`: to the nearest whole number, halves to the even neighbour. -/
def cvRound (q : ℚ) : Int :=
  let f := ⌊q⌋
  if q - f < 1 / 2 then f
  else if 1 / 2 < q - f then f + 1
  else if f % 2 = 0 then f else f + 1

/-- Conversion `cv::saturate_cast<uchar>` of a floating-point value: round, then clip
to `0 .. 255`. -/
def saturate_cast (q : ℚ) : Nat := (min (max (cvRound q) 0) 255).toNat

/-- Method `createSyntheticImage()`. -/
def createSyntheticImage (s : SyntheticAperture F) : Option (SyntheticAperture F) :=
  match s.m_multi_template_shifts with
  | [] => some { s with m_synthetic_image := Mat.none_ }
  | shifts :: _ =>
    match s.m_frames_color with
    | [] => none
    | c0 :: _ =>
      match accumulateFrames s.m_frames_color shifts (Mat.zeros c0.cols c0.rows) with
      | none => none
      | some total =>
        some { s with
          m_synthetic_image :=
            ⟨total.cols, total.rows, fun x y c =>
              saturate_cast (total.px x y c / (s.m_frames_color.length : ℚ))⟩ }

/-! ## `process` -/

/-- The test of the validation loop of `process`: the template square clipped to the
frame differs from the template square. -/
def outsideFrame (template_size : Int) (frame_rect : Rect) (pt : Point) : Bool :=
  let template_rect : Rect := ⟨pt.x, pt.y, template_size, template_size⟩
  template_rect.inter frame_rect != template_rect

/-- Assignment to `m_status_message`. -/
def setStatus (s : SyntheticAperture F) (msg : String) : SyntheticAperture F :=
  { s with m_status_message := msg }

/-- The first assignments of `process` after the loaded check: `m_params = params` and
`m_is_processed = false`. -/
def beginProcess (s : SyntheticAperture F) (params : SA_Parameters) : SyntheticAperture F :=
  { s with m_params := params, m_is_processed := false }

/-- The last assignments of `process`: `m_is_processed = true` and the final status. -/
def finishProcess (s : SyntheticAperture F) : SyntheticAperture F :=
  { s with m_is_processed := true, m_status_message := "Processing complete!" }

/-- Method `process(params)`: the returned flag and the session afterwards. -/
def process (ops : CvOps F) (s : SyntheticAperture F) (params : SA_Parameters) :
    Option (Bool × SyntheticAperture F) :=
  if s.m_video_loaded = false then
    some (false, setStatus s "Cannot process. Load a video first.")
  else
    let s := beginProcess s params
    if s.m_params.template_points.isEmpty then
      some (false, setStatus s "Error: No templates have been selected.")
    else
      match s.m_frames_gray with
      | [] => none
      | f0 :: _ =>
        let frame_rect : Rect := ⟨0, 0, f0.cols, f0.rows⟩
        if s.m_params.template_points.any
            (outsideFrame s.m_params.template_size frame_rect) then
          some (false, setStatus s "Error: A template is outside frame boundaries.")
        else
          match calculateMultiTemplateShifts ops
              (setStatus s "Processing... Calculating shifts for all templates.") with
          | none => none
          | some s1 =>
            match createDepthMap ops
                (setStatus s1 "Processing... Creating depth map.") with
            | none => none
            | some s2 =>
              match createSyntheticImage
                  (setStatus s2
                    "Processing... Creating synthetic image (using first template).") with
              | none => none
              | some s3 => some (true, finishProcess s3)

/-! ## `loadVideo` -/

/-- What `cv::VideoCapture` together with the per-frame preparation (resize, rotation,
down-scaling, grey conversion) delivers for a path and a configuration: `none` when
the source cannot be opened, otherwise the prepared pairs `(small_color, small_gray)`
in stream order. -/
abbrev VideoSource := Option (List (Mat (Vec3 Nat) × Mat Nat))

/-- The assignments at the head of `loadVideo`: the flags are reset and the frames, the
displacement sequences, the parallax list, the depth map and the synthetic image are
cleared.  The template patch image, the stored parameters and the first-frame copy are
not assigned there. -/
def clearSession (s : SyntheticAperture F) : SyntheticAperture F :=
  { s with
    m_status_message := "Loading video..."
    m_video_loaded := false
    m_is_processed := false
    m_frames_gray := []
    m_frames_color := []
    m_multi_template_shifts := []
    m_parallaxes := []
    m_depth_map := ⟨Mat.none_, []⟩
    m_synthetic_image := Mat.none_ }

/-- Method `loadVideo(video_path, params)`: the returned flag and the session
afterwards.  The reading loop stops after `max_frames` frames or at the end of the
stream, whichever comes first; frame 0 of the colour frames exists exactly when a grey
frame was stored. -/
def loadVideo (src : VideoSource) (video_path : String) (s : SyntheticAperture F)
    (params : SA_Parameters) : Bool × SyntheticAperture F :=
  let s := clearSession s
  match src with
  | none =>
    (false, setStatus s
      ("FATAL ERROR: Video file not found at \x27" ++ video_path ++ "\x27"))
  | some stream =>
    let taken := stream.take params.max_frames.toNat
    let s := { s with m_frames_gray := taken.map Prod.snd
                      m_frames_color := taken.map Prod.fst }
    match taken with
    | [] => (false, setStatus s "Error: No frames were loaded from the video.")
    | first :: _ =>
      (true, { s with
        m_first_color_frame := first.1
        m_video_loaded := true
        m_status_message :=
          "Successfully loaded " ++ toString taken.length ++ " frames." })

/-! ## Well-formed sessions -/

/-- Facts about the stored frames that hold in every session reached through
`loadVideo` from a video whose frames all have one size: a loaded session has a frame,
there are as many colour frames as grey frames, and every stored image has the size of
every grey frame. -/
structure WellFormed (s : SyntheticAperture F) : Prop where
  loaded_nonempty : s.m_video_loaded = true → s.m_frames_gray ≠ []
  same_count : s.m_frames_color.length = s.m_frames_gray.length
  gray_size : ∀ f ∈ s.m_frames_gray, ∀ g ∈ s.m_frames_gray, f.sameSize g
  color_size : ∀ c ∈ s.m_frames_color, ∀ g ∈ s.m_frames_gray, c.sameSize g
  first_size : ∀ g ∈ s.m_frames_gray, s.m_first_color_frame.sameSize g

/-- A template origin whose `template_size` square lies inside a frame. -/
def InBounds (template_size : Int) (frame : Mat Nat) (pt : Point) : Prop :=
  0 ≤ pt.x ∧ 0 ≤ pt.y ∧
    pt.x + template_size ≤ frame.cols ∧ pt.y + template_size ≤ frame.rows

instance (template_size : Int) (frame : Mat Nat) (pt : Point) :
    Decidable (InBounds template_size frame pt) := by
  unfold InBounds; infer_instance

/-- The three conditions under which `process` goes through: a video is loaded, there
is a template, and every template square lies inside frame 0. -/
def Accepts (s : SyntheticAperture F) (params : SA_Parameters) : Prop :=
  s.m_video_loaded = true ∧ params.template_points ≠ [] ∧
    ∃ f0, s.m_frames_gray.head? = some f0 ∧
      ∀ pt ∈ params.template_points, InBounds params.template_size f0 pt

/-! ## Notions used in the statements -/

/-- The response map searched for one frame: one entry per placement of the template
inside the clipped search rectangle `r`, computed from the frame block at that
placement and the reference block cut from frame 0. -/
def responseMap (ops : CvOps F) (frame : Mat Nat) (r : Rect) (size : Nat)
    (reference : List (List Nat)) : Mat F :=
  ⟨r.width.toNat - size + 1, r.height.toNat - size + 1,
    fun x y => ops.score (frame.block (r.x + x) (r.y + y) size size) reference⟩

/-- The members `createDepthMap` leaves alone. -/
def SameFrames (s t : SyntheticAperture F) : Prop :=
  t.m_params = s.m_params ∧ t.m_frames_gray = s.m_frames_gray ∧
    t.m_frames_color = s.m_frames_color ∧
    t.m_first_color_frame = s.m_first_color_frame ∧
    t.m_template_image = s.m_template_image ∧
    t.m_multi_template_shifts = s.m_multi_template_shifts ∧
    t.m_video_loaded = s.m_video_loaded ∧ t.m_is_processed = s.m_is_processed

/-- The placements examined in a frame for the template at `pt`, as top-left corners
in frame coordinates: those at which the template square lies inside the clipped search
rectangle. -/
def IsCandidate (params : SA_Parameters) (pt : Point) (frame : Mat Nat) (a : Point) :
    Prop :=
  (searchWindowRoi params (searchOffset params pt) frame).x ≤ a.x ∧
    a.x + params.template_size ≤
      (searchWindowRoi params (searchOffset params pt) frame).x
        + (searchWindowRoi params (searchOffset params pt) frame).width ∧
    (searchWindowRoi params (searchOffset params pt) frame).y ≤ a.y ∧
    a.y + params.template_size ≤
      (searchWindowRoi params (searchOffset params pt) frame).y
        + (searchWindowRoi params (searchOffset params pt) frame).height

/-- The correlation response of a frame at a placement given in frame coordinates,
against the reference patch cut from frame 0 at `pt`. -/
def responseAt (ops : CvOps F) (params : SA_Parameters) (f0 : Mat Nat) (pt : Point)
    (frame : Mat Nat) (a : Point) : F :=
  ops.score
    (frame.block a.x a.y params.template_size.toNat params.template_size.toNat)
    (f0.roi ⟨pt.x, pt.y, params.template_size, params.template_size⟩).content

/-- The parallax the first loop of `createDepthMap` pushes for one displacement
sequence: the norm of its last entry, or 0 for an empty sequence. -/
def parallaxOf (ops : CvOps F) (shifts : List Point) : F :=
  match shifts.getLast? with
  | none => 0
  | some last => ops.norm last

/-- The routine `norm` returns the Euclidean length at `p`. -/
def EuclideanAt (ops : CvOps F) (p : Point) : Prop :=
  0 ≤ ops.norm p ∧ ops.norm p ^ 2 = ((p.x ^ 2 + p.y ^ 2 : Int) : F)

/-- A displacement of fewer than `2 ^ 15` pixels in each direction. -/
def SmallShift (p : Point) : Prop := p.x.natAbs ≤ 32767 ∧ p.y.natAbs ≤ 32767

instance (p : Point) : Decidable (SmallShift p) := by
  unfold SmallShift; infer_instance

/-- The disc painted for the template at `pt`: centre at the patch centre, radius
`template_size`, filled with `color`. -/
def discAt (params : SA_Parameters) (pt : Point) (color : Vec3 F) : DrawOp F :=
  DrawOp.circle
    ⟨pt.x + Int.tdiv params.template_size 2, pt.y + Int.tdiv params.template_size 2⟩
    params.template_size color

/-- The near endpoint of the gradient: blue 0, green 0, red 255. -/
def nearColor : Vec3 F := ![0, 0, 255]

/-- The far endpoint of the gradient: blue 255, green 0, red 0. -/
def farColor : Vec3 F := ![255, 0, 0]

/-- A stream whose prepared frames, colour and grey, all have one size. -/
def UniformStream (stream : List (Mat (Vec3 Nat) × Mat Nat)) : Prop :=
  ∀ a ∈ stream, ∀ b ∈ stream, a.1.sameSize b.2 ∧ a.2.sameSize b.2

end Pipeline

/-! ## Sample data -/

/-- A matcher that recognises exact copies only (response 1 for an identical block,
0 otherwise), with the whole-number square root as norm. -/
def exactOps : CvOps ℚ :=
  ⟨fun P T => if P = T then 1 else 0,
    fun p => (Nat.sqrt (p.x.natAbs ^ 2 + p.y.natAbs ^ 2) : ℚ)⟩

/-- A `6 × 6` grey frame: dark, with one bright pixel at `(cx, cy)`. -/
def dotGray (cx cy : Int) : Mat Nat :=
  ⟨6, 6, fun x y => if x = cx ∧ y = cy then 200 else 10⟩

/-- The colour frame belonging to `dotGray`. -/
def dotColor (cx cy : Int) : Mat (Vec3 Nat) :=
  ⟨6, 6, fun x y _ => if x = cx ∧ y = cy then 200 else 10⟩

/-- A two-frame stream in which the bright pixel moves from `(2, 2)` to `(3, 2)`. -/
def dotStream : List (Mat (Vec3 Nat) × Mat Nat) :=
  [(dotColor 2 2, dotGray 2 2), (dotColor 3 2, dotGray 3 2)]

/-- The session after loading `dotStream` into a fresh object. -/
def dotSession : SyntheticAperture ℚ :=
  (loadVideo (some dotStream) "dot.mp4" SyntheticAperture.new {}).2

/-- One template of size 2 at `(1, 1)`, search window 4. -/
def dotParams : SA_Parameters :=
  { template_points := [⟨1, 1⟩], template_size := 2, search_window_size := 4 }

/-- The same configuration with the template at `(5, 1)`: its right edge, 7, lies
beyond the frame width 6. -/
def dotParamsOut : SA_Parameters :=
  { template_points := [⟨5, 1⟩], template_size := 2, search_window_size := 4 }

/-- A configuration with one template at `(5, 5)` and `template_size = 0`. -/
def dotParamsZero : SA_Parameters :=
  { template_points := [⟨5, 5⟩], template_size := 0, search_window_size := 4 }

/-- The sample session holding the displacement sequences of three templates whose last
entries are `(3, 4)`, `(0, 0)` and `(0, 3)`, with three template points. -/
def dotSpread : SyntheticAperture ℚ :=
  { dotSession with
    m_params :=
      { template_points := [⟨1, 1⟩, ⟨3, 3⟩, ⟨2, 0⟩], template_size := 2,
        search_window_size := 4 }
    m_multi_template_shifts := [[⟨0, 0⟩, ⟨3, 4⟩], [⟨0, 0⟩, ⟨0, 0⟩], [⟨0, 0⟩, ⟨0, 3⟩]] }

/-- The sample session holding the displacement sequences of two templates that both
end in `(3, 4)`. -/
def dotEqual : SyntheticAperture ℚ :=
  { dotSession with
    m_params :=
      { template_points := [⟨1, 1⟩, ⟨3, 3⟩], template_size := 2, search_window_size := 4 }
    m_multi_template_shifts := [[⟨0, 0⟩, ⟨3, 4⟩], [⟨0, 0⟩, ⟨3, 4⟩]] }

/-- A `12 × 10` grey frame: dark background with a uniformly bright `8 × 8` object whose
left edge is at column `left` and whose rows are `1 .. 8`. -/
def blobGray (left : Int) : Mat Nat :=
  ⟨12, 10, fun x y => if left ≤ x ∧ x < left + 8 ∧ 1 ≤ y ∧ y < 9 then 200 else 10⟩

/-- One template of size 2 at `(4, 4)`, search window 4, hence search margin 1. -/
def blobParams : SA_Parameters :=
  { template_points := [⟨4, 4⟩], template_size := 2, search_window_size := 4 }

/-- Whatever the response function and the norm of the OpenCV routines are, tracking
the template at `pt` through `frames` yields the displacement sequence `sh`. -/
def TracksTo (params : SA_Parameters) (frames : List (Mat Nat)) (pt : Point)
    (sh : List Point) : Prop :=
  ∀ (F : Type) [LinearOrderedField F] (ops : CvOps F),
    ∃ t, trackTemplate ops params frames pt = some (t, sh)

/-- Frame `i` of the end-to-end scenario: `100 × 100`, solid background, one bright
`20 × 20` square that starts at `(qx, qy)` and moves by `(1, 0)` per frame. -/
def squareGray (qx qy i : Int) : Mat Nat :=
  ⟨100, 100, fun x y =>
    if qx + i ≤ x ∧ x < qx + i + 20 ∧ qy ≤ y ∧ y < qy + 20 then 220 else 40⟩

/-- The colour frame belonging to `squareGray`. -/
def squareColor (qx qy i : Int) : Mat (Vec3 Nat) :=
  ⟨100, 100, fun x y _ =>
    if qx + i ≤ x ∧ x < qx + i + 20 ∧ qy ≤ y ∧ y < qy + 20 then 220 else 40⟩

/-- The indices of the frames after frame 0 in the ten-frame scenario. -/
def squareSteps : List Int := [1, 2, 3, 4, 5, 6, 7, 8, 9]

/-- The ten grey frames of the scenario. -/
def squareFrames (qx qy : Int) : List (Mat Nat) :=
  squareGray qx qy 0 :: squareSteps.map (squareGray qx qy)

/-- The ten prepared frame pairs of the scenario. -/
def squareStream (qx qy : Int) : List (Mat (Vec3 Nat) × Mat Nat) :=
  (0 :: squareSteps).map fun i => (squareColor qx qy i, squareGray qx qy i)

/-- The session after loading the scenario into a fresh object. -/
def squareSession (qx qy : Int) : SyntheticAperture ℚ :=
  (loadVideo (some (squareStream qx qy)) "square.mp4" SyntheticAperture.new {}).2

/-- The configuration of the scenario: templates at `(10, 10)` and `(60, 60)`,
`template_size = 20`, `search_window_size = 40`. -/
def squareParams : SA_Parameters :=
  { template_points := [⟨10, 10⟩, ⟨60, 60⟩], template_size := 20, search_window_size := 40 }

/-- The displacement series `(0,0), (1,0), ..., (9,0)`. -/
def movingSeries : List Point := ⟨0, 0⟩ :: squareSteps.map fun i => ⟨i, 0⟩

/-- The displacement series `(0,0), (-10,-10), ..., (-10,-10)` of ten entries. -/
def cornerSeries : List Point := ⟨0, 0⟩ :: squareSteps.map fun _ => ⟨-10, -10⟩

/-- The displacement series that is `(0,0)` in all ten frames. -/
def zeroSeries : List Point := ⟨0, 0⟩ :: squareSteps.map fun _ => ⟨0, 0⟩

/-- The condition under which the scenario's first template is matched: among the
blocks examined for it in the frames 1 to 9, every block that is not an exact copy of
the reference patch responds strictly below the response of the reference patch to
itself. -/
def CopyWins {F : Type} [LinearOrderedField F] (ops : CvOps F) (qx qy : Int) : Prop :=
  ∀ i ∈ squareSteps, ∀ b, IsCandidate squareParams ⟨10, 10⟩ (squareGray qx qy i) b →
    (squareGray qx qy i).block b.x b.y 20 20 ≠ (squareGray qx qy 0).block 10 10 20 20 →
    responseAt ops squareParams (squareGray qx qy 0) ⟨10, 10⟩ (squareGray qx qy i) b <
      ops.score ((squareGray qx qy 0).block 10 10 20 20)
        ((squareGray qx qy 0).block 10 10 20 20)

/-- A pixel block all of whose values are one and the same. -/
def FlatBlock (T : List (List Nat)) : Prop := ∃ v, ∀ row ∈ T, ∀ x ∈ row, x = v

/-- The behaviour of `cv::matchTemplate` with `TM_CCOEFF_NORMED` for a template of zero
variance: the response does not depend on the window patch. -/
def FlatTemplateTies {F : Type} (ops : CvOps F) : Prop :=
  ∀ T, FlatBlock T → ∀ P P', ops.score P T = ops.score P' T

/-- Value of channel `c` of a colour frame at `(x, y)`; positions outside the frame
count as black. -/
def sample (f : Mat (Vec3 Nat)) (x y : Int) (c : Fin 3) : Nat :=
  if 0 ≤ x ∧ x < f.cols ∧ 0 ≤ y ∧ y < f.rows then f.px x y c else 0

/-- Sum over the frames `i` of frame `i` sampled at `(x + sx_i, y + sy_i)`, where
`(sx_i, sy_i)` is the `i`-th entry of the displacement sequence. -/
def shiftedSum (frames : List (Mat (Vec3 Nat))) (shifts : List Point) (x y : Int)
    (c : Fin 3) : ℚ :=
  (List.zipWith (fun f sh => (sample f (x + sh.x) (y + sh.y) c : ℚ)) frames shifts).sum

/-- Row-major scan order on placements: an earlier row, or the same row and an earlier
column. -/
def ScanBefore (a b : Point) : Prop := a.y < b.y ∨ (a.y = b.y ∧ a.x < b.x)

/-- A pixel position lies inside a rectangle. -/
def Rect.Contains (r : Rect) (q : Point) : Prop :=
  r.x ≤ q.x ∧ q.x < r.x + r.width ∧ r.y ≤ q.y ∧ q.y < r.y + r.height

/-- A second configuration for the sample session: templates at `(2, 2)` and `(1, 1)`,
size 2, search window 4. -/
def dotParamsAlt : SA_Parameters :=
  { template_points := [⟨2, 2⟩, ⟨1, 1⟩], template_size := 2, search_window_size := 4 }

/-! ## Rectangle facts -/

theorem outsideFrame_eq_false_iff (template_size : Int) (frame : Mat Nat) (pt : Point)
    (hts : 0 < template_size) :
    outsideFrame template_size ⟨0, 0, frame.cols, frame.rows⟩ pt = false ↔
      InBounds template_size frame pt := by
  unfold outsideFrame InBounds Rect.inter
  simp only [bne_eq_false_iff_eq]
  constructor
  · intro h
    split_ifs at h with hc
    · simp only [Rect.mk.injEq] at h
      omega
    · simp only [Rect.mk.injEq] at h
      omega
  · intro h
    rw [if_neg (by omega)]
    simp only [Rect.mk.injEq]
    omega

/-- The search margin and the clipped search rectangle of an in-bounds template: the
rectangle lies inside the frame, starts at the clamped offset and contains the
template square. -/
theorem searchWindowRoi_contains (params : SA_Parameters) (frame : Mat Nat) (pt : Point)
    (hts : 0 < params.template_size)
    (hsw : params.template_size ≤ params.search_window_size)
    (hin : InBounds params.template_size frame pt) :
    (0 ≤ searchMargin params ∧
      2 * searchMargin params ≤ params.search_window_size - params.template_size ∧
      params.search_window_size - params.template_size ≤ 2 * searchMargin params + 1) ∧
    ((searchWindowRoi params (searchOffset params pt) frame).x
        = max (pt.x - searchMargin params) 0 ∧
      (searchWindowRoi params (searchOffset params pt) frame).y
        = max (pt.y - searchMargin params) 0) ∧
    ((searchWindowRoi params (searchOffset params pt) frame).x
        + (searchWindowRoi params (searchOffset params pt) frame).width
        = min (pt.x - searchMargin params + params.search_window_size) frame.cols ∧
      (searchWindowRoi params (searchOffset params pt) frame).y
        + (searchWindowRoi params (searchOffset params pt) frame).height
        = min (pt.y - searchMargin params + params.search_window_size) frame.rows) ∧
    ((searchWindowRoi params (searchOffset params pt) frame).x ≤ pt.x ∧
      pt.x + params.template_size ≤
        (searchWindowRoi params (searchOffset params pt) frame).x
          + (searchWindowRoi params (searchOffset params pt) frame).width) ∧
    ((searchWindowRoi params (searchOffset params pt) frame).y ≤ pt.y ∧
      pt.y + params.template_size ≤
        (searchWindowRoi params (searchOffset params pt) frame).y
          + (searchWindowRoi params (searchOffset params pt) frame).height) := by
  have hm : searchMargin params
      = (params.search_window_size - params.template_size) / 2 :=
    Int.tdiv_eq_ediv (by omega) (by omega)
  obtain ⟨h1, h2, h3, h4⟩ := hin
  have hr : searchWindowRoi params (searchOffset params pt) frame
      = ⟨max (pt.x - searchMargin params) 0, max (pt.y - searchMargin params) 0,
      min (pt.x - searchMargin params + params.search_window_size) (0 + (frame.cols : Int))
        - max (pt.x - searchMargin params) 0,
      min (pt.y - searchMargin params + params.search_window_size) (0 + (frame.rows : Int))
        - max (pt.y - searchMargin params) 0⟩ := by
    unfold searchWindowRoi searchOffset Rect.inter
    simp only []
    rw [if_neg (by omega)]
  rw [hr]
  dsimp only
  omega

/-! ## Facts about the maximum search -/

section Search

variable {F : Type} [LinearOrderedField F]

theorem mem_scanOrder (cols rows : Nat) (q : Point) :
    q ∈ scanOrder cols rows ↔ ∃ i j : Nat, i < cols ∧ j < rows ∧ q = ⟨(i : Int), (j : Int)⟩ := by
  unfold scanOrder
  simp only [List.mem_flatMap, List.mem_map, List.mem_range]
  constructor
  · rintro ⟨j, hj, i, hi, rfl⟩
    exact ⟨i, j, hi, hj, rfl⟩
  · rintro ⟨i, j, hi, hj, rfl⟩
    exact ⟨j, hj, i, hi, rfl⟩

theorem scanOrder_head (cols rows : Nat) (hc : 0 < cols) (hr : 0 < rows) :
    ∃ rest, scanOrder cols rows = ⟨0, 0⟩ :: rest := by
  obtain ⟨c, rfl⟩ : ∃ c, cols = c + 1 := ⟨cols - 1, by omega⟩
  obtain ⟨r, rfl⟩ : ∃ r, rows = r + 1 := ⟨rows - 1, by omega⟩
  unfold scanOrder
  rw [List.range_succ_eq_map r, List.flatMap_cons, List.range_succ_eq_map c, List.map_cons]
  exact ⟨_, rfl⟩

theorem foldl_maxStep_first (m : Mat F) (l : List Point) (p : Point)
    (h : ∀ q ∈ l, m.px q.x q.y ≤ m.px p.x p.y) : l.foldl (maxStep m) p = p := by
  induction l with
  | nil => rfl
  | cons a l ih =>
    have ha : maxStep m p a = p := by
      unfold maxStep
      rw [if_neg (not_lt.mpr (h a (List.mem_cons_self a l)))]
    rw [List.foldl_cons, ha]
    exact ih fun q hq => h q (List.mem_cons_of_mem a hq)

theorem foldl_maxStep_unique (m : Mat F) (qs : Point) (l : List Point) :
    ∀ p : Point, (p = qs ∨ qs ∈ l) →
      (∀ q ∈ l, q ≠ qs → m.px q.x q.y < m.px qs.x qs.y) →
      (p ≠ qs → m.px p.x p.y < m.px qs.x qs.y) →
      l.foldl (maxStep m) p = qs := by
  induction l with
  | nil =>
    intro p hp _ _
    rcases hp with hp | hp
    · simpa using hp
    · simp at hp
  | cons a l ih =>
    intro p hp hl hlt
    rw [List.foldl_cons]
    have hl2 : ∀ q ∈ l, q ≠ qs → m.px q.x q.y < m.px qs.x qs.y :=
      fun q hq => hl q (List.mem_cons_of_mem a hq)
    by_cases hpq : p = qs
    · subst hpq
      have hstep : maxStep m p a = p := by
        unfold maxStep
        by_cases hap : a = p
        · subst hap; simp
        · rw [if_neg (not_lt.mpr (le_of_lt (hl a (List.mem_cons_self a l) hap)))]
      rw [hstep]
      exact ih p (Or.inl rfl) hl2 (fun hne => absurd rfl hne)
    · have hmem : qs ∈ a :: l := by
        rcases hp with hp | hp
        · exact absurd hp hpq
        · exact hp
      by_cases haq : a = qs
      · subst haq
        have hstep : maxStep m p a = a := by
          unfold maxStep
          rw [if_pos (hlt hpq)]
        rw [hstep]
        exact ih a (Or.inl rfl) hl2 (fun hne => absurd rfl hne)
      · have hin : qs ∈ l := by
          rcases List.mem_cons.mp hmem with h | h
          · exact absurd h.symm haq
          · exact h
        apply ih (maxStep m p a) (Or.inr hin) hl2
        intro _
        unfold maxStep
        split_ifs
        · exact hl a (List.mem_cons_self a l) haq
        · exact hlt hpq

theorem minMaxLoc_isSome (m : Mat F) (hc : 0 < m.cols) (hr : 0 < m.rows) :
    ∃ p, minMaxLoc m = some p := by
  obtain ⟨rest, h⟩ := scanOrder_head m.cols m.rows hc hr
  unfold minMaxLoc
  rw [h]
  exact ⟨_, rfl⟩

/-- When no entry exceeds the first one, the first position of the scan is returned. -/
theorem minMaxLoc_of_ties (m : Mat F) (hc : 0 < m.cols) (hr : 0 < m.rows)
    (h : ∀ q ∈ scanOrder m.cols m.rows, m.px q.x q.y ≤ m.px 0 0) :
    minMaxLoc m = some ⟨0, 0⟩ := by
  obtain ⟨rest, hs⟩ := scanOrder_head m.cols m.rows hc hr
  unfold minMaxLoc
  rw [hs] at h ⊢
  simp only
  rw [foldl_maxStep_first m rest ⟨0, 0⟩ fun q hq => h q (List.mem_cons_of_mem _ hq)]

/-- When one position carries a value strictly above every other one, it is returned. -/
theorem minMaxLoc_of_strict (m : Mat F) (qs : Point) (hq : qs ∈ scanOrder m.cols m.rows)
    (h : ∀ q ∈ scanOrder m.cols m.rows, q ≠ qs → m.px q.x q.y < m.px qs.x qs.y) :
    minMaxLoc m = some qs := by
  unfold minMaxLoc
  cases hs : scanOrder m.cols m.rows with
  | nil => rw [hs] at hq; simp at hq
  | cons p ps =>
    rw [hs] at hq h
    simp only
    rw [foldl_maxStep_unique m qs ps p]
    · rcases List.mem_cons.mp hq with h1 | h1
      · exact Or.inl h1.symm
      · exact Or.inr h1
    · exact fun q hq2 => h q (List.mem_cons_of_mem p hq2)
    · exact fun hne => h p (List.mem_cons_self p ps) hne

end Search

/-! ## Facts about tracking -/

section Tracking

variable {F : Type} [LinearOrderedField F]

theorem roi_block {α : Type} (m : Mat α) (r : Rect) (x y : Int) (w h : Nat) :
    (m.roi r).block x y w h = m.block (r.x + x) (r.y + y) w h := by
  unfold Mat.block Mat.roi
  simp only [add_assoc]

theorem roi_content {α : Type} (m : Mat α) (r : Rect) :
    (m.roi r).content = m.block r.x r.y r.width.toNat r.height.toNat := by
  unfold Mat.content
  rw [roi_block]
  simp [Mat.roi]

theorem matchTemplate_roi (ops : CvOps F) (frame templ : Mat Nat) (r : Rect) (size : Nat)
    (hc : templ.cols = size) (hr : templ.rows = size)
    (hw : size ≤ r.width.toNat) (hh : size ≤ r.height.toNat) :
    matchTemplate ops (frame.roi r) templ =
      some (responseMap ops frame r size templ.content) := by
  unfold matchTemplate responseMap
  have h1 : (frame.roi r).cols = r.width.toNat := rfl
  have h2 : (frame.roi r).rows = r.height.toNat := rfl
  rw [if_pos (by rw [h1, h2, hc, hr]; exact ⟨hw, hh⟩)]
  simp only [roi_block, h1, h2, hc, hr]

/-- For an in-bounds template the search of one frame goes through: the response map
has a peak and the displacement is the peak position, moved by the corner of the
clipped search rectangle, relative to the template origin. -/
theorem trackFrame_eq (ops : CvOps F) (params : SA_Parameters) (templ frame : Mat Nat)
    (pt : Point) (hts : 0 < params.template_size)
    (hsw : params.template_size ≤ params.search_window_size)
    (hin : InBounds params.template_size frame pt)
    (hc : templ.cols = params.template_size.toNat)
    (hr : templ.rows = params.template_size.toNat) :
    ∃ peak,
      minMaxLoc (responseMap ops frame (searchWindowRoi params (searchOffset params pt) frame)
        params.template_size.toNat templ.content) = some peak ∧
      trackFrame ops params templ pt (searchOffset params pt) frame =
        some ⟨((searchWindowRoi params (searchOffset params pt) frame).x + peak.x) - pt.x,
          ((searchWindowRoi params (searchOffset params pt) frame).y + peak.y) - pt.y⟩ := by
  obtain ⟨-, -, -, hx, hy⟩ := searchWindowRoi_contains params frame pt hts hsw hin
  unfold trackFrame
  simp only []
  generalize searchWindowRoi params (searchOffset params pt) frame = r at hx hy ⊢
  have hw : params.template_size.toNat ≤ r.width.toNat := by omega
  have hh : params.template_size.toNat ≤ r.height.toNat := by omega
  obtain ⟨peak, hpeak⟩ :=
    minMaxLoc_isSome (responseMap ops frame r params.template_size.toNat templ.content)
      (Nat.succ_pos _) (Nat.succ_pos _)
  refine ⟨peak, hpeak, ?_⟩
  rw [matchTemplate_roi ops frame templ _ params.template_size.toNat hc hr hw hh]
  simp only []
  rw [hpeak]

theorem trackRest_some_iff (ops : CvOps F) (params : SA_Parameters) (templ : Mat Nat)
    (origin offset : Point) (frames : List (Mat Nat)) (ds : List Point) :
    trackRest ops params templ origin offset frames = some ds ↔
      List.Forall₂ (fun f d => trackFrame ops params templ origin offset f = some d)
        frames ds := by
  induction frames generalizing ds with
  | nil =>
    unfold trackRest
    constructor
    · intro h
      cases h
      exact List.Forall₂.nil
    · intro h
      cases h
      rfl
  | cons f fs ih =>
    unfold trackRest
    constructor
    · intro h
      cases hf : trackFrame ops params templ origin offset f with
      | none => rw [hf] at h; simp at h
      | some d =>
        rw [hf] at h
        cases hr : trackRest ops params templ origin offset fs with
        | none => rw [hr] at h; simp at h
        | some ds2 =>
          rw [hr] at h
          simp only [Option.some.injEq] at h
          subst h
          exact List.Forall₂.cons hf ((ih ds2).mp hr)
    · intro h
      cases h with
      | cons hf hrest =>
        rw [hf]
        simp only
        rw [(ih _).mpr hrest]

theorem inBounds_of_sameSize (size : Int) (f g : Mat Nat) (pt : Point) (h : f.sameSize g)
    (hin : InBounds size g pt) : InBounds size f pt := by
  unfold InBounds at *
  rw [h.1, h.2]
  exact hin

/-- For an in-bounds template and frames of one size, the inner loop produces one
displacement per frame. -/
theorem trackRest_total (ops : CvOps F) (params : SA_Parameters) (templ f0 : Mat Nat)
    (pt : Point) (frames : List (Mat Nat)) (hts : 0 < params.template_size)
    (hsw : params.template_size ≤ params.search_window_size)
    (hin : InBounds params.template_size f0 pt)
    (hc : templ.cols = params.template_size.toNat)
    (hr : templ.rows = params.template_size.toNat)
    (hsize : ∀ f ∈ frames, f.sameSize f0) :
    ∃ ds, trackRest ops params templ pt (searchOffset params pt) frames = some ds := by
  induction frames with
  | nil => exact ⟨[], rfl⟩
  | cons f fs ih =>
    obtain ⟨ds, hds⟩ := ih fun g hg => hsize g (List.mem_cons_of_mem f hg)
    obtain ⟨peak, -, hf⟩ := trackFrame_eq ops params templ f pt hts hsw
      (inBounds_of_sameSize _ f f0 pt (hsize f (List.mem_cons_self f fs)) hin) hc hr
    refine ⟨⟨((searchWindowRoi params (searchOffset params pt) f).x + peak.x) - pt.x,
      ((searchWindowRoi params (searchOffset params pt) f).y + peak.y) - pt.y⟩ :: ds, ?_⟩
    unfold trackRest
    rw [hf]
    simp only
    rw [hds]

theorem trackRest_length (ops : CvOps F) (params : SA_Parameters) (templ : Mat Nat)
    (origin offset : Point) (frames : List (Mat Nat)) (ds : List Point)
    (h : trackRest ops params templ origin offset frames = some ds) :
    ds.length = frames.length :=
  ((trackRest_some_iff ops params templ origin offset frames ds).mp h).length_eq.symm

/-- Shape of a displacement sequence returned for one template: one entry per frame,
the first one `(0, 0)`, the others found by `trackRest` against the reference patch cut
from frame 0. -/
theorem trackTemplate_some (ops : CvOps F) (params : SA_Parameters)
    (frames : List (Mat Nat)) (pt : Point) (templ : Mat Nat) (sh : List Point)
    (h : trackTemplate ops params frames pt = some (templ, sh)) :
    ∃ f0 rest ds, frames = f0 :: rest ∧
      templ = f0.roi ⟨pt.x, pt.y, params.template_size, params.template_size⟩ ∧
      trackRest ops params templ pt (searchOffset params pt) rest = some ds ∧
      sh = ⟨0, 0⟩ :: ds ∧ sh.length = frames.length := by
  unfold trackTemplate at h
  cases frames with
  | nil => simp at h
  | cons f0 rest =>
    simp only at h
    cases hr : trackRest ops params
        (f0.roi ⟨pt.x, pt.y, params.template_size, params.template_size⟩) pt
        (searchOffset params pt) rest with
    | none => rw [hr] at h; simp at h
    | some ds =>
      rw [hr] at h
      simp only [Option.some.injEq, Prod.mk.injEq] at h
      obtain ⟨h1, h2⟩ := h
      subst h1 h2
      refine ⟨f0, rest, ds, rfl, rfl, hr, rfl, ?_⟩
      simp [trackRest_length ops params _ pt _ rest ds hr]

/-- For an in-bounds template and a non-empty list of frames of one size, tracking
returns a result. -/
theorem trackTemplate_total (ops : CvOps F) (params : SA_Parameters) (f0 : Mat Nat)
    (rest : List (Mat Nat)) (pt : Point) (hts : 0 < params.template_size)
    (hsw : params.template_size ≤ params.search_window_size)
    (hin : InBounds params.template_size f0 pt)
    (hsize : ∀ f ∈ rest, f.sameSize f0) :
    ∃ sh, trackTemplate ops params (f0 :: rest) pt =
      some (f0.roi ⟨pt.x, pt.y, params.template_size, params.template_size⟩, sh) := by
  obtain ⟨ds, hds⟩ := trackRest_total ops params
    (f0.roi ⟨pt.x, pt.y, params.template_size, params.template_size⟩) f0 pt rest hts hsw hin
    rfl rfl hsize
  refine ⟨⟨0, 0⟩ :: ds, ?_⟩
  unfold trackTemplate
  simp only
  rw [hds]

/-- The results of the outer loop, read template by template. -/
theorem trackAll_some (ops : CvOps F) (params : SA_Parameters) (frames : List (Mat Nat))
    (pts : List Point) (t0 timg : Mat Nat) (shs : List (List Point))
    (h : trackAll ops params frames pts t0 = some (timg, shs)) :
    List.Forall₂ (fun pt sh => ∃ t, trackTemplate ops params frames pt = some (t, sh))
      pts shs := by
  induction pts generalizing t0 timg shs with
  | nil =>
    unfold trackAll at h
    simp only [Option.some.injEq, Prod.mk.injEq] at h
    rw [← h.2]
    exact List.Forall₂.nil
  | cons pt pts ih =>
    unfold trackAll at h
    cases ht : trackTemplate ops params frames pt with
    | none => rw [ht] at h; simp at h
    | some r =>
      obtain ⟨templ, sh⟩ := r
      rw [ht] at h
      simp only at h
      cases ha : trackAll ops params frames pts templ with
      | none => rw [ha] at h; simp at h
      | some r2 =>
        obtain ⟨timg2, shs2⟩ := r2
        rw [ha] at h
        simp only [Option.some.injEq, Prod.mk.injEq] at h
        rw [← h.2]
        exact List.Forall₂.cons ⟨templ, ht⟩ (ih templ timg2 shs2 ha)

theorem trackFrame_of_peak (ops : CvOps F) (params : SA_Parameters) (templ frame : Mat Nat)
    (pt : Point) (hts : 0 < params.template_size)
    (hsw : params.template_size ≤ params.search_window_size)
    (hin : InBounds params.template_size frame pt)
    (hc : templ.cols = params.template_size.toNat)
    (hr : templ.rows = params.template_size.toNat) (peak : Point)
    (hpk : minMaxLoc (responseMap ops frame
      (searchWindowRoi params (searchOffset params pt) frame)
      params.template_size.toNat templ.content) = some peak) :
    trackFrame ops params templ pt (searchOffset params pt) frame =
      some ⟨((searchWindowRoi params (searchOffset params pt) frame).x + peak.x) - pt.x,
        ((searchWindowRoi params (searchOffset params pt) frame).y + peak.y) - pt.y⟩ := by
  obtain ⟨pk, h1, h2⟩ := trackFrame_eq ops params templ frame pt hts hsw hin hc hr
  rw [hpk] at h1
  simp only [Option.some.injEq] at h1
  subst h1
  exact h2

theorem block_congr {α : Type} (m m' : Mat α) (x y x' y' : Int) (w h : Nat)
    (hpx : ∀ i j : Nat, i < w → j < h →
      m.px (x + i) (y + j) = m'.px (x' + i) (y' + j)) :
    m.block x y w h = m'.block x' y' w h := by
  unfold Mat.block
  apply List.map_congr_left
  intro j hj
  apply List.map_congr_left
  intro i hi
  exact hpx i j (List.mem_range.mp hi) (List.mem_range.mp hj)

theorem block_px {α : Type} (m m' : Mat α) (x y x' y' : Int) (w h : Nat)
    (hb : m.block x y w h = m'.block x' y' w h) (i j : Nat) (hi : i < w) (hj : j < h) :
    m.px (x + i) (y + j) = m'.px (x' + i) (y' + j) := by
  unfold Mat.block at hb
  have h1 := List.map_inj_left.mp hb j (List.mem_range.mpr hj)
  exact List.map_inj_left.mp h1 i (List.mem_range.mpr hi)

/-- When every placement of the template inside the clipped search rectangle has the
response of the first placement, the tracker reports the first placement: the corner of
the clipped search rectangle. -/
theorem trackFrame_of_equal_response (ops : CvOps F) (params : SA_Parameters)
    (templ frame : Mat Nat) (pt : Point) (hts : 0 < params.template_size)
    (hsw : params.template_size ≤ params.search_window_size)
    (hin : InBounds params.template_size frame pt)
    (hc : templ.cols = params.template_size.toNat)
    (hr : templ.rows = params.template_size.toNat) (r : Rect)
    (hroi : searchWindowRoi params (searchOffset params pt) frame = r)
    (htie : ∀ i j : Nat, i < r.width.toNat - params.template_size.toNat + 1 →
      j < r.height.toNat - params.template_size.toNat + 1 →
      ops.score (frame.block (r.x + i) (r.y + j)
          params.template_size.toNat params.template_size.toNat) templ.content
        = ops.score (frame.block r.x r.y
          params.template_size.toNat params.template_size.toNat) templ.content) :
    trackFrame ops params templ pt (searchOffset params pt) frame =
      some ⟨r.x - pt.x, r.y - pt.y⟩ := by
  have hpk : minMaxLoc (responseMap ops frame r params.template_size.toNat templ.content)
      = some ⟨0, 0⟩ := by
    apply minMaxLoc_of_ties _ (Nat.succ_pos _) (Nat.succ_pos _)
    intro q hq
    obtain ⟨i, j, hi, hj, rfl⟩ := (mem_scanOrder _ _ q).mp hq
    apply le_of_eq
    show ops.score _ _ = ops.score _ _
    rw [htie i j hi hj]
    simp
  rw [← hroi] at hpk
  rw [trackFrame_of_peak ops params templ frame pt hts hsw hin hc hr ⟨0, 0⟩ hpk, hroi]
  simp

/-- When every placement of the template inside the clipped search rectangle shows
the same pixel block, the responses tie and the tracker reports the first placement:
the corner of the clipped search rectangle. -/
theorem trackFrame_of_ties (ops : CvOps F) (params : SA_Parameters) (templ frame : Mat Nat)
    (pt : Point) (hts : 0 < params.template_size)
    (hsw : params.template_size ≤ params.search_window_size)
    (hin : InBounds params.template_size frame pt)
    (hc : templ.cols = params.template_size.toNat)
    (hr : templ.rows = params.template_size.toNat) (r : Rect)
    (hroi : searchWindowRoi params (searchOffset params pt) frame = r)
    (htie : ∀ i j : Nat, i < r.width.toNat - params.template_size.toNat + 1 →
      j < r.height.toNat - params.template_size.toNat + 1 →
      frame.block (r.x + i) (r.y + j) params.template_size.toNat params.template_size.toNat
        = frame.block r.x r.y params.template_size.toNat params.template_size.toNat) :
    trackFrame ops params templ pt (searchOffset params pt) frame =
      some ⟨r.x - pt.x, r.y - pt.y⟩ :=
  trackFrame_of_equal_response ops params templ frame pt hts hsw hin hc hr r hroi
    (fun i j hi hj => by rw [htie i j hi hj])

/-- Tracking one template through the frames, given the result of each later frame. -/
theorem trackTemplate_of_frames (ops : CvOps F) (params : SA_Parameters) (f0 : Mat Nat)
    (rest : List (Mat Nat)) (pt : Point) (ds : List Point)
    (h : List.Forall₂
      (fun f d => trackFrame ops params
        (f0.roi ⟨pt.x, pt.y, params.template_size, params.template_size⟩) pt
        (searchOffset params pt) f = some d) rest ds) :
    trackTemplate ops params (f0 :: rest) pt =
      some (f0.roi ⟨pt.x, pt.y, params.template_size, params.template_size⟩,
        ⟨0, 0⟩ :: ds) := by
  unfold trackTemplate
  simp only
  rw [(trackRest_some_iff ops params _ pt _ rest ds).mpr h]

theorem forall₂_right_mem {α β : Type} (R : α → β → Prop) (l₁ : List α) (l₂ : List β)
    (h : List.Forall₂ R l₁ l₂) : ∀ b ∈ l₂, ∃ a ∈ l₁, R a b := by
  induction h with
  | nil => intro b hb; simp at hb
  | cons hab _ ih =>
    intro b hb
    rcases List.mem_cons.mp hb with rfl | hb
    · exact ⟨_, List.mem_cons_self _ _, hab⟩
    · obtain ⟨a, ha, hr⟩ := ih b hb
      exact ⟨a, List.mem_cons_of_mem _ ha, hr⟩

/-- Every displacement sequence of the outer loop has one entry per frame and starts
with `(0, 0)`. -/
theorem trackAll_shape (ops : CvOps F) (params : SA_Parameters) (frames : List (Mat Nat))
    (pts : List Point) (t0 timg : Mat Nat) (shs : List (List Point))
    (h : trackAll ops params frames pts t0 = some (timg, shs)) :
    shs.length = pts.length ∧
      ∀ sh ∈ shs, sh.length = frames.length ∧ sh.head? = some ⟨0, 0⟩ := by
  have hshape := trackAll_some ops params frames pts t0 timg shs h
  refine ⟨hshape.length_eq.symm, fun sh hsh => ?_⟩
  obtain ⟨pt, -, t, ht⟩ := forall₂_right_mem _ _ _ hshape sh hsh
  obtain ⟨_, _, ds, _, _, _, hsh2, hlen⟩ := trackTemplate_some ops params frames pt t sh ht
  exact ⟨hlen, by rw [hsh2]; rfl⟩

/-- When every template can be tracked, so can the whole list. -/
theorem trackAll_total (ops : CvOps F) (params : SA_Parameters) (frames : List (Mat Nat))
    (pts : List Point) (t0 : Mat Nat)
    (h : ∀ pt ∈ pts, ∃ r, trackTemplate ops params frames pt = some r) :
    ∃ r, trackAll ops params frames pts t0 = some r := by
  induction pts generalizing t0 with
  | nil => exact ⟨_, rfl⟩
  | cons pt pts ih =>
    obtain ⟨⟨templ, sh⟩, ht⟩ := h pt (List.mem_cons_self pt pts)
    obtain ⟨⟨timg, shs⟩, ha⟩ := ih templ fun q hq => h q (List.mem_cons_of_mem pt hq)
    refine ⟨(timg, sh :: shs), ?_⟩
    unfold trackAll
    rw [ht]
    simp only
    rw [ha]

end Tracking

/-! ## Facts about the depth map -/

section Depth

variable {F : Type} [LinearOrderedField F]

theorem parallaxScan_fold_length (ops : CvOps F) (shifts : List (List Point))
    (acc : List F × F × F) :
    (shifts.foldl (parallaxStep ops) acc).1.length = acc.1.length + shifts.length := by
  induction shifts generalizing acc with
  | nil => simp
  | cons sh shs ih =>
    rw [List.foldl_cons, ih]
    have : (parallaxStep ops acc sh).1.length = acc.1.length + 1 := by
      unfold parallaxStep
      cases sh.getLast? <;> simp
    rw [this, List.length_cons]
    omega

theorem parallaxScan_length (ops : CvOps F) (shifts : List (List Point)) :
    (parallaxScan ops shifts).1.length = shifts.length := by
  unfold parallaxScan
  rw [parallaxScan_fold_length]
  simp

theorem paintDiscs_total (params : SA_Parameters) (mn range : F) (ps : List F)
    (pts : List Point) (h : ps.length ≤ pts.length) :
    ∃ discs, paintDiscs params mn range ps pts = some discs := by
  induction ps generalizing pts with
  | nil => exact ⟨[], by unfold paintDiscs; rfl⟩
  | cons p ps ih =>
    cases pts with
    | nil => simp at h
    | cons pt pts =>
      obtain ⟨rest, hrest⟩ := ih pts (by simpa using h)
      unfold paintDiscs
      simp only
      rw [hrest]
      exact ⟨_, rfl⟩

theorem createDepthMap_some (ops : CvOps F) (s t : SyntheticAperture F)
    (h : createDepthMap ops s = some t) :
    SameFrames s t ∧ t.m_synthetic_image = s.m_synthetic_image ∧
      t.m_depth_map.canvas.cols = s.m_first_color_frame.cols ∧
      t.m_depth_map.canvas.rows = s.m_first_color_frame.rows := by
  unfold createDepthMap at h
  simp only at h
  split_ifs at h with hlt
  · simp only [Option.some.injEq] at h
    subst h
    exact ⟨⟨rfl, rfl, rfl, rfl, rfl, rfl, rfl, rfl⟩, rfl, rfl, rfl⟩
  · split at h
    · simp at h
    · simp only [Option.some.injEq] at h
      subst h
      exact ⟨⟨rfl, rfl, rfl, rfl, rfl, rfl, rfl, rfl⟩, rfl, rfl, rfl⟩

theorem parallaxScan_fold (ops : CvOps F) (shifts : List (List Point))
    (hne : ∀ sh ∈ shifts, sh ≠ []) (acc : List F × F × F) :
    shifts.foldl (parallaxStep ops) acc =
      (acc.1 ++ shifts.map (parallaxOf ops),
        (shifts.map (parallaxOf ops)).foldl min acc.2.1,
        (shifts.map (parallaxOf ops)).foldl max acc.2.2) := by
  induction shifts generalizing acc with
  | nil => simp
  | cons sh shs ih =>
    have hsh : sh ≠ [] := hne sh (List.mem_cons_self sh shs)
    obtain ⟨last, hlast⟩ : ∃ last, sh.getLast? = some last := by
      cases hg : sh.getLast? with
      | none => exact absurd (List.getLast?_eq_none_iff.mp hg) hsh
      | some l => exact ⟨l, rfl⟩
    have hpo : parallaxOf ops sh = ops.norm last := by
      unfold parallaxOf
      rw [hlast]
    have hstep : parallaxStep ops acc sh =
        (acc.1 ++ [ops.norm last], min acc.2.1 (ops.norm last),
          max acc.2.2 (ops.norm last)) := by
      unfold parallaxStep
      rw [hlast]
    rw [List.foldl_cons, hstep, ih (fun q hq => hne q (List.mem_cons_of_mem sh hq))]
    simp [hpo]

/-- With no empty displacement sequence, the first loop yields the parallaxes in
template order, their minimum capped by `FLT_MAX` and their maximum raised to
`FLT_MIN`. -/
theorem parallaxScan_eq (ops : CvOps F) (shifts : List (List Point))
    (hne : ∀ sh ∈ shifts, sh ≠ []) :
    parallaxScan ops shifts =
      (shifts.map (parallaxOf ops),
        (shifts.map (parallaxOf ops)).foldl min FLT_MAX,
        (shifts.map (parallaxOf ops)).foldl max FLT_MIN) := by
  unfold parallaxScan
  rw [parallaxScan_fold ops shifts hne]
  simp

theorem foldl_min_le (l : List F) (a : F) :
    l.foldl min a ≤ a ∧ ∀ x ∈ l, l.foldl min a ≤ x := by
  induction l generalizing a with
  | nil => simp
  | cons b l ih =>
    rw [List.foldl_cons]
    obtain ⟨h1, h2⟩ := ih (min a b)
    refine ⟨le_trans h1 (min_le_left a b), fun x hx => ?_⟩
    rcases List.mem_cons.mp hx with rfl | hx
    · exact le_trans h1 (min_le_right a x)
    · exact h2 x hx

theorem foldl_min_mem (l : List F) (a : F) : l.foldl min a = a ∨ l.foldl min a ∈ l := by
  induction l generalizing a with
  | nil => simp
  | cons b l ih =>
    rw [List.foldl_cons]
    rcases ih (min a b) with h | h
    · rcases min_choice a b with hm | hm
      · left; rw [h, hm]
      · right; rw [h, hm]; exact List.mem_cons_self b l
    · right; exact List.mem_cons_of_mem b h

theorem le_foldl_max (l : List F) (a : F) :
    a ≤ l.foldl max a ∧ ∀ x ∈ l, x ≤ l.foldl max a := by
  induction l generalizing a with
  | nil => simp
  | cons b l ih =>
    rw [List.foldl_cons]
    obtain ⟨h1, h2⟩ := ih (max a b)
    refine ⟨le_trans (le_max_left a b) h1, fun x hx => ?_⟩
    rcases List.mem_cons.mp hx with rfl | hx
    · exact le_trans (le_max_right a x) h1
    · exact h2 x hx

theorem foldl_max_mem (l : List F) (a : F) : l.foldl max a = a ∨ l.foldl max a ∈ l := by
  induction l generalizing a with
  | nil => simp
  | cons b l ih =>
    rw [List.foldl_cons]
    rcases ih (max a b) with h | h
    · rcases max_choice a b with hm | hm
      · left; rw [h, hm]
      · right; rw [h, hm]; exact List.mem_cons_self b l
    · right; exact List.mem_cons_of_mem b h

/-- The disc at index `i` is the disc of the template at index `i`, filled with the
colour of the parallax at index `i`. -/
theorem paintDiscs_getElem (params : SA_Parameters) (mn range : F) (ps : List F)
    (pts : List Point) (discs : List (DrawOp F))
    (h : paintDiscs params mn range ps pts = some discs) (i : Nat) (p : F)
    (hp : ps[i]? = some p) :
    ∃ pt, pts[i]? = some pt ∧
      discs[i]? = some (discAt params pt (depthColor (normalizedDepth mn range p))) := by
  induction ps generalizing pts discs i with
  | nil => simp at hp
  | cons q qs ih =>
    cases pts with
    | nil => unfold paintDiscs at h; simp at h
    | cons pt pts =>
      unfold paintDiscs at h
      simp only at h
      cases hr : paintDiscs params mn range qs pts with
      | none => rw [hr] at h; simp at h
      | some rest =>
        rw [hr] at h
        simp only [Option.some.injEq] at h
        subst h
        cases i with
        | zero =>
          simp only [List.getElem?_cons_zero, Option.some.injEq] at hp
          rw [← hp]
          exact ⟨pt, by simp, by simp [discAt]⟩
        | succ k =>
          simp only [List.getElem?_cons_succ] at hp ⊢
          exact ih pts rest hr k hp

/-- With fewer than two displacement sequences the depth map is the first colour
frame with the status text written on it, and the parallax list is empty. -/
theorem createDepthMap_few (ops : CvOps F) (s t : SyntheticAperture F)
    (hlt : s.m_multi_template_shifts.length < 2) (h : createDepthMap ops s = some t) :
    t.m_parallaxes = [] ∧
      t.m_depth_map = ⟨s.m_first_color_frame,
        [DrawOp.putText "Depth map requires at least 2 templates." ⟨10, 30⟩ ![0, 0, 255]]⟩ := by
  unfold createDepthMap at h
  simp only at h
  rw [if_pos hlt] at h
  simp only [Option.some.injEq] at h
  subst h
  exact ⟨rfl, rfl⟩

/-- With two or more displacement sequences the parallax list is the one computed by
the first loop and the depth map is a blank canvas of the size of the first colour
frame with the discs of the second loop. -/
theorem createDepthMap_many (ops : CvOps F) (s t : SyntheticAperture F)
    (hge : 2 ≤ s.m_multi_template_shifts.length) (h : createDepthMap ops s = some t) :
    t.m_parallaxes = (parallaxScan ops s.m_multi_template_shifts).1 ∧
      t.m_depth_map.canvas
        = Mat.zeros s.m_first_color_frame.cols s.m_first_color_frame.rows ∧
      paintDiscs s.m_params (parallaxScan ops s.m_multi_template_shifts).2.1
        ((parallaxScan ops s.m_multi_template_shifts).2.2
          - (parallaxScan ops s.m_multi_template_shifts).2.1)
        (parallaxScan ops s.m_multi_template_shifts).1 s.m_params.template_points
        = some t.m_depth_map.ops := by
  unfold createDepthMap at h
  simp only at h
  rw [if_neg (by omega)] at h
  split at h
  · simp at h
  · rename_i discs hd
    simp only [Option.some.injEq] at h
    subst h
    exact ⟨rfl, rfl, hd⟩

theorem createDepthMap_total (ops : CvOps F) (s : SyntheticAperture F)
    (h : s.m_multi_template_shifts.length ≤ s.m_params.template_points.length) :
    ∃ t, createDepthMap ops s = some t := by
  unfold createDepthMap
  simp only
  split_ifs with hlt
  · exact ⟨_, rfl⟩
  · obtain ⟨discs, hd⟩ := paintDiscs_total s.m_params
      (parallaxScan ops s.m_multi_template_shifts).2.1
      ((parallaxScan ops s.m_multi_template_shifts).2.2
        - (parallaxScan ops s.m_multi_template_shifts).2.1)
      (parallaxScan ops s.m_multi_template_shifts).1 s.m_params.template_points
      (by rw [parallaxScan_length]; exact h)
    rw [hd]
    exact ⟨_, rfl⟩

end Depth

/-! ## Facts about the synthetic image -/

section Synthesis

variable {F : Type} [LinearOrderedField F]

theorem warpAffine_px (f : Mat (Vec3 Nat)) (sx sy x y : Int) (c : Fin 3) :
    (warpAffine f (-sx) (-sy)).px x y c = sample f (x + sx) (y + sy) c := by
  unfold warpAffine sample
  simp only [sub_neg_eq_add]

theorem accumulateFrames_some (frames : List (Mat (Vec3 Nat))) (shifts : List Point)
    (acc total : Mat (Vec3 ℚ)) (h : accumulateFrames frames shifts acc = some total) :
    total.cols = acc.cols ∧ total.rows = acc.rows ∧
      ∀ x y c, total.px x y c = acc.px x y c + shiftedSum frames shifts x y c := by
  induction frames generalizing shifts acc with
  | nil =>
    unfold accumulateFrames at h
    simp only [Option.some.injEq] at h
    subst h
    simp [shiftedSum]
  | cons f fs ih =>
    cases shifts with
    | nil => unfold accumulateFrames at h; simp at h
    | cons sh shs =>
      unfold accumulateFrames at h
      simp only at h
      split_ifs at h with hs
      obtain ⟨h1, h2, h3⟩ := ih shs _ h
      refine ⟨h1, h2, fun x y c => ?_⟩
      rw [h3 x y c]
      simp only [warpAffine_px, shiftedSum, List.zipWith_cons_cons, List.sum_cons]
      ring

theorem accumulateFrames_total (frames : List (Mat (Vec3 Nat))) (shifts : List Point)
    (acc : Mat (Vec3 ℚ)) (hlen : frames.length ≤ shifts.length)
    (hsize : ∀ f ∈ frames, acc.sameSize f) :
    ∃ total, accumulateFrames frames shifts acc = some total := by
  induction frames generalizing shifts acc with
  | nil => exact ⟨acc, by unfold accumulateFrames; rfl⟩
  | cons f fs ih =>
    cases shifts with
    | nil => simp at hlen
    | cons sh shs =>
      unfold accumulateFrames
      simp only
      have hs : acc.sameSize (warpAffine f (-sh.x) (-sh.y)) :=
        hsize f (List.mem_cons_self f fs)
      rw [if_pos hs]
      exact ih shs _ (by simpa using hlen)
        (fun g hg => hsize g (List.mem_cons_of_mem f hg))

theorem createSyntheticImage_some (s t : SyntheticAperture F)
    (h : createSyntheticImage s = some t) :
    SameFrames s t ∧ t.m_depth_map = s.m_depth_map ∧ t.m_parallaxes = s.m_parallaxes := by
  unfold createSyntheticImage at h
  split at h
  · simp only [Option.some.injEq] at h
    subst h
    exact ⟨⟨rfl, rfl, rfl, rfl, rfl, rfl, rfl, rfl⟩, rfl, rfl⟩
  · split at h
    · simp at h
    · split at h
      · simp at h
      · simp only [Option.some.injEq] at h
        subst h
        exact ⟨⟨rfl, rfl, rfl, rfl, rfl, rfl, rfl, rfl⟩, rfl, rfl⟩

/-- The synthetic image, pixel by pixel: it has the size of colour frame 0, and each
channel value is the sum of the shifted samples over all frames, divided by the number
of frames and converted to 8 bits. -/
theorem createSyntheticImage_px (s t : SyntheticAperture F) (sh : List Point)
    (rest : List (List Point)) (hsh : s.m_multi_template_shifts = sh :: rest)
    (h : createSyntheticImage s = some t) :
    ∃ c0 crest, s.m_frames_color = c0 :: crest ∧
      t.m_synthetic_image.cols = c0.cols ∧ t.m_synthetic_image.rows = c0.rows ∧
      ∀ x y c, t.m_synthetic_image.px x y c =
        saturate_cast (shiftedSum s.m_frames_color sh x y c
          / (s.m_frames_color.length : ℚ)) := by
  unfold createSyntheticImage at h
  rw [hsh] at h
  simp only at h
  split at h
  · simp at h
  · rename_i c0 crest hc
    split at h
    · simp at h
    · rename_i total ht
      simp only [Option.some.injEq] at h
      subst h
      obtain ⟨h1, h2, h3⟩ := accumulateFrames_some _ _ _ _ ht
      refine ⟨c0, crest, hc, h1, h2, fun x y c => ?_⟩
      show saturate_cast (total.px x y c / _) = _
      rw [h3 x y c]
      simp [Mat.zeros]

theorem createSyntheticImage_total (s : SyntheticAperture F)
    (hne : s.m_frames_color ≠ [])
    (hlen : ∀ sh ∈ s.m_multi_template_shifts.head?, s.m_frames_color.length ≤ sh.length)
    (hsize : ∀ f ∈ s.m_frames_color, ∀ g ∈ s.m_frames_color, f.sameSize g) :
    ∃ t, createSyntheticImage s = some t := by
  unfold createSyntheticImage
  split
  · exact ⟨_, rfl⟩
  · rename_i sh rest hsh
    split
    · rename_i hnil
      exact absurd hnil hne
    · rename_i c0 crest hc
      obtain ⟨total, ht⟩ := accumulateFrames_total s.m_frames_color sh
        (Mat.zeros c0.cols c0.rows) (hlen sh (by rw [hsh]; rfl))
        (fun f hf => hsize c0 (by rw [hc]; exact List.mem_cons_self c0 crest) f hf)
      rw [ht]
      exact ⟨_, rfl⟩

end Synthesis

/-! ## Facts about `process` -/

section Process

variable {F : Type} [LinearOrderedField F]

theorem process_not_loaded (ops : CvOps F) (s : SyntheticAperture F) (params : SA_Parameters)
    (h : s.m_video_loaded = false) :
    process ops s params = some (false, setStatus s "Cannot process. Load a video first.") := by
  unfold process
  rw [if_pos h]

theorem process_no_templates (ops : CvOps F) (s : SyntheticAperture F)
    (params : SA_Parameters) (hl : s.m_video_loaded = true)
    (h : params.template_points = []) :
    process ops s params =
      some (false, setStatus (beginProcess s params)
        "Error: No templates have been selected.") := by
  unfold process
  rw [if_neg (by simp [hl])]
  simp only
  rw [if_pos (by simp [beginProcess, h])]

theorem process_outside (ops : CvOps F) (s : SyntheticAperture F) (params : SA_Parameters)
    (f0 : Mat Nat) (rest : List (Mat Nat)) (hl : s.m_video_loaded = true)
    (hne : params.template_points ≠ []) (hf : s.m_frames_gray = f0 :: rest)
    (hout : ∃ pt ∈ params.template_points,
      outsideFrame params.template_size ⟨0, 0, f0.cols, f0.rows⟩ pt = true) :
    process ops s params =
      some (false, setStatus (beginProcess s params)
        "Error: A template is outside frame boundaries.") := by
  unfold process
  rw [if_neg (by simp [hl])]
  simp only
  rw [if_neg (by simpa [beginProcess] using hne)]
  have hg : (beginProcess s params).m_frames_gray = f0 :: rest := hf
  rw [hg]
  simp only
  rw [if_pos (by simpa [beginProcess] using hout)]

/-- Once the three checks of `process` pass, its result is the result of the three
steps run in sequence. -/
theorem process_valid (ops : CvOps F) (s : SyntheticAperture F) (params : SA_Parameters)
    (f0 : Mat Nat) (rest : List (Mat Nat)) (hl : s.m_video_loaded = true)
    (hne : params.template_points ≠ []) (hf : s.m_frames_gray = f0 :: rest)
    (hin : ∀ pt ∈ params.template_points,
      outsideFrame params.template_size ⟨0, 0, f0.cols, f0.rows⟩ pt = false) :
    process ops s params =
      (calculateMultiTemplateShifts ops (setStatus (beginProcess s params)
          "Processing... Calculating shifts for all templates.")).bind fun s1 =>
        (createDepthMap ops (setStatus s1 "Processing... Creating depth map.")).bind
          fun s2 =>
            (createSyntheticImage (setStatus s2
              "Processing... Creating synthetic image (using first template).")).map
              fun s3 => (true, finishProcess s3) := by
  unfold process
  rw [if_neg (by simp [hl])]
  simp only
  rw [if_neg (by simpa [beginProcess] using hne)]
  have hg : (beginProcess s params).m_frames_gray = f0 :: rest := hf
  rw [hg]
  simp only
  rw [if_neg (by simpa [beginProcess] using hin)]
  cases calculateMultiTemplateShifts ops (setStatus (beginProcess s params)
      "Processing... Calculating shifts for all templates.") with
  | none => rfl
  | some s1 =>
    simp only [Option.some_bind]
    cases createDepthMap ops (setStatus s1 "Processing... Creating depth map.") with
    | none => rfl
    | some s2 =>
      simp only [Option.some_bind]
      cases createSyntheticImage (setStatus s2
          "Processing... Creating synthetic image (using first template).") with
      | none => rfl
      | some s3 => rfl

theorem calculateMultiTemplateShifts_some (ops : CvOps F) (s t : SyntheticAperture F)
    (h : calculateMultiTemplateShifts ops s = some t) :
    ∃ timg shs,
      trackAll ops s.m_params s.m_frames_gray s.m_params.template_points
        s.m_template_image = some (timg, shs) ∧
      t = { s with m_template_image := timg, m_multi_template_shifts := shs } := by
  unfold calculateMultiTemplateShifts at h
  cases hr : trackAll ops s.m_params s.m_frames_gray s.m_params.template_points
      s.m_template_image with
  | none => rw [hr] at h; simp at h
  | some r =>
    obtain ⟨timg, shs⟩ := r
    rw [hr] at h
    simp only [Option.some.injEq] at h
    exact ⟨timg, shs, rfl, h.symm⟩

/-- In a well-formed session every accepted parameter set is processed to the end. -/
theorem process_total (ops : CvOps F) (s : SyntheticAperture F) (params : SA_Parameters)
    (hwf : WellFormed s) (hts : 0 < params.template_size)
    (hsw : params.template_size ≤ params.search_window_size)
    (hacc : Accepts s params) :
    ∃ s', process ops s params = some (true, s') := by
  obtain ⟨hl, hne, f0, hf0, hin⟩ := hacc
  obtain ⟨rest, hf⟩ : ∃ rest, s.m_frames_gray = f0 :: rest := by
    cases hg : s.m_frames_gray with
    | nil => rw [hg] at hf0; simp at hf0
    | cons a l =>
      rw [hg] at hf0
      simp only [List.head?_cons, Option.some.injEq] at hf0
      exact ⟨l, by rw [hf0]⟩
  have hok : ∀ pt ∈ params.template_points,
      outsideFrame params.template_size ⟨0, 0, f0.cols, f0.rows⟩ pt = false :=
    fun pt hpt => (outsideFrame_eq_false_iff _ f0 pt hts).mpr (hin pt hpt)
  rw [process_valid ops s params f0 rest hl hne hf hok]
  have hsz : ∀ f ∈ rest, f.sameSize f0 := fun f hfm =>
    hwf.gray_size f (by rw [hf]; exact List.mem_cons_of_mem f0 hfm) f0
      (by rw [hf]; exact List.mem_cons_self f0 rest)
  obtain ⟨⟨timg, shs⟩, hall⟩ := trackAll_total ops params s.m_frames_gray
    params.template_points s.m_template_image (fun pt hpt => by
      obtain ⟨sh, hsh⟩ := trackTemplate_total ops params f0 rest pt hts hsw (hin pt hpt) hsz
      exact ⟨_, by rw [hf]; exact hsh⟩)
  have hshape := trackAll_shape ops params s.m_frames_gray params.template_points
    s.m_template_image timg shs hall
  have hcalc : calculateMultiTemplateShifts ops (setStatus (beginProcess s params)
      "Processing... Calculating shifts for all templates.") =
      some { setStatus (beginProcess s params)
          "Processing... Calculating shifts for all templates." with
        m_template_image := timg, m_multi_template_shifts := shs } := by
    unfold calculateMultiTemplateShifts
    have : trackAll ops (setStatus (beginProcess s params)
        "Processing... Calculating shifts for all templates.").m_params
        (setStatus (beginProcess s params)
        "Processing... Calculating shifts for all templates.").m_frames_gray
        (setStatus (beginProcess s params)
        "Processing... Calculating shifts for all templates.").m_params.template_points
        (setStatus (beginProcess s params)
        "Processing... Calculating shifts for all templates.").m_template_image
        = some (timg, shs) := hall
    rw [this]
  rw [hcalc]
  simp only [Option.some_bind]
  obtain ⟨s2, hs2⟩ := createDepthMap_total ops
    (setStatus { setStatus (beginProcess s params)
          "Processing... Calculating shifts for all templates." with
        m_template_image := timg, m_multi_template_shifts := shs }
      "Processing... Creating depth map.")
    (le_of_eq hshape.1)
  rw [hs2]
  simp only [Option.some_bind]
  obtain ⟨⟨hp, hg, hc, -, -, hsh, -, -⟩, -⟩ := createDepthMap_some ops _ s2 hs2
  have hg2 : s2.m_frames_gray = s.m_frames_gray := hg
  have hc2 : s2.m_frames_color = s.m_frames_color := hc
  have hsh2 : s2.m_multi_template_shifts = shs := hsh
  obtain ⟨s3, hs3⟩ := createSyntheticImage_total
    (setStatus s2 "Processing... Creating synthetic image (using first template).")
    (by
      show s2.m_frames_color ≠ []
      rw [hc2]
      intro hnil
      have := hwf.same_count
      rw [hnil, hf] at this
      simp at this)
    (by
      show ∀ sh ∈ s2.m_multi_template_shifts.head?, s2.m_frames_color.length ≤ sh.length
      rw [hsh2, hc2]
      intro sh hsh
      have hmem : sh ∈ shs := List.mem_of_mem_head? hsh
      rw [(hshape.2 sh hmem).1, hwf.same_count])
    (by
      show ∀ f ∈ s2.m_frames_color, ∀ g ∈ s2.m_frames_color, f.sameSize g
      rw [hc2]
      intro f hfm g hgm
      have h1 := hwf.color_size f hfm f0 (by rw [hf]; exact List.mem_cons_self f0 rest)
      have h2 := hwf.color_size g hgm f0 (by rw [hf]; exact List.mem_cons_self f0 rest)
      exact ⟨h1.1.trans h2.1.symm, h1.2.trans h2.2.symm⟩)
  rw [hs3]
  exact ⟨_, rfl⟩

/-- C1. In a well-formed session, with `template_size > 0` and
`search_window_size ≥ template_size`, `process` returns a flag, and the flag is `true`
exactly when a video is loaded, the template list is not empty and every template
square lies inside frame 0. -/
theorem process_returns_true_iff (ops : CvOps F) (s : SyntheticAperture F)
    (params : SA_Parameters) (hwf : WellFormed s) (hts : 0 < params.template_size)
    (hsw : params.template_size ≤ params.search_window_size) :
    ∃ b s', process ops s params = some (b, s') ∧ (b = true ↔ Accepts s params) := by
  by_cases hacc : Accepts s params
  · obtain ⟨s', hs'⟩ := process_total ops s params hwf hts hsw hacc
    exact ⟨true, s', hs', by simp [hacc]⟩
  · by_cases hl : s.m_video_loaded = true
    · by_cases hne : params.template_points = []
      · exact ⟨false, _, process_no_templates ops s params hl hne, by simp [hacc]⟩
      · cases hf : s.m_frames_gray with
        | nil => exact absurd hf (hwf.loaded_nonempty hl)
        | cons f0 rest =>
          refine ⟨false, _, process_outside ops s params f0 rest hl hne hf ?_, by simp [hacc]⟩
          by_contra hcon
          apply hacc
          refine ⟨hl, hne, f0, by rw [hf]; rfl, fun pt hpt => ?_⟩
          apply (outsideFrame_eq_false_iff _ f0 pt hts).mp
          by_contra hb
          exact hcon ⟨pt, hpt, by simpa using hb⟩
    · have hl2 : s.m_video_loaded = false := by simpa using hl
      exact ⟨false, _, process_not_loaded ops s params hl2, by simp [hacc]⟩

/-- What a successful `process` call says about the call: the three checks passed and
the three steps ran one after the other. -/
theorem process_true_inv (ops : CvOps F) (s s' : SyntheticAperture F)
    (params : SA_Parameters) (h : process ops s params = some (true, s')) :
    s.m_video_loaded = true ∧ params.template_points ≠ [] ∧
      ∃ f0 rest, s.m_frames_gray = f0 :: rest ∧
        (∀ pt ∈ params.template_points,
          outsideFrame params.template_size ⟨0, 0, f0.cols, f0.rows⟩ pt = false) ∧
        ∃ s1 s2 s3 m1 m2 m3,
          calculateMultiTemplateShifts ops (setStatus (beginProcess s params) m1) = some s1 ∧
          createDepthMap ops (setStatus s1 m2) = some s2 ∧
          createSyntheticImage (setStatus s2 m3) = some s3 ∧
          s' = finishProcess s3 := by
  by_cases hl : s.m_video_loaded = true
  · by_cases hne : params.template_points = []
    · rw [process_no_templates ops s params hl hne] at h
      simp at h
    · cases hf : s.m_frames_gray with
      | nil =>
        unfold process at h
        rw [if_neg (by simp [hl])] at h
        simp only at h
        rw [if_neg (by simpa [beginProcess] using hne)] at h
        have hg : (beginProcess s params).m_frames_gray = [] := hf
        rw [hg] at h
        simp at h
      | cons f0 rest =>
        by_cases hout : ∃ pt ∈ params.template_points,
            outsideFrame params.template_size ⟨0, 0, f0.cols, f0.rows⟩ pt = true
        · rw [process_outside ops s params f0 rest hl hne hf hout] at h
          simp at h
        · have hin : ∀ pt ∈ params.template_points,
              outsideFrame params.template_size ⟨0, 0, f0.cols, f0.rows⟩ pt = false := by
            intro pt hpt
            by_contra hb
            exact hout ⟨pt, hpt, by simpa using hb⟩
          rw [process_valid ops s params f0 rest hl hne hf hin] at h
          obtain ⟨s1, h1, h⟩ := Option.bind_eq_some.mp h
          obtain ⟨s2, h2, h⟩ := Option.bind_eq_some.mp h
          obtain ⟨s3, h3, h⟩ := Option.map_eq_some'.mp h
          simp only [Prod.mk.injEq, true_and] at h
          exact ⟨hl, hne, f0, rest, rfl, hin, s1, s2, s3, _, _, _, h1, h2, h3, h.symm⟩
  · have hl2 : s.m_video_loaded = false := by simpa using hl
    rw [process_not_loaded ops s params hl2] at h
    simp at h

/-- The session after a successful `process`: frames untouched, flags set, parameters
stored, and the displacement sequences and the reference patch as the tracking loops
return them. -/
theorem process_true_fields (ops : CvOps F) (s s' : SyntheticAperture F)
    (params : SA_Parameters) (h : process ops s params = some (true, s')) :
    s'.m_video_loaded = true ∧ s'.m_is_processed = true ∧ s'.m_params = params ∧
      s'.m_frames_gray = s.m_frames_gray ∧ s'.m_frames_color = s.m_frames_color ∧
      s'.m_first_color_frame = s.m_first_color_frame ∧
      ∃ timg, trackAll ops params s.m_frames_gray params.template_points
        s.m_template_image = some (timg, s'.m_multi_template_shifts) ∧
        s'.m_template_image = timg := by
  obtain ⟨hl, -, f0, rest, -, -, s1, s2, s3, m1, m2, m3, h1, h2, h3, rfl⟩ :=
    process_true_inv ops s s' params h
  obtain ⟨timg, shs, hall, rfl⟩ := calculateMultiTemplateShifts_some ops _ s1 h1
  obtain ⟨⟨a1, a2, a3, a4, a5, a6, a7, a8⟩, -⟩ := createDepthMap_some ops _ s2 h2
  obtain ⟨⟨b1, b2, b3, b4, b5, b6, b7, b8⟩, -⟩ := createSyntheticImage_some _ s3 h3
  refine ⟨?_, rfl, ?_, ?_, ?_, ?_, timg, ?_, ?_⟩
  · exact (b7.trans a7).trans hl
  · exact b1.trans a1
  · exact b2.trans a2
  · exact b3.trans a3
  · exact b4.trans a4
  · have : (finishProcess s3).m_multi_template_shifts = shs := b6.trans a6
    rw [this]
    exact hall
  · exact b5.trans a5

/-- The artifacts after a successful `process`, in terms of the displacement sequences
it stored: parallax list and depth map for fewer than two and for two or more
sequences, and the synthetic image built from the first sequence. -/
theorem process_true_artifacts (ops : CvOps F) (s s' : SyntheticAperture F)
    (params : SA_Parameters) (h : process ops s params = some (true, s')) :
    (s'.m_multi_template_shifts.length < 2 →
      s'.m_parallaxes = [] ∧
      s'.m_depth_map = ⟨s.m_first_color_frame,
        [DrawOp.putText "Depth map requires at least 2 templates." ⟨10, 30⟩
          ![0, 0, 255]]⟩) ∧
    (2 ≤ s'.m_multi_template_shifts.length →
      s'.m_parallaxes = (parallaxScan ops s'.m_multi_template_shifts).1 ∧
      s'.m_depth_map.canvas
        = Mat.zeros s.m_first_color_frame.cols s.m_first_color_frame.rows ∧
      paintDiscs params (parallaxScan ops s'.m_multi_template_shifts).2.1
        ((parallaxScan ops s'.m_multi_template_shifts).2.2
          - (parallaxScan ops s'.m_multi_template_shifts).2.1)
        (parallaxScan ops s'.m_multi_template_shifts).1 params.template_points
        = some s'.m_depth_map.ops) ∧
    (∀ sh rest, s'.m_multi_template_shifts = sh :: rest →
      ∃ c0 crest, s.m_frames_color = c0 :: crest ∧
        s'.m_synthetic_image.cols = c0.cols ∧ s'.m_synthetic_image.rows = c0.rows ∧
        ∀ x y c, s'.m_synthetic_image.px x y c =
          saturate_cast (shiftedSum s.m_frames_color sh x y c
            / (s.m_frames_color.length : ℚ))) := by
  obtain ⟨hl, -, f0, rest, -, -, s1, s2, s3, m1, m2, m3, h1, h2, h3, rfl⟩ :=
    process_true_inv ops s s' params h
  obtain ⟨timg, shs, hall, rfl⟩ := calculateMultiTemplateShifts_some ops _ s1 h1
  obtain ⟨⟨a1, a2, a3, a4, a5, a6, a7, a8⟩, -⟩ := createDepthMap_some ops _ s2 h2
  obtain ⟨⟨b1, b2, b3, b4, b5, b6, b7, b8⟩, bd, bp⟩ := createSyntheticImage_some _ s3 h3
  have hshs : (finishProcess s3).m_multi_template_shifts = shs := b6.trans a6
  have hd : (finishProcess s3).m_depth_map = s2.m_depth_map := bd
  have hp : (finishProcess s3).m_parallaxes = s2.m_parallaxes := bp
  rw [hshs, hd, hp]
  refine ⟨fun hlt => ?_, fun hge => ?_, fun sh rest hsh => ?_⟩
  · have hfew := fun h0 => createDepthMap_few ops _ s2 h0 h2
    exact hfew hlt
  · have hmany := fun h0 => createDepthMap_many ops _ s2 h0 h2
    exact hmany hge
  · have hs2 : (setStatus s2 m3).m_multi_template_shifts = sh :: rest := by
      have : (setStatus s2 m3).m_multi_template_shifts = shs := a6
      rw [this, hsh]
    obtain ⟨c0, crest, hc, k1, k2, k3⟩ := createSyntheticImage_px _ s3 sh rest hs2 h3
    have hcol : (setStatus s2 m3).m_frames_color = s.m_frames_color := a3
    rw [hcol] at hc k3
    exact ⟨c0, crest, hc, k1, k2, k3⟩

/-- A template whose right edge lies beyond the frame width fails the bounds test,
whatever the template size. -/
theorem outsideFrame_of_right_edge (template_size : Int) (frame : Mat Nat) (pt : Point)
    (h : (frame.cols : Int) < pt.x + template_size) :
    outsideFrame template_size ⟨0, 0, frame.cols, frame.rows⟩ pt = true := by
  unfold outsideFrame Rect.inter
  simp only [bne_iff_ne, ne_eq]
  split_ifs with hc
  · simp only [Rect.mk.injEq]
    omega
  · simp only [Rect.mk.injEq]
    omega

/-- A session produced by `loadVideo` from a stream of equally sized frames is
well formed, whatever the session was before. -/
theorem loadVideo_wellFormed (src : VideoSource) (video_path : String)
    (s : SyntheticAperture F) (params : SA_Parameters)
    (h : ∀ stream, src = some stream → UniformStream stream) :
    WellFormed (loadVideo src video_path s params).2 := by
  unfold loadVideo
  cases src with
  | none =>
    exact ⟨fun hl => by simp [setStatus, clearSession] at hl, rfl,
      fun f hf => by simp [setStatus, clearSession] at hf,
      fun c hc => by simp [setStatus, clearSession] at hc,
      fun g hg => by simp [setStatus, clearSession] at hg⟩
  | some stream =>
    have hu := h stream rfl
    simp only
    cases ht : List.take params.max_frames.toNat stream with
    | nil =>
      simp only [List.map_nil]
      exact ⟨fun hl => by simp [setStatus, clearSession] at hl, rfl,
        fun f hf => by simp [setStatus] at hf,
        fun c hc => by simp [setStatus] at hc,
        fun g hg => by simp [setStatus] at hg⟩
    | cons a l =>
      simp only [List.map_cons]
      have hsub : ∀ b ∈ a :: l, b ∈ stream := fun b hb =>
        List.mem_of_mem_take (by rw [ht]; exact hb)
      have hgray : ∀ g ∈ a.2 :: l.map Prod.snd, ∃ b ∈ stream, b.2 = g := by
        intro g hg
        rcases List.mem_cons.mp hg with rfl | hg
        · exact ⟨a, hsub a (List.mem_cons_self a l), rfl⟩
        · obtain ⟨b, hb, rfl⟩ := List.mem_map.mp hg
          exact ⟨b, hsub b (List.mem_cons_of_mem a hb), rfl⟩
      have hcolor : ∀ c ∈ a.1 :: l.map Prod.fst, ∃ b ∈ stream, b.1 = c := by
        intro c hc
        rcases List.mem_cons.mp hc with rfl | hc
        · exact ⟨a, hsub a (List.mem_cons_self a l), rfl⟩
        · obtain ⟨b, hb, rfl⟩ := List.mem_map.mp hc
          exact ⟨b, hsub b (List.mem_cons_of_mem a hb), rfl⟩
      refine ⟨fun _ => by simp, by simp, ?_, ?_, ?_⟩
      · intro f hf g hg
        obtain ⟨b, hb, rfl⟩ := hgray f hf
        obtain ⟨b2, hb2, rfl⟩ := hgray g hg
        exact (hu b hb b2 hb2).2
      · intro c hc g hg
        obtain ⟨b, hb, rfl⟩ := hcolor c hc
        obtain ⟨b2, hb2, rfl⟩ := hgray g hg
        exact (hu b hb b2 hb2).1
      · intro g hg
        obtain ⟨b2, hb2, rfl⟩ := hgray g hg
        exact (hu a (hsub a (List.mem_cons_self a l)) b2 hb2).1

/-- A fresh session is well formed. -/
theorem new_wellFormed : WellFormed (SyntheticAperture.new : SyntheticAperture F) :=
  ⟨fun hl => by simp [SyntheticAperture.new] at hl, rfl,
    fun f hf => by simp [SyntheticAperture.new] at hf,
    fun c hc => by simp [SyntheticAperture.new] at hc,
    fun g hg => by simp [SyntheticAperture.new] at hg⟩

/-- Whatever `process` returns, it leaves the frames, the first-frame copy and the
loaded flag alone. -/
theorem process_keeps_frames (ops : CvOps F) (s s' : SyntheticAperture F)
    (params : SA_Parameters) (b : Bool) (h : process ops s params = some (b, s')) :
    s'.m_frames_gray = s.m_frames_gray ∧ s'.m_frames_color = s.m_frames_color ∧
      s'.m_first_color_frame = s.m_first_color_frame ∧
      s'.m_video_loaded = s.m_video_loaded := by
  cases b with
  | true =>
    obtain ⟨hl, -⟩ := process_true_inv ops s s' params h
    obtain ⟨h1, -, -, h4, h5, h6, -⟩ := process_true_fields ops s s' params h
    exact ⟨h4, h5, h6, by rw [h1, hl]⟩
  | false =>
    by_cases hl : s.m_video_loaded = true
    · by_cases hne : params.template_points = []
      · rw [process_no_templates ops s params hl hne] at h
        simp only [Option.some.injEq, Prod.mk.injEq, true_and] at h
        rw [← h]
        exact ⟨rfl, rfl, rfl, rfl⟩
      · cases hf : s.m_frames_gray with
        | nil =>
          unfold process at h
          rw [if_neg (by simp [hl])] at h
          simp only at h
          rw [if_neg (by simpa [beginProcess] using hne)] at h
          have hg : (beginProcess s params).m_frames_gray = [] := hf
          rw [hg] at h
          simp at h
        | cons f0 rest =>
          by_cases hout : ∃ pt ∈ params.template_points,
              outsideFrame params.template_size ⟨0, 0, f0.cols, f0.rows⟩ pt = true
          · rw [process_outside ops s params f0 rest hl hne hf hout] at h
            simp only [Option.some.injEq, Prod.mk.injEq, true_and] at h
            rw [← h, ← hf]
            exact ⟨rfl, rfl, rfl, rfl⟩
          · have hin : ∀ pt ∈ params.template_points,
                outsideFrame params.template_size ⟨0, 0, f0.cols, f0.rows⟩ pt = false := by
              intro pt hpt
              by_contra hb
              exact hout ⟨pt, hpt, by simpa using hb⟩
            rw [process_valid ops s params f0 rest hl hne hf hin] at h
            obtain ⟨s1, -, h⟩ := Option.bind_eq_some.mp h
            obtain ⟨s2, -, h⟩ := Option.bind_eq_some.mp h
            obtain ⟨s3, -, h⟩ := Option.map_eq_some'.mp h
            simp at h
    · have hl2 : s.m_video_loaded = false := by simpa using hl
      rw [process_not_loaded ops s params hl2] at h
      simp only [Option.some.injEq, Prod.mk.injEq, true_and] at h
      rw [← h]
      exact ⟨rfl, rfl, rfl, rfl⟩

/-- Well-formedness is kept by `process`. -/
theorem process_wellFormed (ops : CvOps F) (s s' : SyntheticAperture F)
    (params : SA_Parameters) (b : Bool) (hwf : WellFormed s)
    (h : process ops s params = some (b, s')) : WellFormed s' := by
  obtain ⟨h1, h2, h3, h4⟩ := process_keeps_frames ops s s' params b h
  exact ⟨by rw [h1, h4]; exact hwf.loaded_nonempty, by rw [h1, h2]; exact hwf.same_count,
    by rw [h1]; exact hwf.gray_size, by rw [h1, h2]; exact hwf.color_size,
    by rw [h1, h3]; exact hwf.first_size⟩

theorem dotStream_uniform : UniformStream dotStream := by
  intro a ha b hb
  simp only [dotStream, List.mem_cons, List.mem_singleton, List.not_mem_nil, or_false] at ha hb
  rcases ha with rfl | rfl <;> rcases hb with rfl | rfl <;> exact ⟨⟨rfl, rfl⟩, ⟨rfl, rfl⟩⟩

theorem dotSession_wellFormed : WellFormed dotSession :=
  loadVideo_wellFormed (some dotStream) "dot.mp4" SyntheticAperture.new {}
    (fun stream h => by
      simp only [Option.some.injEq] at h
      rw [← h]
      exact dotStream_uniform)

theorem dotSession_frames :
    dotSession.m_video_loaded = true ∧
      dotSession.m_frames_gray = [dotGray 2 2, dotGray 3 2] ∧
      dotSession.m_frames_color = [dotColor 2 2, dotColor 3 2] := by
  refine ⟨rfl, rfl, rfl⟩

theorem dotParams_accepted : Accepts dotSession dotParams := by
  refine ⟨rfl, by simp [dotParams], dotGray 2 2, rfl, ?_⟩
  intro pt hpt
  simp only [dotParams, List.mem_singleton] at hpt
  subst hpt
  simp [InBounds, dotParams, dotGray]

/-- Witness for C1: the sample session and the sample configuration. -/
theorem process_returns_true_iff_witness :
    WellFormed dotSession ∧ 0 < dotParams.template_size ∧
      dotParams.template_size ≤ dotParams.search_window_size ∧
      ∃ b s', process exactOps dotSession dotParams = some (b, s') ∧
        (b = true ↔ Accepts dotSession dotParams) :=
  ⟨dotSession_wellFormed, by decide, by decide,
    process_returns_true_iff exactOps dotSession dotParams dotSession_wellFormed
      (by decide) (by decide)⟩

/-- After a successful `process`, a further call with a template whose right edge lies
beyond the width of frame 0 returns `false`; the session afterwards is the session
before with the new parameters stored, the processed flag reset and the status
replaced. -/
theorem process_after_success_outside (ops : CvOps F) (s0 s : SyntheticAperture F)
    (p0 params : SA_Parameters) (hprev : process ops s0 p0 = some (true, s))
    (f0 : Mat Nat) (hf0 : s.m_frames_gray.head? = some f0) (pt : Point)
    (hpt : pt ∈ params.template_points)
    (hx : (f0.cols : Int) < pt.x + params.template_size) :
    s.m_is_processed = true ∧
      process ops s params =
        some (false, setStatus (beginProcess s params)
          "Error: A template is outside frame boundaries.") := by
  obtain ⟨hl, hp, -, -, -, -, -⟩ := process_true_fields ops s0 s p0 hprev
  refine ⟨hp, ?_⟩
  cases hg : s.m_frames_gray with
  | nil => rw [hg] at hf0; simp at hf0
  | cons g rest =>
    rw [hg] at hf0
    simp only [List.head?_cons, Option.some.injEq] at hf0
    subst hf0
    exact process_outside ops s params g rest hl (List.ne_nil_of_mem hpt) hg
      ⟨pt, hpt, outsideFrame_of_right_edge _ g pt hx⟩

/-- C2 (amended). On a session on which `process` has succeeded, a further call with a
template whose `x + template_size` exceeds the width of frame 0 returns `false` and
leaves the displacement sequence of template 0, the depth map, the synthetic image and
the template patch image as they were; the processed flag, `true` before the call, is
`false` after it. -/
theorem process_out_of_bounds_keeps_results (ops : CvOps F) (s0 s : SyntheticAperture F)
    (p0 params : SA_Parameters) (hprev : process ops s0 p0 = some (true, s))
    (f0 : Mat Nat) (hf0 : s.m_frames_gray.head? = some f0) (pt : Point)
    (hpt : pt ∈ params.template_points)
    (hx : (f0.cols : Int) < pt.x + params.template_size) :
    ∃ s', process ops s params = some (false, s') ∧
      getShifts s' = getShifts s ∧ getDepthMap s' = getDepthMap s ∧
      getSyntheticImage s' = getSyntheticImage s ∧
      getTemplateImage s' = getTemplateImage s ∧
      isProcessed s = true ∧ isProcessed s' = false := by
  obtain ⟨hp, hr⟩ := process_after_success_outside ops s0 s p0 params hprev f0 hf0 pt hpt hx
  exact ⟨_, hr, rfl, rfl, rfl, rfl, hp, rfl⟩

theorem dotSession_processed :
    ∃ s, process exactOps dotSession dotParams = some (true, s) ∧
      s.m_frames_gray.head? = some (dotGray 2 2) := by
  obtain ⟨s, hs⟩ := process_total exactOps dotSession dotParams dotSession_wellFormed
    (by decide) (by decide) dotParams_accepted
  obtain ⟨-, -, -, hg, -⟩ := process_true_fields exactOps dotSession s dotParams hs
  exact ⟨s, hs, by rw [hg]; rfl⟩

/-- Witness for C2: the sample session is processed, then asked for a template at
`(5, 1)` in frames of width 6. -/
theorem process_out_of_bounds_keeps_results_witness :
    ∃ s, process exactOps dotSession dotParams = some (true, s) ∧
      ∃ s', process exactOps s dotParamsOut = some (false, s') ∧
        getShifts s' = getShifts s ∧ getDepthMap s' = getDepthMap s ∧
        getSyntheticImage s' = getSyntheticImage s ∧
        getTemplateImage s' = getTemplateImage s ∧
        isProcessed s = true ∧ isProcessed s' = false := by
  obtain ⟨s, hs, hf⟩ := dotSession_processed
  exact ⟨s, hs, process_out_of_bounds_keeps_results exactOps dotSession s dotParams
    dotParamsOut hs (dotGray 2 2) hf ⟨5, 1⟩ (by simp [dotParamsOut])
    (by simp [dotParamsOut, dotGray])⟩

/-- Counterexample to C2 as stated: after the rejected call the processed flag is not
what it was before the call. -/
theorem process_out_of_bounds_resets_flag :
    ∃ s s', process exactOps dotSession dotParams = some (true, s) ∧
      process exactOps s dotParamsOut = some (false, s') ∧
      isProcessed s' ≠ isProcessed s := by
  obtain ⟨s, hs, hf⟩ := dotSession_processed
  obtain ⟨hp, hr⟩ := process_after_success_outside exactOps dotSession s dotParams
    dotParamsOut hs (dotGray 2 2) hf ⟨5, 1⟩ (by simp [dotParamsOut])
    (by simp [dotParamsOut, dotGray])
  refine ⟨s, _, hs, hr, ?_⟩
  show false ≠ s.m_is_processed
  rw [hp]
  decide

/-- C3. After a successful `process` there is one displacement sequence per template,
the `i`-th one being the tracking result of the `i`-th template; each has one entry per
loaded frame and its entry 0 is `(0, 0)`. -/
theorem process_shifts_shape (ops : CvOps F) (s s' : SyntheticAperture F)
    (params : SA_Parameters) (h : process ops s params = some (true, s')) :
    1 ≤ params.template_points.length ∧
      s'.m_multi_template_shifts.length = params.template_points.length ∧
      List.Forall₂
        (fun pt sh => ∃ t, trackTemplate ops params s.m_frames_gray pt = some (t, sh))
        params.template_points s'.m_multi_template_shifts ∧
      s'.m_frames_gray = s.m_frames_gray ∧
      ∀ sh ∈ s'.m_multi_template_shifts,
        sh.length = s.m_frames_gray.length ∧ sh.head? = some ⟨0, 0⟩ := by
  obtain ⟨-, hne, -⟩ := process_true_inv ops s s' params h
  obtain ⟨-, -, -, hg, -, -, timg, hall, -⟩ := process_true_fields ops s s' params h
  obtain ⟨hlen, hshape⟩ := trackAll_shape ops params _ _ _ timg _ hall
  exact ⟨List.length_pos.mpr hne, hlen, trackAll_some ops params _ _ _ timg _ hall, hg,
    hshape⟩

/-- Witness for C3: the sample session with its one template and two frames. -/
theorem process_shifts_shape_witness :
    ∃ s', process exactOps dotSession dotParams = some (true, s') ∧
      s'.m_multi_template_shifts.length = 1 ∧
      ∀ sh ∈ s'.m_multi_template_shifts, sh.length = 2 ∧ sh.head? = some ⟨0, 0⟩ := by
  obtain ⟨s', hs, -⟩ := dotSession_processed
  obtain ⟨-, h2, -, -, h5⟩ := process_shifts_shape exactOps dotSession s' dotParams hs
  exact ⟨s', hs, h2, h5⟩

end Process

/-! ## Tracking a shifted patch -/

section Shift

variable {F : Type} [LinearOrderedField F]

/-- In a frame of the size of frame 0, the placement whose response is strictly above
that of every other candidate placement is the one the tracker reports. -/
theorem trackFrame_of_strict (ops : CvOps F) (params : SA_Parameters) (f0 f1 : Mat Nat)
    (pt a : Point) (hts : 0 < params.template_size)
    (hsw : params.template_size ≤ params.search_window_size)
    (hin : InBounds params.template_size f1 pt)
    (ha : IsCandidate params pt f1 a)
    (hbest : ∀ b, IsCandidate params pt f1 b → b ≠ a →
      responseAt ops params f0 pt f1 b < responseAt ops params f0 pt f1 a) :
    trackFrame ops params
        (f0.roi ⟨pt.x, pt.y, params.template_size, params.template_size⟩) pt
        (searchOffset params pt) f1 = some ⟨a.x - pt.x, a.y - pt.y⟩ := by
  obtain ⟨-, -, -, hx, hy⟩ := searchWindowRoi_contains params f1 pt hts hsw hin
  unfold IsCandidate at ha hbest
  unfold responseAt at hbest
  have key := trackFrame_of_peak ops params
    (f0.roi ⟨pt.x, pt.y, params.template_size, params.template_size⟩) f1 pt hts hsw hin
    rfl rfl
  generalize searchWindowRoi params (searchOffset params pt) f1 = r at hx hy ha hbest key
  obtain ⟨a1, a2, a3, a4⟩ := ha
  have hqx : ((a.x - r.x).toNat : Int) = a.x - r.x := Int.toNat_of_nonneg (by omega)
  have hqy : ((a.y - r.y).toNat : Int) = a.y - r.y := Int.toNat_of_nonneg (by omega)
  have hax : r.x + (a.x - r.x) = a.x := by omega
  have hay : r.y + (a.y - r.y) = a.y := by omega
  have hpk : minMaxLoc (responseMap ops f1 r params.template_size.toNat
      (f0.roi ⟨pt.x, pt.y, params.template_size, params.template_size⟩).content)
      = some ⟨a.x - r.x, a.y - r.y⟩ := by
    apply minMaxLoc_of_strict
    · apply (mem_scanOrder _ _ _).mpr
      refine ⟨(a.x - r.x).toNat, (a.y - r.y).toNat, ?_, ?_, by rw [hqx, hqy]⟩
      · show _ < r.width.toNat - params.template_size.toNat + 1
        omega
      · show _ < r.height.toNat - params.template_size.toNat + 1
        omega
    · intro q hq hne
      obtain ⟨i, j, hi, hj, rfl⟩ := (mem_scanOrder _ _ q).mp hq
      have hi2 : i < r.width.toNat - params.template_size.toNat + 1 := hi
      have hj2 : j < r.height.toNat - params.template_size.toNat + 1 := hj
      have hb := hbest ⟨r.x + i, r.y + j⟩ ⟨by dsimp only; omega, by dsimp only; omega,
        by dsimp only; omega, by dsimp only; omega⟩
        (by
          intro hab
          apply hne
          rw [← hab]
          simp only [Point.mk.injEq]
          omega)
      show ops.score _ _ < ops.score _ _
      dsimp only at hb ⊢
      rw [hax, hay]
      exact hb
  rw [key _ hpk]
  dsimp only
  rw [hax, hay]

/-- C4 (amended). Two grey frames of one size, a template in bounds at `pt`, and a
whole-number shift `(dx, dy)` within the search margin such that frame 1 shows the
reference patch at `pt + (dx, dy)`.  If every other candidate placement in frame 1
responds strictly below the response of the reference patch to itself, the
displacement computed for frame 1 is exactly `(dx, dy)`. -/
theorem shifted_patch_displacement (ops : CvOps F) (params : SA_Parameters)
    (f0 f1 : Mat Nat) (pt : Point) (dx dy : Int) (hts : 0 < params.template_size)
    (hsw : params.template_size ≤ params.search_window_size)
    (hin : InBounds params.template_size f0 pt) (hsize : f1.sameSize f0)
    (hdx : -searchMargin params ≤ dx ∧ dx ≤ searchMargin params)
    (hdy : -searchMargin params ≤ dy ∧ dy ≤ searchMargin params)
    (hin1 : InBounds params.template_size f1 ⟨pt.x + dx, pt.y + dy⟩)
    (hcopy : f1.block (pt.x + dx) (pt.y + dy)
        params.template_size.toNat params.template_size.toNat
      = f0.block pt.x pt.y params.template_size.toNat params.template_size.toNat)
    (hbest : ∀ b, IsCandidate params pt f1 b → b ≠ ⟨pt.x + dx, pt.y + dy⟩ →
      responseAt ops params f0 pt f1 b <
        ops.score
          (f0.roi ⟨pt.x, pt.y, params.template_size, params.template_size⟩).content
          (f0.roi ⟨pt.x, pt.y, params.template_size, params.template_size⟩).content) :
    ∃ t, trackTemplate ops params [f0, f1] pt = some (t, [⟨0, 0⟩, ⟨dx, dy⟩]) := by
  have hin' : InBounds params.template_size f1 pt :=
    inBounds_of_sameSize _ f1 f0 pt hsize hin
  have hself : responseAt ops params f0 pt f1 ⟨pt.x + dx, pt.y + dy⟩ =
      ops.score
        (f0.roi ⟨pt.x, pt.y, params.template_size, params.template_size⟩).content
        (f0.roi ⟨pt.x, pt.y, params.template_size, params.template_size⟩).content := by
    unfold responseAt
    dsimp only
    rw [hcopy, roi_content]
  have hcand : IsCandidate params pt f1 ⟨pt.x + dx, pt.y + dy⟩ := by
    obtain ⟨hm, hxy, hwh, -, -⟩ := searchWindowRoi_contains params f1 pt hts hsw hin'
    unfold IsCandidate
    unfold InBounds at hin1
    dsimp only at hin1 ⊢
    omega
  have hf := trackFrame_of_strict ops params f0 f1 pt ⟨pt.x + dx, pt.y + dy⟩ hts hsw hin'
    hcand (fun b hb hne => by rw [hself]; exact hbest b hb hne)
  have hd : (⟨pt.x + dx - pt.x, pt.y + dy - pt.y⟩ : Point) = ⟨dx, dy⟩ := by
    simp
  dsimp only at hf
  rw [hd] at hf
  exact ⟨_, trackTemplate_of_frames ops params f0 [f1] pt [⟨dx, dy⟩]
    (List.Forall₂.cons hf List.Forall₂.nil)⟩

theorem dotWindow :
    searchWindowRoi dotParams (searchOffset dotParams ⟨1, 1⟩) (dotGray 3 2) = ⟨0, 0, 4, 4⟩ := by
  decide

/-- Witness for C4: the bright pixel of the sample frames moves by `(1, 0)` and the
exact-copy matcher singles out the shifted placement. -/
theorem shifted_patch_displacement_witness :
    ∃ t, trackTemplate exactOps dotParams [dotGray 2 2, dotGray 3 2] ⟨1, 1⟩
      = some (t, [⟨0, 0⟩, ⟨1, 0⟩]) := by
  apply shifted_patch_displacement exactOps dotParams (dotGray 2 2) (dotGray 3 2) ⟨1, 1⟩ 1 0
    (by decide) (by decide) (by decide) (by decide) (by decide) (by decide) (by decide)
    (by decide)
  intro b hb hne
  unfold IsCandidate at hb
  rw [dotWindow] at hb
  obtain ⟨bx, by_⟩ := b
  have hts : dotParams.template_size = 2 := rfl
  rw [hts] at hb
  dsimp only at hb
  have h1 : 0 ≤ bx ∧ bx ≤ 2 := by omega
  have h2 : 0 ≤ by_ ∧ by_ ≤ 2 := by omega
  obtain ⟨h1a, h1b⟩ := h1
  obtain ⟨h2a, h2b⟩ := h2
  interval_cases bx <;> interval_cases by_ <;> first
    | exact absurd rfl hne
    | decide

theorem blobGray_bright (left x y : Int) (hx : left ≤ x ∧ x < left + 8)
    (hy : 1 ≤ y ∧ y < 9) : (blobGray left).px x y = 200 := by
  unfold blobGray
  dsimp only
  rw [if_pos ⟨hx.1, hx.2, hy.1, hy.2⟩]

/-- Counterexample to C4 as stated: a uniformly bright object moves by `(1, 0)` between
two frames and nothing else changes; the template lies on the object and the shift is
within the search margin 1.  Every placement in the search window shows the same
block, so the tracker reports the first placement, displacement `(-1, -1)`, whatever
the response function is. -/
theorem uniform_object_shift_missed :
    (∀ x y, (blobGray 2).px (x + 1) y = (blobGray 1).px x y) ∧
      searchMargin blobParams = 1 ∧
      TracksTo blobParams [blobGray 1, blobGray 2] ⟨4, 4⟩ [⟨0, 0⟩, ⟨-1, -1⟩] := by
  refine ⟨?_, by decide, ?_⟩
  · intro x y
    unfold blobGray
    dsimp only
    by_cases h : 1 ≤ x ∧ x < 1 + 8 ∧ 1 ≤ y ∧ y < 9
    · rw [if_pos h, if_pos (by omega)]
    · rw [if_neg h, if_neg (by omega)]
  · intro F _ ops
    refine ⟨_, trackTemplate_of_frames ops blobParams (blobGray 1) [blobGray 2] ⟨4, 4⟩
      [⟨-1, -1⟩] (List.Forall₂.cons ?_ List.Forall₂.nil)⟩
    have h := trackFrame_of_ties ops blobParams
      ((blobGray 1).roi ⟨4, 4, blobParams.template_size, blobParams.template_size⟩)
      (blobGray 2) ⟨4, 4⟩ (by decide) (by decide) (by decide) rfl rfl ⟨3, 3, 4, 4⟩
      (by decide)
      (by
        intro i j hi hj
        have hi2 : i < 3 := hi
        have hj2 : j < 3 := hj
        apply block_congr
        intro a b ha hb
        have ha2 : a < 2 := ha
        have hb2 : b < 2 := hb
        rw [blobGray_bright 2 _ _ (by dsimp only; omega) (by dsimp only; omega),
          blobGray_bright 2 _ _ (by dsimp only; omega) (by dsimp only; omega)])
    exact h

end Shift

/-! ## The end-to-end scenario -/

section Scenario

variable {F : Type} [LinearOrderedField F]

theorem squareGray_dark (qx qy i x y : Int)
    (h : x < qx + i ∨ qx + i + 20 ≤ x ∨ y < qy ∨ qy + 20 ≤ y) :
    (squareGray qx qy i).px x y = 40 := by
  unfold squareGray
  dsimp only
  rw [if_neg (by omega)]

theorem squareGray_bright (qx qy i x y : Int)
    (h : qx + i ≤ x ∧ x < qx + i + 20 ∧ qy ≤ y ∧ y < qy + 20) :
    (squareGray qx qy i).px x y = 220 := by
  unfold squareGray
  dsimp only
  rw [if_pos h]

theorem mem_squareSteps (i : Int) (h : i ∈ squareSteps) : 1 ≤ i ∧ i ≤ 9 := by
  simp only [squareSteps, List.mem_cons, List.mem_singleton, List.not_mem_nil, or_false] at h
  omega

theorem squareGray_inBounds (qx qy i : Int) (pt : Point)
    (h : 0 ≤ pt.x ∧ 0 ≤ pt.y ∧ pt.x + 20 ≤ 100 ∧ pt.y + 20 ≤ 100) :
    InBounds squareParams.template_size (squareGray qx qy i) pt := h

/-- The template on the static background: as long as the square stays out of its
search window, every placement shows the same block, and the tracker reports the corner
of the search window, displacement `(-10, -10)`, in every frame after frame 0. -/
theorem static_template_series (ops : CvOps F) (qx qy : Int)
    (hq : qx ≤ 21 ∨ qy ≤ 30) :
    trackTemplate ops squareParams (squareFrames qx qy) ⟨60, 60⟩ =
      some ((squareGray qx qy 0).roi ⟨60, 60, 20, 20⟩, cornerSeries) := by
  apply trackTemplate_of_frames ops squareParams (squareGray qx qy 0)
    (squareSteps.map (squareGray qx qy)) ⟨60, 60⟩ (squareSteps.map fun _ => ⟨-10, -10⟩)
  rw [List.forall₂_map_left_iff, List.forall₂_map_right_iff, List.forall₂_same]
  intro i hi
  obtain ⟨hi1, hi9⟩ := mem_squareSteps i hi
  have h := trackFrame_of_ties ops squareParams
    ((squareGray qx qy 0).roi
      ⟨60, 60, squareParams.template_size, squareParams.template_size⟩)
    (squareGray qx qy i) ⟨60, 60⟩ (by decide) (by decide)
    (squareGray_inBounds qx qy i ⟨60, 60⟩ (by decide)) rfl rfl ⟨50, 50, 40, 40⟩ rfl
    (by
      intro c d hc hd
      have hc2 : c < 21 := hc
      have hd2 : d < 21 := hd
      apply block_congr
      intro a b ha hb
      have ha2 : a < 20 := ha
      have hb2 : b < 20 := hb
      rw [squareGray_dark qx qy i _ _ (by dsimp only; omega),
        squareGray_dark qx qy i _ _ (by dsimp only; omega)])
  exact h

/-- Counterexample to C5 as stated: with the square starting at `(10, 10)`, under the
first template, the template on the static background at `(60, 60)` gets displacement
`(-10, -10)`, not `(0, 0)`, in each of the frames 1 to 9, whatever the response
function is. -/
theorem static_template_not_zero :
    TracksTo squareParams (squareFrames 10 10) ⟨60, 60⟩ cornerSeries ∧
      cornerSeries ≠ zeroSeries := by
  refine ⟨fun F _ ops => ⟨_, static_template_series ops 10 10 (Or.inl (by decide))⟩, ?_⟩
  decide

/-- The template on the moving square, when the reference patch at `(10, 10)` shows
the top-left corner of the square: the only placement in frame `i` that shows the
reference block is `(10 + i, 10)`. -/
theorem squareGray_copy_unique (qx qy i : Int) (b : Point)
    (hcorner : 10 < qx ∧ 10 < qy ∧ qy < 30 ∧ qx < 30)
    (hb : 0 ≤ b.x ∧ b.x ≤ 20 ∧ 0 ≤ b.y ∧ b.y ≤ 20)
    (heq : (squareGray qx qy i).block b.x b.y 20 20
      = (squareGray qx qy 0).block 10 10 20 20) :
    b = ⟨10 + i, 10⟩ := by
  obtain ⟨c1, c2, c3, c4⟩ := hcorner
  have hcx : ((qx - 10).toNat : Int) = qx - 10 := Int.toNat_of_nonneg (by omega)
  have hcy : ((qy - 10).toNat : Int) = qy - 10 := Int.toNat_of_nonneg (by omega)
  have hcx1 : ((qx - 11).toNat : Int) = qx - 11 := Int.toNat_of_nonneg (by omega)
  have hcy1 : ((qy - 11).toNat : Int) = qy - 11 := Int.toNat_of_nonneg (by omega)
  have p0 := block_px _ _ _ _ _ _ _ _ heq (qx - 10).toNat (qy - 10).toNat
    (by omega) (by omega)
  have p1 := block_px _ _ _ _ _ _ _ _ heq (qx - 11).toNat (qy - 10).toNat
    (by omega) (by omega)
  have p2 := block_px _ _ _ _ _ _ _ _ heq (qx - 10).toNat (qy - 11).toNat
    (by omega) (by omega)
  rw [hcx, hcy, squareGray_bright qx qy 0 _ _ (by omega)] at p0
  rw [hcx1, hcy, squareGray_dark qx qy 0 _ _ (by omega)] at p1
  rw [hcx, hcy1, squareGray_dark qx qy 0 _ _ (by omega)] at p2
  unfold squareGray at p0 p1 p2
  dsimp only at p0 p1 p2
  obtain ⟨bx, by_⟩ := b
  dsimp only at hb p0 p1 p2
  split_ifs at p0 p1 p2 with k0 k1 k2 <;> (simp only [Point.mk.injEq]; omega)

/-- The template on the moving square: when the reference patch shows the corner of
the square and exact copies win, the displacement in frame `i` is `(i, 0)`. -/
theorem moving_template_series (ops : CvOps F) (qx qy : Int)
    (hcorner : 10 < qx ∧ 10 < qy ∧ qy < 30 ∧ qx < 30) (hwin : CopyWins ops qx qy) :
    trackTemplate ops squareParams (squareFrames qx qy) ⟨10, 10⟩ =
      some ((squareGray qx qy 0).roi ⟨10, 10, 20, 20⟩, movingSeries) := by
  apply trackTemplate_of_frames ops squareParams (squareGray qx qy 0)
    (squareSteps.map (squareGray qx qy)) ⟨10, 10⟩ (squareSteps.map fun i => ⟨i, 0⟩)
  rw [List.forall₂_map_left_iff, List.forall₂_map_right_iff, List.forall₂_same]
  intro i hi
  obtain ⟨hi1, hi9⟩ := mem_squareSteps i hi
  have hroi : searchWindowRoi squareParams (searchOffset squareParams ⟨10, 10⟩)
      (squareGray qx qy i) = ⟨0, 0, 40, 40⟩ := rfl
  have hcopy : (squareGray qx qy i).block (10 + i) 10 20 20
      = (squareGray qx qy 0).block 10 10 20 20 := by
    apply block_congr
    intro a b _ _
    unfold squareGray
    dsimp only
    by_cases hc : qx + 0 ≤ 10 + (a : Int) ∧ 10 + (a : Int) < qx + 0 + 20 ∧
        qy ≤ 10 + (b : Int) ∧ 10 + (b : Int) < qy + 20
    · rw [if_pos hc, if_pos (by omega)]
    · rw [if_neg hc, if_neg (by omega)]
  have hT : ((squareGray qx qy 0).roi
      ⟨10, 10, squareParams.template_size, squareParams.template_size⟩).content
      = (squareGray qx qy 0).block 10 10 20 20 := roi_content _ _
  have hself : responseAt ops squareParams (squareGray qx qy 0) ⟨10, 10⟩
      (squareGray qx qy i) ⟨10 + i, 10⟩
      = ops.score ((squareGray qx qy 0).block 10 10 20 20)
          ((squareGray qx qy 0).block 10 10 20 20) := by
    unfold responseAt
    rw [hT]
    show ops.score ((squareGray qx qy i).block (10 + i) 10 20 20) _ = _
    rw [hcopy]
  have h := trackFrame_of_strict ops squareParams (squareGray qx qy 0)
    (squareGray qx qy i) ⟨10, 10⟩ ⟨10 + i, 10⟩ (by decide) (by decide)
    (squareGray_inBounds qx qy i ⟨10, 10⟩ (by decide))
    (by
      unfold IsCandidate
      rw [hroi]
      show (0 : Int) ≤ 10 + i ∧ 10 + i + 20 ≤ 0 + 40 ∧ (0 : Int) ≤ 10 ∧ (10 : Int) + 20 ≤ 0 + 40
      omega)
    (by
      intro b hb hne
      rw [hself]
      apply hwin i hi b hb
      intro heq
      apply hne
      unfold IsCandidate at hb
      rw [hroi] at hb
      have hb2 : (0 : Int) ≤ b.x ∧ b.x + 20 ≤ 0 + 40 ∧ (0 : Int) ≤ b.y ∧ b.y + 20 ≤ 0 + 40 := hb
      exact squareGray_copy_unique qx qy i b hcorner (by omega) heq)
  have hd : (⟨10 + i - 10, 10 - 10⟩ : Point) = ⟨i, 0⟩ := by
    simp only [Point.mk.injEq]
    omega
  dsimp only at h
  rw [hd] at h
  exact h

theorem trackAll_pair (ops : CvOps F) (params : SA_Parameters) (frames : List (Mat Nat))
    (p1 p2 : Point) (t0 t1 t2 : Mat Nat) (sh1 sh2 : List Point)
    (h1 : trackTemplate ops params frames p1 = some (t1, sh1))
    (h2 : trackTemplate ops params frames p2 = some (t2, sh2)) :
    trackAll ops params frames [p1, p2] t0 = some (t2, [sh1, sh2]) := by
  simp only [trackAll, h1, h2]

theorem squareStream_uniform (qx qy : Int) : UniformStream (squareStream qx qy) := by
  intro a ha b hb
  obtain ⟨i, -, rfl⟩ := List.mem_map.mp ha
  obtain ⟨j, -, rfl⟩ := List.mem_map.mp hb
  exact ⟨⟨rfl, rfl⟩, ⟨rfl, rfl⟩⟩

theorem squareSession_wellFormed (qx qy : Int) : WellFormed (squareSession qx qy) :=
  loadVideo_wellFormed (some (squareStream qx qy)) "square.mp4" SyntheticAperture.new {}
    (fun stream h => by
      simp only [Option.some.injEq] at h
      rw [← h]
      exact squareStream_uniform qx qy)

theorem exactOps_copyWins (qx qy : Int) : CopyWins exactOps qx qy := by
  intro i _ b _ hne
  unfold responseAt
  rw [roi_content]
  show (if (squareGray qx qy i).block b.x b.y 20 20 = (squareGray qx qy 0).block 10 10 20 20
      then (1 : ℚ) else 0) < (if (squareGray qx qy 0).block 10 10 20 20
        = (squareGray qx qy 0).block 10 10 20 20 then (1 : ℚ) else 0)
  rw [if_neg hne, if_pos rfl]
  exact zero_lt_one

/-- C5 (amended). The end-to-end scenario, with the square starting at `(qx, qy)` such
that the reference patch at `(10, 10)` shows its top-left corner and the square stays
left of the second search window, and with a response under which exact copies win:
`process` succeeds; the template on the moving square gets the displacement series
`(0,0), (1,0), ..., (9,0)`; the template on the static background gets `(0,0)` for
frame 0 and `(-10,-10)`, the corner of its search window, for every later frame; the
parallax values are the norms of `(9, 0)` and of `(-10, -10)`, which for the Euclidean
norm are 9 and the positive root of 200. -/
theorem scenario_displacements (ops : CvOps F) (qx qy : Int) (s : SyntheticAperture F)
    (hwf : WellFormed s) (hl : s.m_video_loaded = true)
    (hg : s.m_frames_gray = squareFrames qx qy)
    (hcorner : 10 < qx ∧ qx ≤ 21 ∧ 10 < qy ∧ qy < 30) (hwin : CopyWins ops qx qy) :
    (∃ s', process ops s squareParams = some (true, s') ∧
      s'.m_multi_template_shifts = [movingSeries, cornerSeries] ∧
      s'.m_parallaxes = [ops.norm ⟨9, 0⟩, ops.norm ⟨-10, -10⟩]) ∧
    (EuclideanAt ops ⟨9, 0⟩ → ops.norm ⟨9, 0⟩ = 9) ∧
    (EuclideanAt ops ⟨-10, -10⟩ →
      ops.norm ⟨-10, -10⟩ ^ 2 = 200 ∧ 0 < ops.norm ⟨-10, -10⟩) := by
  refine ⟨?_, fun he => ?_, fun he => ?_⟩
  rotate_left
  · obtain ⟨h0, hsq⟩ := he
    have h81 : ops.norm ⟨9, 0⟩ ^ 2 = 81 := by rw [hsq]; norm_num
    have h9 : (ops.norm ⟨9, 0⟩ - 9) * (ops.norm ⟨9, 0⟩ + 9) = 0 := by
      ring_nf
      rw [h81]
      norm_num
    rcases mul_eq_zero.mp h9 with h1 | h1
    · linarith
    · linarith
  · obtain ⟨h0, hsq⟩ := he
    have h200 : ops.norm ⟨-10, -10⟩ ^ 2 = 200 := by rw [hsq]; norm_num
    refine ⟨h200, ?_⟩
    rcases h0.lt_or_eq with h1 | h1
    · exact h1
    · rw [← h1] at h200
      norm_num at h200
  have hacc : Accepts s squareParams := by
    refine ⟨hl, by simp [squareParams], squareGray qx qy 0, by rw [hg]; rfl, ?_⟩
    intro pt hpt
    simp only [squareParams, List.mem_cons, List.mem_singleton, List.not_mem_nil,
      or_false] at hpt
    rcases hpt with rfl | rfl
    · exact squareGray_inBounds qx qy 0 ⟨10, 10⟩ (by decide)
    · exact squareGray_inBounds qx qy 0 ⟨60, 60⟩ (by decide)
  obtain ⟨s', hs⟩ := process_total ops s squareParams hwf (by decide) (by decide) hacc
  obtain ⟨-, -, -, -, -, -, timg, hall, -⟩ := process_true_fields ops s s' squareParams hs
  have hpair := trackAll_pair ops squareParams (squareFrames qx qy) ⟨10, 10⟩ ⟨60, 60⟩
    s.m_template_image _ _ _ _
    (moving_template_series ops qx qy (by omega) hwin)
    (static_template_series ops qx qy (Or.inl (by omega)))
  rw [hg] at hall
  have hpts : squareParams.template_points = [⟨10, 10⟩, ⟨60, 60⟩] := rfl
  rw [hpts, hpair] at hall
  simp only [Option.some.injEq, Prod.mk.injEq] at hall
  have hsh : s'.m_multi_template_shifts = [movingSeries, cornerSeries] := hall.2.symm
  obtain ⟨-, hmany, -⟩ := process_true_artifacts ops s s' squareParams hs
  obtain ⟨hp, -, -⟩ := hmany (by rw [hsh]; decide)
  refine ⟨s', hs, hsh, ?_⟩
  rw [hp, hsh]
  simp [parallaxScan, parallaxStep, movingSeries, cornerSeries, squareSteps]

/-- Witness for C5: the scenario with the square starting at `(15, 15)`, loaded into a
fresh session, and the exact-copy matcher. -/
theorem scenario_displacements_witness :
    ∃ s', process exactOps (squareSession 15 15) squareParams = some (true, s') ∧
      s'.m_multi_template_shifts = [movingSeries, cornerSeries] ∧
      s'.m_parallaxes = [exactOps.norm ⟨9, 0⟩, exactOps.norm ⟨-10, -10⟩] :=
  (scenario_displacements exactOps 15 15 (squareSession 15 15)
    (squareSession_wellFormed 15 15) rfl rfl (by decide) (exactOps_copyWins 15 15)).1

/-- The scenario with the square starting at `(10, 10)`, exactly under the first
template: the reference patch is uniformly bright, so under the zero-variance
behaviour of the matcher all placements tie and the first template, too, is reported at
the corner of its search window, displacement `(-10, -10)`, in the frames 1 to 9. -/
theorem flat_template_series (ops : CvOps F) (hflat : FlatTemplateTies ops) :
    trackTemplate ops squareParams (squareFrames 10 10) ⟨10, 10⟩ =
      some ((squareGray 10 10 0).roi ⟨10, 10, 20, 20⟩, cornerSeries) := by
  apply trackTemplate_of_frames ops squareParams (squareGray 10 10 0)
    (squareSteps.map (squareGray 10 10)) ⟨10, 10⟩ (squareSteps.map fun _ => ⟨-10, -10⟩)
  rw [List.forall₂_map_left_iff, List.forall₂_map_right_iff, List.forall₂_same]
  intro i hi
  have hT : FlatBlock ((squareGray 10 10 0).roi
      ⟨10, 10, squareParams.template_size, squareParams.template_size⟩).content := by
    refine ⟨220, fun row hrow x hx => ?_⟩
    rw [roi_content] at hrow
    unfold Mat.block at hrow
    obtain ⟨j, hj, rfl⟩ := List.mem_map.mp hrow
    obtain ⟨k, hk, rfl⟩ := List.mem_map.mp hx
    have hj2 : j < 20 := List.mem_range.mp hj
    have hk2 : k < 20 := List.mem_range.mp hk
    exact squareGray_bright 10 10 0 _ _ (by dsimp only; omega)
  have h := trackFrame_of_equal_response ops squareParams
    ((squareGray 10 10 0).roi
      ⟨10, 10, squareParams.template_size, squareParams.template_size⟩)
    (squareGray 10 10 i) ⟨10, 10⟩ (by decide) (by decide)
    (squareGray_inBounds 10 10 i ⟨10, 10⟩ (by decide)) rfl rfl ⟨0, 0, 40, 40⟩ rfl
    (fun c d _ _ => hflat _ hT _ _)
  exact h

/-- The zero-variance behaviour is satisfiable: a constant response has it. -/
theorem flatTemplateTies_const : FlatTemplateTies (⟨fun _ _ => 1, fun _ => 0⟩ : CvOps ℚ) :=
  fun _ _ _ _ => rfl

end Scenario

/-! ## One template -/

section Single

variable {F : Type} [LinearOrderedField F]

/-- C6 (amended). In a well-formed loaded session, for a parameter set with
`template_size > 0`, `search_window_size ≥ template_size` and exactly one template,
lying inside frame 0: `process` returns `true` and sets the processed flag, the
parallax list is left empty, and the depth map is not empty and has the width and
height of the first frame. -/
theorem process_single_template (ops : CvOps F) (s : SyntheticAperture F)
    (params : SA_Parameters) (hwf : WellFormed s) (hl : s.m_video_loaded = true)
    (hts : 0 < params.template_size)
    (hsw : params.template_size ≤ params.search_window_size)
    (pt : Point) (hpts : params.template_points = [pt])
    (f0 : Mat Nat) (hf0 : s.m_frames_gray.head? = some f0)
    (hin : InBounds params.template_size f0 pt) :
    ∃ s', process ops s params = some (true, s') ∧ isProcessed s' = true ∧
      s'.m_parallaxes = [] ∧ (getDepthMap s').canvas.empty = false ∧
      (getDepthMap s').canvas.cols = s.m_first_color_frame.cols ∧
      (getDepthMap s').canvas.rows = s.m_first_color_frame.rows := by
  have hacc : Accepts s params := by
    refine ⟨hl, by rw [hpts]; simp, f0, hf0, ?_⟩
    intro q hq
    rw [hpts] at hq
    simp only [List.mem_singleton] at hq
    rw [hq]
    exact hin
  obtain ⟨s', hs⟩ := process_total ops s params hwf hts hsw hacc
  obtain ⟨-, hp, -, -, -, -, timg, hall, -⟩ := process_true_fields ops s s' params hs
  obtain ⟨hlen, -⟩ := trackAll_shape ops params _ _ _ timg _ hall
  obtain ⟨hfew, -, -⟩ := process_true_artifacts ops s s' params hs
  obtain ⟨hpar, hdm⟩ := hfew (by rw [hlen, hpts]; simp)
  have hmem : f0 ∈ s.m_frames_gray := List.mem_of_mem_head? hf0
  obtain ⟨hc, hr⟩ := hwf.first_size f0 hmem
  obtain ⟨h0x, h0y, hx, hy⟩ := hin
  refine ⟨s', hs, hp, hpar, ?_, ?_, ?_⟩
  · show (s'.m_depth_map).canvas.empty = false
    rw [hdm]
    unfold Mat.empty
    simp only [Bool.or_eq_false_iff, beq_eq_false_iff_ne, ne_eq]
    constructor
    · omega
    · omega
  · show (s'.m_depth_map).canvas.cols = _
    rw [hdm]
  · show (s'.m_depth_map).canvas.rows = _
    rw [hdm]

/-- Witness for C6: the sample session with its single template. -/
theorem process_single_template_witness :
    ∃ s', process exactOps dotSession dotParams = some (true, s') ∧ isProcessed s' = true ∧
      s'.m_parallaxes = [] ∧ (getDepthMap s').canvas.empty = false ∧
      (getDepthMap s').canvas.cols = dotSession.m_first_color_frame.cols ∧
      (getDepthMap s').canvas.rows = dotSession.m_first_color_frame.rows :=
  process_single_template exactOps dotSession dotParams dotSession_wellFormed rfl
    (by decide) (by decide) ⟨1, 1⟩ rfl (dotGray 2 2) rfl (by decide)

/-- Counterexample to C6 as stated: the single template at `(5, 5)` with
`template_size = 0` satisfies the in-bounds inequalities for the `6 × 6` frame 0 of the
loaded sample session, and `process` returns `false`. -/
theorem process_single_template_zero_size :
    dotSession.m_video_loaded = true ∧
      dotSession.m_frames_gray.head? = some (dotGray 2 2) ∧
      dotParamsZero.template_points = [⟨5, 5⟩] ∧
      InBounds dotParamsZero.template_size (dotGray 2 2) ⟨5, 5⟩ ∧
      ∃ s', process exactOps dotSession dotParamsZero = some (false, s') := by
  exact ⟨rfl, rfl, rfl, by decide, ⟨_,
    process_outside exactOps dotSession dotParamsZero (dotGray 2 2) [dotGray 3 2] rfl
      (by simp [dotParamsZero]) rfl ⟨⟨5, 5⟩, by simp [dotParamsZero], by decide⟩⟩⟩

end Single

/-! ## The synthetic image -/

section Mean

variable {F : Type} [LinearOrderedField F]

end Mean

/-! ## Depth colours -/

section Colours

variable {F : Type} [LinearOrderedField F]

theorem FLT_MIN_lt_one : (FLT_MIN : F) < 1 := by
  unfold FLT_MIN
  rw [div_lt_one (by positivity)]
  exact one_lt_pow₀ (by norm_num) (by norm_num)

theorem FLT_MIN_pos : (0 : F) < FLT_MIN := by
  unfold FLT_MIN
  positivity

theorem FLT_MIN_le_rangeEps : (FLT_MIN : F) ≤ rangeEps := by
  unfold FLT_MIN rangeEps
  apply one_div_le_one_div_of_le (by norm_num)
  norm_num

theorem small_lt_FLT_MAX : (46341 : F) < FLT_MAX := by
  unfold FLT_MAX
  norm_num

/-- The norm of a small whole-number displacement: not negative, below 46341, with a
whole-number square. -/
theorem euclidean_small (ops : CvOps F) (p : Point) (he : EuclideanAt ops p)
    (hs : SmallShift p) :
    0 ≤ ops.norm p ∧ ops.norm p < 46341 ∧
      ∃ a : Int, 0 ≤ a ∧ ops.norm p ^ 2 = (a : F) := by
  obtain ⟨h0, hsq⟩ := he
  obtain ⟨hx, hy⟩ := hs
  have hx2 : p.x ^ 2 ≤ 32767 ^ 2 := by
    have : p.x.natAbs ^ 2 ≤ 32767 ^ 2 := Nat.pow_le_pow_left hx 2
    have h2 : ((p.x.natAbs ^ 2 : Nat) : Int) ≤ ((32767 ^ 2 : Nat) : Int) := by exact_mod_cast this
    simpa [Int.natAbs_sq] using h2
  have hy2 : p.y ^ 2 ≤ 32767 ^ 2 := by
    have : p.y.natAbs ^ 2 ≤ 32767 ^ 2 := Nat.pow_le_pow_left hy 2
    have h2 : ((p.y.natAbs ^ 2 : Nat) : Int) ≤ ((32767 ^ 2 : Nat) : Int) := by exact_mod_cast this
    simpa [Int.natAbs_sq] using h2
  have ha : p.x ^ 2 + p.y ^ 2 ≤ 2147352578 := by
    have : (32767 : Int) ^ 2 = 1073676289 := by norm_num
    omega
  have ha0 : 0 ≤ p.x ^ 2 + p.y ^ 2 := by positivity
  refine ⟨h0, ?_, p.x ^ 2 + p.y ^ 2, ha0, hsq⟩
  by_contra hcon
  have hge : (46341 : F) ≤ ops.norm p := not_lt.mp hcon
  have h1 : (46341 : F) ^ 2 ≤ ops.norm p ^ 2 := pow_le_pow_left₀ (by norm_num) hge 2
  rw [hsq] at h1
  have h2 : ((p.x ^ 2 + p.y ^ 2 : Int) : F) ≤ ((2147352578 : Int) : F) := by
    exact_mod_cast ha
  have h3 : ((2147352578 : Int) : F) < (46341 : F) ^ 2 := by norm_num
  linarith

/-- Two different norms of small whole-number displacements are more than the
threshold `1e-5` apart. -/
theorem root_gap (P Q : F) (a b : Int) (hQ : 0 ≤ Q) (hP46 : P < 46341)
    (hPa : P ^ 2 = (a : F)) (hQb : Q ^ 2 = (b : F)) (hlt : Q < P) :
    rangeEps < P - Q := by
  have hP : 0 ≤ P := le_trans hQ (le_of_lt hlt)
  have hsq : Q ^ 2 < P ^ 2 := pow_lt_pow_left₀ hlt hQ (by norm_num)
  rw [hPa, hQb] at hsq
  have hab : b < a := by exact_mod_cast hsq
  have hab1 : (b : F) + 1 ≤ (a : F) := by exact_mod_cast (Int.add_one_le_iff.mpr hab)
  have hprod : 1 ≤ (P - Q) * (P + Q) := by
    have : (P - Q) * (P + Q) = P ^ 2 - Q ^ 2 := by ring
    rw [this, hPa, hQb]
    linarith
  have hsum : P + Q ≤ 92682 := by linarith
  have hpos : 0 ≤ P - Q := by linarith
  have hmul : (P - Q) * (P + Q) ≤ (P - Q) * 92682 := mul_le_mul_of_nonneg_left hsum hpos
  unfold rangeEps
  linarith

theorem depthColor_one : depthColor (1 : F) = nearColor := by
  unfold depthColor nearColor
  simp

theorem depthColor_zero : depthColor (0 : F) = farColor := by
  unfold depthColor farColor
  simp

theorem exists_ne_of_nodup (l : List F) (hl : 2 ≤ l.length) (hn : l.Nodup) (p : F) :
    ∃ q ∈ l, q ≠ p := by
  match l, hl, hn with
  | a :: b :: rest, _, hn =>
    have hab : a ≠ b := by
      intro hab
      rw [List.nodup_cons] at hn
      exact hn.1 (by rw [hab]; exact List.mem_cons_self b rest)
    by_cases hpa : p = a
    · exact ⟨b, by simp, by rw [hpa]; exact fun h => hab h.symm⟩
    · exact ⟨a, by simp, fun h => hpa h.symm⟩

/-- C7. At least two tracked templates (displacement sequences not empty, last
displacements of fewer than `2 ^ 15` pixels, `norm` the Euclidean length) with pairwise
different parallax values: the disc of a template whose parallax is the maximum is
painted with the near endpoint `(0, 0, 255)`, the disc of a template whose parallax is
the minimum with the far endpoint `(255, 0, 0)`. -/
theorem depth_endpoint_colors (ops : CvOps F) (s t : SyntheticAperture F)
    (h : createDepthMap ops s = some t)
    (hlen : 2 ≤ s.m_multi_template_shifts.length)
    (htracked : ∀ sh ∈ s.m_multi_template_shifts,
      ∃ last, sh.getLast? = some last ∧ SmallShift last ∧ EuclideanAt ops last)
    (hdistinct : t.m_parallaxes.Nodup)
    (i : Nat) (p : F) (hp : t.m_parallaxes[i]? = some p) :
    t.m_parallaxes = s.m_multi_template_shifts.map (parallaxOf ops) ∧
    ∃ pt, s.m_params.template_points[i]? = some pt ∧
      ((∀ q ∈ t.m_parallaxes, q ≤ p) →
        t.m_depth_map.ops[i]? = some (discAt s.m_params pt nearColor)) ∧
      ((∀ q ∈ t.m_parallaxes, p ≤ q) →
        t.m_depth_map.ops[i]? = some (discAt s.m_params pt farColor)) := by
  have hne : ∀ sh ∈ s.m_multi_template_shifts, sh ≠ [] := by
    intro sh hsh hnil
    obtain ⟨last, hl, -⟩ := htracked sh hsh
    rw [hnil] at hl
    simp at hl
  obtain ⟨hpar, -, hdiscs⟩ := createDepthMap_many ops s t hlen h
  rw [parallaxScan_eq ops _ hne] at hpar hdiscs
  dsimp only at hpar hdiscs
  have hroot : ∀ q ∈ t.m_parallaxes,
      0 ≤ q ∧ q < 46341 ∧ ∃ a : Int, 0 ≤ a ∧ q ^ 2 = (a : F) := by
    intro q hq
    rw [hpar] at hq
    obtain ⟨sh, hsh, rfl⟩ := List.mem_map.mp hq
    obtain ⟨last, hl, hsmall, heu⟩ := htracked sh hsh
    have : parallaxOf ops sh = ops.norm last := by
      unfold parallaxOf
      rw [hl]
    rw [this]
    exact euclidean_small ops last heu hsmall
  have hpmem : p ∈ t.m_parallaxes := List.getElem?_mem hp
  have hmin := foldl_min_le t.m_parallaxes (FLT_MAX : F)
  have hminmem := foldl_min_mem t.m_parallaxes (FLT_MAX : F)
  have hmax := le_foldl_max t.m_parallaxes (FLT_MIN : F)
  have hmaxmem := foldl_max_mem t.m_parallaxes (FLT_MIN : F)
  rw [← hpar] at hdiscs
  obtain ⟨pt, hpt, hdisc⟩ := paintDiscs_getElem s.m_params _ _ _ _ _ hdiscs i p hp
  have hmn_mem : List.foldl min FLT_MAX t.m_parallaxes ∈ t.m_parallaxes := by
    rcases hminmem with he | hm
    · exfalso
      have h1 := hmin.2 p hpmem
      rw [he] at h1
      have h2 := (hroot p hpmem).2.1
      have h3 := small_lt_FLT_MAX (F := F)
      linarith
    · exact hm
  refine ⟨hpar, pt, hpt, fun hbig => ?_, fun hsmall => ?_⟩
  · obtain ⟨q0, hq0, hq0ne⟩ := exists_ne_of_nodup t.m_parallaxes
      (by rw [hpar, List.length_map]; exact hlen) hdistinct p
    have hq0lt : q0 < p := lt_of_le_of_ne (hbig q0 hq0) hq0ne
    obtain ⟨hp0, hp46, a, -, hpa⟩ := hroot p hpmem
    have hp1 : 1 ≤ p := by
      obtain ⟨hq00, -, b, hb0, hqb⟩ := hroot q0 hq0
      have hsq : q0 ^ 2 < p ^ 2 := pow_lt_pow_left₀ hq0lt hq00 (by norm_num)
      rw [hpa, hqb] at hsq
      have hab : b < a := by exact_mod_cast hsq
      have ha1 : (1 : F) ≤ (a : F) := by exact_mod_cast (by omega : (1 : Int) ≤ a)
      rw [← hpa] at ha1
      by_contra hcon
      have hlt1 : p < 1 := not_le.mp hcon
      have : p ^ 2 < 1 := by nlinarith
      linarith
    have hmx : List.foldl max FLT_MIN t.m_parallaxes = p := by
      apply le_antisymm
      · rcases hmaxmem with he | hm
        · rw [he]
          exact le_trans (le_of_lt FLT_MIN_lt_one) hp1
        · exact hbig _ hm
      · exact hmax.2 p hpmem
    obtain ⟨hm0, -, b, -, hmb⟩ := hroot _ hmn_mem
    have hmnlt : List.foldl min FLT_MAX t.m_parallaxes < p :=
      lt_of_le_of_lt (hmin.2 q0 hq0) hq0lt
    have hgap := root_gap p _ a b hm0 hp46 hpa hmb hmnlt
    rw [hmx] at hdisc
    have hnorm : normalizedDepth (List.foldl min FLT_MAX t.m_parallaxes)
        (p - List.foldl min FLT_MAX t.m_parallaxes) p = 1 := by
      unfold normalizedDepth
      rw [if_pos hgap]
      exact div_self (by linarith [show (0 : F) < rangeEps from by unfold rangeEps; positivity])
    rw [hnorm, depthColor_one] at hdisc
    exact hdisc
  · have hmn : List.foldl min FLT_MAX t.m_parallaxes = p :=
      le_antisymm (hmin.2 p hpmem) (hsmall _ hmn_mem)
    have hnorm : normalizedDepth (List.foldl min FLT_MAX t.m_parallaxes)
        (List.foldl max FLT_MIN t.m_parallaxes - List.foldl min FLT_MAX t.m_parallaxes) p
        = 0 := by
      unfold normalizedDepth
      rw [hmn]
      split_ifs
      · simp
      · rfl
    rw [hnorm, depthColor_zero] at hdisc
    exact hdisc

/-- C8. At least two tracked templates whose last displacements are one and the same
`d` (with `norm d` not negative and at most `FLT_MAX`): all parallax values equal
`norm d`, every normalised depth value is 0, and every disc is painted with the far
endpoint `(255, 0, 0)`. -/
theorem depth_identical_motion (ops : CvOps F) (s t : SyntheticAperture F)
    (h : createDepthMap ops s = some t)
    (hlen : 2 ≤ s.m_multi_template_shifts.length) (d : Point)
    (hsame : ∀ sh ∈ s.m_multi_template_shifts, sh.getLast? = some d)
    (hv : 0 ≤ ops.norm d ∧ ops.norm d ≤ FLT_MAX) :
    t.m_parallaxes.length = s.m_multi_template_shifts.length ∧
    (∀ p ∈ t.m_parallaxes, p = ops.norm d) ∧
    ∀ (i : Nat) (p : F), t.m_parallaxes[i]? = some p →
      normalizedDepth (parallaxScan ops s.m_multi_template_shifts).2.1
        ((parallaxScan ops s.m_multi_template_shifts).2.2
          - (parallaxScan ops s.m_multi_template_shifts).2.1) p = 0 ∧
      ∃ pt, s.m_params.template_points[i]? = some pt ∧
        t.m_depth_map.ops[i]? = some (discAt s.m_params pt farColor) := by
  have hne : ∀ sh ∈ s.m_multi_template_shifts, sh ≠ [] := by
    intro sh hsh hnil
    have hl := hsame sh hsh
    rw [hnil] at hl
    simp at hl
  obtain ⟨hpar, -, hdiscs⟩ := createDepthMap_many ops s t hlen h
  rw [parallaxScan_eq ops _ hne] at hpar hdiscs ⊢
  dsimp only at hpar hdiscs ⊢
  have hall : ∀ p ∈ t.m_parallaxes, p = ops.norm d := by
    intro p hp
    rw [hpar] at hp
    obtain ⟨sh, hsh, rfl⟩ := List.mem_map.mp hp
    unfold parallaxOf
    rw [hsame sh hsh]
  rw [← hpar] at hdiscs ⊢
  have hmin := foldl_min_le t.m_parallaxes (FLT_MAX : F)
  have hminmem := foldl_min_mem t.m_parallaxes (FLT_MAX : F)
  have hmax := le_foldl_max t.m_parallaxes (FLT_MIN : F)
  have hmaxmem := foldl_max_mem t.m_parallaxes (FLT_MIN : F)
  have hrange : ¬ (List.foldl max FLT_MIN t.m_parallaxes
      - List.foldl min FLT_MAX t.m_parallaxes > rangeEps) := by
    have hlo : ops.norm d ≤ List.foldl min FLT_MAX t.m_parallaxes := by
      rcases hminmem with he | hm
      · rw [he]; exact hv.2
      · rw [hall _ hm]
    have hhi : List.foldl max FLT_MIN t.m_parallaxes ≤ max FLT_MIN (ops.norm d) := by
      rcases hmaxmem with he | hm
      · rw [he]; exact le_max_left _ _
      · rw [hall _ hm]; exact le_max_right _ _
    have heps := FLT_MIN_le_rangeEps (F := F)
    have hpos := FLT_MIN_pos (F := F)
    rcases max_choice (FLT_MIN : F) (ops.norm d) with hm | hm
    · rw [hm] at hhi
      linarith [hv.1]
    · rw [hm] at hhi
      linarith
  refine ⟨by rw [hpar, List.length_map], hall, fun i p hp => ?_⟩
  have hnorm : normalizedDepth (List.foldl min FLT_MAX t.m_parallaxes)
      (List.foldl max FLT_MIN t.m_parallaxes - List.foldl min FLT_MAX t.m_parallaxes) p
      = 0 := by
    unfold normalizedDepth
    rw [if_neg hrange]
  obtain ⟨pt, hpt, hdisc⟩ := paintDiscs_getElem s.m_params _ _ _ _ _ hdiscs i p hp
  rw [hnorm, depthColor_zero] at hdisc
  exact ⟨hnorm, pt, hpt, hdisc⟩

theorem exactOps_norm_sq (x y : Int) (n : Nat) (h : x.natAbs ^ 2 + y.natAbs ^ 2 = n * n) :
    exactOps.norm ⟨x, y⟩ = (n : ℚ) := by
  show ((Nat.sqrt (x.natAbs ^ 2 + y.natAbs ^ 2) : Nat) : ℚ) = n
  rw [h, Nat.sqrt_eq]

theorem exactOps_euclidean (x y : Int) (n : Nat) (h : x.natAbs ^ 2 + y.natAbs ^ 2 = n * n) :
    EuclideanAt exactOps ⟨x, y⟩ := by
  unfold EuclideanAt
  rw [exactOps_norm_sq x y n h]
  refine ⟨by positivity, ?_⟩
  have h2 : ((x.natAbs ^ 2 + y.natAbs ^ 2 : Nat) : Int) = ((n * n : Nat) : Int) := by
    rw [h]
  push_cast at h2
  simp only [sq_abs] at h2
  dsimp only
  rw [h2]
  push_cast
  ring

theorem dotSpread_tracked :
    ∀ sh ∈ dotSpread.m_multi_template_shifts,
      ∃ last, sh.getLast? = some last ∧ SmallShift last ∧ EuclideanAt exactOps last := by
  intro sh hsh
  have hs : dotSpread.m_multi_template_shifts
      = [[⟨0, 0⟩, ⟨3, 4⟩], [⟨0, 0⟩, ⟨0, 0⟩], [⟨0, 0⟩, ⟨0, 3⟩]] := rfl
  rw [hs] at hsh
  simp only [List.mem_cons, List.mem_singleton, List.not_mem_nil, or_false] at hsh
  rcases hsh with rfl | rfl | rfl
  · exact ⟨⟨3, 4⟩, rfl, by decide, exactOps_euclidean 3 4 5 (by decide)⟩
  · exact ⟨⟨0, 0⟩, rfl, by decide, exactOps_euclidean 0 0 0 (by decide)⟩
  · exact ⟨⟨0, 3⟩, rfl, by decide, exactOps_euclidean 0 3 3 (by decide)⟩

theorem dotSpread_depth :
    ∃ t, createDepthMap exactOps dotSpread = some t ∧ t.m_parallaxes = [5, 0, 3] := by
  obtain ⟨t, ht⟩ := createDepthMap_total exactOps dotSpread (by decide)
  obtain ⟨hp, -, -⟩ := createDepthMap_many exactOps dotSpread t (by decide) ht
  refine ⟨t, ht, ?_⟩
  rw [hp]
  have hs : dotSpread.m_multi_template_shifts
      = [[⟨0, 0⟩, ⟨3, 4⟩], [⟨0, 0⟩, ⟨0, 0⟩], [⟨0, 0⟩, ⟨0, 3⟩]] := rfl
  rw [hs]
  simp only [parallaxScan, parallaxStep, List.foldl_cons, List.foldl_nil,
    List.getLast?_cons_cons, List.getLast?_singleton, List.nil_append, List.cons_append]
  rw [exactOps_norm_sq 3 4 5 (by decide), exactOps_norm_sq 0 0 0 (by decide),
    exactOps_norm_sq 0 3 3 (by decide)]
  norm_num

/-- Witness for C7: three templates with parallax values 5, 0 and 3; the first is
painted near, the second far. -/
theorem depth_endpoint_colors_witness :
    ∃ t, createDepthMap exactOps dotSpread = some t ∧ t.m_parallaxes = [5, 0, 3] ∧
      t.m_depth_map.ops[0]? = some (discAt dotSpread.m_params ⟨1, 1⟩ nearColor) ∧
      t.m_depth_map.ops[1]? = some (discAt dotSpread.m_params ⟨3, 3⟩ farColor) := by
  obtain ⟨t, ht, hp⟩ := dotSpread_depth
  have hnd : t.m_parallaxes.Nodup := by rw [hp]; simp
  obtain ⟨-, pt0, hpt0, hnear, -⟩ := depth_endpoint_colors exactOps dotSpread t ht
    (by decide) dotSpread_tracked hnd 0 5 (by rw [hp]; rfl)
  obtain ⟨-, pt1, hpt1, -, hfar⟩ := depth_endpoint_colors exactOps dotSpread t ht
    (by decide) dotSpread_tracked hnd 1 0 (by rw [hp]; rfl)
  have e0 : dotSpread.m_params.template_points[0]? = some ⟨1, 1⟩ := rfl
  have e1 : dotSpread.m_params.template_points[1]? = some ⟨3, 3⟩ := rfl
  rw [e0] at hpt0
  rw [e1] at hpt1
  simp only [Option.some.injEq] at hpt0 hpt1
  subst hpt0 hpt1
  refine ⟨t, ht, hp, hnear ?_, hfar ?_⟩
  · intro q hq
    rw [hp] at hq
    simp only [List.mem_cons, List.mem_singleton, List.not_mem_nil, or_false] at hq
    rcases hq with rfl | rfl | rfl <;> norm_num
  · intro q hq
    rw [hp] at hq
    simp only [List.mem_cons, List.mem_singleton, List.not_mem_nil, or_false] at hq
    rcases hq with rfl | rfl | rfl <;> norm_num

/-- Witness for C8: two templates whose displacement sequences both end in `(3, 4)`. -/
theorem depth_identical_motion_witness :
    ∃ t, createDepthMap exactOps dotEqual = some t ∧
      t.m_parallaxes.length = 2 ∧
      (∀ p ∈ t.m_parallaxes, p = exactOps.norm ⟨3, 4⟩) ∧
      ∀ (i : Nat) (p : ℚ), t.m_parallaxes[i]? = some p →
        normalizedDepth (parallaxScan exactOps dotEqual.m_multi_template_shifts).2.1
          ((parallaxScan exactOps dotEqual.m_multi_template_shifts).2.2
            - (parallaxScan exactOps dotEqual.m_multi_template_shifts).2.1) p = 0 ∧
        ∃ pt, dotEqual.m_params.template_points[i]? = some pt ∧
          t.m_depth_map.ops[i]? = some (discAt dotEqual.m_params pt farColor) := by
  obtain ⟨t, ht⟩ := createDepthMap_total exactOps dotEqual (by decide)
  refine ⟨t, ht, depth_identical_motion exactOps dotEqual t ht (by decide) ⟨3, 4⟩ ?_ ?_⟩
  · intro sh hsh
    have hs : dotEqual.m_multi_template_shifts
        = [[⟨0, 0⟩, ⟨3, 4⟩], [⟨0, 0⟩, ⟨3, 4⟩]] := rfl
    rw [hs] at hsh
    simp only [List.mem_cons, List.mem_singleton, List.not_mem_nil, or_false] at hsh
    rcases hsh with rfl | rfl <;> rfl
  · rw [exactOps_norm_sq 3 4 5 (by decide)]
    refine ⟨by norm_num, ?_⟩
    have := small_lt_FLT_MAX (F := ℚ)
    push_cast
    linarith

end Colours

/-! ## Loading -/

section Loading

variable {F : Type} [LinearOrderedField F]

/-- C11. `loadVideo` returns `false` exactly when the source cannot be opened or no
frame was decoded, the latter being the case exactly when `max_frames ≤ 0` or the
stream delivers no frame.  After a failed call the loaded flag is `false` and both
frame lists are empty; after a successful call the loaded flag is `true` and the number
of stored frames, grey and colour, is the smaller of `max_frames` and the number of
frames the stream delivers. -/
theorem loadVideo_result (src : VideoSource) (video_path : String)
    (s : SyntheticAperture F) (params : SA_Parameters) :
    ((loadVideo src video_path s params).1 = false ↔
      src = none ∨ ∃ stream, src = some stream ∧ (params.max_frames ≤ 0 ∨ stream = [])) ∧
    ((loadVideo src video_path s params).1 = false →
      isVideoLoaded (loadVideo src video_path s params).2 = false ∧
      (loadVideo src video_path s params).2.m_frames_gray = [] ∧
      (loadVideo src video_path s params).2.m_frames_color = []) ∧
    ((loadVideo src video_path s params).1 = true →
      isVideoLoaded (loadVideo src video_path s params).2 = true ∧
      ∃ stream, src = some stream ∧
        ((loadVideo src video_path s params).2.m_frames_gray.length : Int)
          = min params.max_frames stream.length ∧
        ((loadVideo src video_path s params).2.m_frames_color.length : Int)
          = min params.max_frames stream.length) := by
  cases src with
  | none =>
    refine ⟨⟨fun _ => Or.inl rfl, fun _ => rfl⟩, fun _ => ⟨rfl, rfl, rfl⟩, fun h => ?_⟩
    exact absurd h (by simp [loadVideo])
  | some stream =>
    cases ht : List.take params.max_frames.toNat stream with
    | nil =>
      have hres : (loadVideo (some stream) video_path s params).1 = false := by
        unfold loadVideo
        simp only
        rw [ht]
      have hzero : params.max_frames ≤ 0 ∨ stream = [] := by
        rcases List.take_eq_nil_iff.mp ht with h0 | h0
        · left; omega
        · right; exact h0
      refine ⟨⟨fun _ => Or.inr ⟨stream, rfl, hzero⟩, fun _ => hres⟩, fun _ => ?_, fun h => ?_⟩
      · unfold loadVideo isVideoLoaded
        simp only
        rw [ht]
        exact ⟨rfl, rfl, rfl⟩
      · rw [hres] at h
        exact absurd h (by decide)
    | cons a l =>
      have hres : (loadVideo (some stream) video_path s params).1 = true := by
        unfold loadVideo
        simp only
        rw [ht]
      have hpos : ¬ (params.max_frames ≤ 0 ∨ stream = []) := by
        intro h0
        have : List.take params.max_frames.toNat stream = [] := by
          apply List.take_eq_nil_iff.mpr
          rcases h0 with h0 | h0
          · left; omega
          · right; exact h0
        rw [ht] at this
        simp at this
      have hlen : ((a :: l).length : Int) = min params.max_frames stream.length := by
        rw [← ht, List.length_take]
        have : 0 < params.max_frames := by
          by_contra hc
          exact hpos (Or.inl (by omega))
        omega
      refine ⟨⟨fun h => ?_, fun h => ?_⟩, fun h => ?_, fun _ => ?_⟩
      · rw [hres] at h
        exact absurd h (by decide)
      · rcases h with h | ⟨st, hst, h⟩
        · simp at h
        · simp only [Option.some.injEq] at hst
          subst hst
          exact absurd h hpos
      · rw [hres] at h
        exact absurd h (by decide)
      · unfold loadVideo isVideoLoaded
        simp only
        rw [ht]
        refine ⟨rfl, stream, rfl, ?_, ?_⟩
        · show (((a :: l).map Prod.snd).length : Int) = _
          rw [List.length_map]
          exact hlen
        · show (((a :: l).map Prod.fst).length : Int) = _
          rw [List.length_map]
          exact hlen

/-- The reference patch left behind by the outer tracking loop is the one of the last
template. -/
theorem trackAll_template_image (ops : CvOps F) (params : SA_Parameters)
    (frames : List (Mat Nat)) (pts : List Point) (t0 timg : Mat Nat)
    (shs : List (List Point)) (hne : pts ≠ [])
    (h : trackAll ops params frames pts t0 = some (timg, shs)) :
    ∃ sh, trackTemplate ops params frames (pts.getLast hne) = some (timg, sh) := by
  induction pts generalizing t0 shs with
  | nil => exact absurd rfl hne
  | cons pt pts ih =>
    unfold trackAll at h
    cases ht : trackTemplate ops params frames pt with
    | none => rw [ht] at h; simp at h
    | some r =>
      obtain ⟨templ, sh⟩ := r
      rw [ht] at h
      simp only at h
      cases ha : trackAll ops params frames pts templ with
      | none => rw [ha] at h; simp at h
      | some r2 =>
        obtain ⟨timg2, shs2⟩ := r2
        rw [ha] at h
        simp only [Option.some.injEq, Prod.mk.injEq] at h
        obtain ⟨h1, -⟩ := h
        subst h1
        cases pts with
        | nil =>
          unfold trackAll at ha
          simp only [Option.some.injEq, Prod.mk.injEq] at ha
          rw [← ha.1]
          exact ⟨sh, ht⟩
        | cons q qs =>
          obtain ⟨sh2, hsh2⟩ := ih templ shs2 (by simp) ha
          exact ⟨sh2, by rw [List.getLast_cons (by simp)]; exact hsh2⟩

/-- After a successful `process` the template patch image is the patch of frame 0 at
the last template of the list. -/
theorem process_template_image (ops : CvOps F) (s s' : SyntheticAperture F)
    (params : SA_Parameters) (h : process ops s params = some (true, s')) :
    ∃ f0 rest, s.m_frames_gray = f0 :: rest ∧ ∃ hne : params.template_points ≠ [],
      s'.m_template_image =
        f0.roi ⟨(params.template_points.getLast hne).x,
          (params.template_points.getLast hne).y,
          params.template_size, params.template_size⟩ := by
  obtain ⟨-, hne, f0, rest, hf, -⟩ := process_true_inv ops s s' params h
  obtain ⟨-, -, -, -, -, -, timg, hall, htimg⟩ := process_true_fields ops s s' params h
  obtain ⟨sh, hsh⟩ := trackAll_template_image ops params _ _ _ timg _ hne hall
  obtain ⟨g0, grest, ds, hg, ht, -⟩ := trackTemplate_some ops params _ _ timg sh hsh
  rw [hf] at hg
  simp only [List.cons.injEq] at hg
  obtain ⟨rfl, rfl⟩ := hg
  exact ⟨f0, rest, hf, hne, by rw [htimg, ht]⟩

/-- What `loadVideo` does to the results of an earlier session, whether it succeeds or
not: the displacement sequences and the parallax list are emptied, the depth map and
the synthetic image are replaced by empty images, the processed flag is reset; the
template patch image is left as it was. -/
theorem loadVideo_artifacts (src : VideoSource) (video_path : String)
    (s : SyntheticAperture F) (params : SA_Parameters) :
    (loadVideo src video_path s params).2.m_multi_template_shifts = [] ∧
      (loadVideo src video_path s params).2.m_parallaxes = [] ∧
      (loadVideo src video_path s params).2.m_depth_map = ⟨Mat.none_, []⟩ ∧
      (loadVideo src video_path s params).2.m_synthetic_image = Mat.none_ ∧
      (loadVideo src video_path s params).2.m_is_processed = false ∧
      (loadVideo src video_path s params).2.m_template_image = s.m_template_image := by
  unfold loadVideo
  cases src with
  | none => exact ⟨rfl, rfl, rfl, rfl, rfl, rfl⟩
  | some stream =>
    simp only
    cases List.take params.max_frames.toNat stream with
    | nil => exact ⟨rfl, rfl, rfl, rfl, rfl, rfl⟩
    | cons a l => exact ⟨rfl, rfl, rfl, rfl, rfl, rfl⟩

/-- C12, the code at a failing input.  The sample session is processed with one
template of size 2 and the sample video is then loaded again, successfully.  The
displacement sequences and the parallax list are empty, the depth map and the synthetic
image are empty images and the processed flag is `false`; the template patch image,
however, is still the `2 × 2` patch of the earlier session and not an empty image. -/
theorem loadVideo_stale_template_image :
    ∃ s1, process exactOps dotSession dotParams = some (true, s1) ∧
      (loadVideo (some dotStream) "dot.mp4" s1 {}).1 = true ∧
      (loadVideo (some dotStream) "dot.mp4" s1 {}).2.m_multi_template_shifts = [] ∧
      (loadVideo (some dotStream) "dot.mp4" s1 {}).2.m_parallaxes = [] ∧
      (getDepthMap (loadVideo (some dotStream) "dot.mp4" s1 {}).2).canvas.empty = true ∧
      (getSyntheticImage (loadVideo (some dotStream) "dot.mp4" s1 {}).2).empty = true ∧
      isProcessed (loadVideo (some dotStream) "dot.mp4" s1 {}).2 = false ∧
      getTemplateImage (loadVideo (some dotStream) "dot.mp4" s1 {}).2
        = (dotGray 2 2).roi ⟨1, 1, 2, 2⟩ ∧
      (getTemplateImage (loadVideo (some dotStream) "dot.mp4" s1 {}).2).empty = false := by
  obtain ⟨s1, hs, -⟩ := dotSession_processed
  obtain ⟨f0, rest, hf, hne, ht⟩ := process_template_image exactOps dotSession s1 dotParams hs
  have hf0 : f0 = dotGray 2 2 := by
    have h2 : dotSession.m_frames_gray = [dotGray 2 2, dotGray 3 2] := rfl
    rw [h2] at hf
    simp only [List.cons.injEq] at hf
    exact hf.1.symm
  have himg : s1.m_template_image = (dotGray 2 2).roi ⟨1, 1, 2, 2⟩ := by
    rw [ht, hf0]
    rfl
  obtain ⟨h1, h2, h3, h4, h5, h6⟩ :=
    loadVideo_artifacts (some dotStream) "dot.mp4" s1 {}
  refine ⟨s1, hs, rfl, h1, h2, ?_, ?_, h5, ?_, ?_⟩
  · show ((loadVideo (some dotStream) "dot.mp4" s1 {}).2.m_depth_map).canvas.empty = true
    rw [h3]
    rfl
  · show ((loadVideo (some dotStream) "dot.mp4" s1 {}).2.m_synthetic_image).empty = true
    rw [h4]
    rfl
  · show (loadVideo (some dotStream) "dot.mp4" s1 {}).2.m_template_image = _
    rw [h6, himg]
  · show ((loadVideo (some dotStream) "dot.mp4" s1 {}).2.m_template_image).empty = false
    rw [h6, himg]
    rfl

end Loading

/-! ## Recomputation -/

section Recompute

variable {F : Type} [LinearOrderedField F]

theorem trackAll_init (ops : CvOps F) (params : SA_Parameters) (frames : List (Mat Nat))
    (pts : List Point) (t0 t1 : Mat Nat) (hne : pts ≠ []) :
    trackAll ops params frames pts t0 = trackAll ops params frames pts t1 := by
  cases pts with
  | nil => exact absurd rfl hne
  | cons pt pts => simp only [trackAll]

/-- The depth step reads the displacement sequences, the parameters and the first-frame
copy only. -/
theorem createDepthMap_congr (ops : CvOps F) (a b a2 : SyntheticAperture F)
    (hsh : b.m_multi_template_shifts = a.m_multi_template_shifts)
    (hp : b.m_params = a.m_params)
    (hfst : b.m_first_color_frame = a.m_first_color_frame)
    (h : createDepthMap ops a = some a2) :
    ∃ b2, createDepthMap ops b = some b2 ∧ b2.m_parallaxes = a2.m_parallaxes ∧
      b2.m_depth_map = a2.m_depth_map := by
  unfold createDepthMap at h ⊢
  simp only at h ⊢
  rw [hsh, hp, hfst]
  split_ifs at h ⊢ with hlt
  · simp only [Option.some.injEq] at h
    subst h
    exact ⟨_, rfl, rfl, rfl⟩
  · split at h
    · simp at h
    · rename_i discs hd
      simp only [Option.some.injEq] at h
      subst h
      exact ⟨_, rfl, rfl, rfl⟩

/-- The synthesis step reads the colour frames and the displacement sequences only. -/
theorem createSyntheticImage_congr (a b a2 : SyntheticAperture F)
    (hsh : b.m_multi_template_shifts = a.m_multi_template_shifts)
    (hc : b.m_frames_color = a.m_frames_color)
    (h : createSyntheticImage a = some a2) :
    ∃ b2, createSyntheticImage b = some b2 ∧
      b2.m_synthetic_image = a2.m_synthetic_image := by
  unfold createSyntheticImage at h ⊢
  rw [hsh, hc]
  split at h
  · simp only [Option.some.injEq] at h
    subst h
    exact ⟨_, rfl, rfl⟩
  · split at h
    · simp at h
    · split at h
      · simp at h
      · rename_i total ht
        simp only [Option.some.injEq] at h
        subst h
        exact ⟨_, rfl, rfl⟩

/-- Two sessions that hold the same frames, the same first-frame copy and the same
loaded flag give, for the same parameters, the same artifacts: whatever else the
sessions hold does not enter a successful `process`. -/
theorem process_congr (ops : CvOps F) (a b a' : SyntheticAperture F)
    (params : SA_Parameters) (hg : b.m_frames_gray = a.m_frames_gray)
    (hc : b.m_frames_color = a.m_frames_color)
    (hfst : b.m_first_color_frame = a.m_first_color_frame)
    (hl : b.m_video_loaded = a.m_video_loaded)
    (h : process ops a params = some (true, a')) :
    ∃ b', process ops b params = some (true, b') ∧
      b'.m_multi_template_shifts = a'.m_multi_template_shifts ∧
      b'.m_parallaxes = a'.m_parallaxes ∧ b'.m_depth_map = a'.m_depth_map ∧
      b'.m_synthetic_image = a'.m_synthetic_image ∧
      b'.m_template_image = a'.m_template_image := by
  obtain ⟨hla, hne, f0, rest, hf, hin, s1, s2, s3, m1, m2, m3, h1, h2, h3, rfl⟩ :=
    process_true_inv ops a a' params h
  obtain ⟨timg, shs, hall, rfl⟩ := calculateMultiTemplateShifts_some ops _ s1 h1
  rw [process_valid ops b params f0 rest (by rw [hl, hla]) hne (by rw [hg, hf]) hin]
  have hallb : trackAll ops params b.m_frames_gray params.template_points
      b.m_template_image = some (timg, shs) := by
    rw [hg, trackAll_init ops params _ _ b.m_template_image a.m_template_image hne]
    exact hall
  have hcalc : calculateMultiTemplateShifts ops (setStatus (beginProcess b params)
      "Processing... Calculating shifts for all templates.") =
      some { setStatus (beginProcess b params)
          "Processing... Calculating shifts for all templates." with
        m_template_image := timg, m_multi_template_shifts := shs } := by
    unfold calculateMultiTemplateShifts
    have : trackAll ops (setStatus (beginProcess b params)
        "Processing... Calculating shifts for all templates.").m_params
        (setStatus (beginProcess b params)
        "Processing... Calculating shifts for all templates.").m_frames_gray
        (setStatus (beginProcess b params)
        "Processing... Calculating shifts for all templates.").m_params.template_points
        (setStatus (beginProcess b params)
        "Processing... Calculating shifts for all templates.").m_template_image
        = some (timg, shs) := hallb
    rw [this]
  rw [hcalc]
  simp only [Option.some_bind]
  have hcg := fun B hsh hp hf => createDepthMap_congr ops _ B s2 hsh hp hf h2
  obtain ⟨b2, hb2, hbp, hbd⟩ := hcg
    (setStatus { setStatus (beginProcess b params)
          "Processing... Calculating shifts for all templates." with
        m_template_image := timg, m_multi_template_shifts := shs }
      "Processing... Creating depth map.") rfl rfl hfst
  rw [hb2]
  simp only [Option.some_bind]
  obtain ⟨⟨a1, a2, a3, a4, a5, a6, a7, a8⟩, -⟩ := createDepthMap_some ops _ s2 h2
  obtain ⟨⟨c1, c2, c3, c4, c5, c6, c7, c8⟩, -⟩ := createDepthMap_some ops _ b2 hb2
  obtain ⟨b3, hb3, hbs⟩ := createSyntheticImage_congr (setStatus s2 m3)
    (setStatus b2 "Processing... Creating synthetic image (using first template).") s3
    (by
      show b2.m_multi_template_shifts = s2.m_multi_template_shifts
      rw [c6, a6]
      rfl)
    (by
      show b2.m_frames_color = s2.m_frames_color
      rw [c3, a3]
      exact hc)
    h3
  rw [hb3]
  obtain ⟨⟨d1, d2, d3, d4, d5, d6, d7, d8⟩, dd, dp⟩ := createSyntheticImage_some _ s3 h3
  obtain ⟨⟨e1, e2, e3, e4, e5, e6, e7, e8⟩, ed, ep⟩ := createSyntheticImage_some _ b3 hb3
  refine ⟨finishProcess b3, rfl, ?_, ?_, ?_, hbs, ?_⟩
  · show b3.m_multi_template_shifts = s3.m_multi_template_shifts
    rw [e6, d6]
    show b2.m_multi_template_shifts = s2.m_multi_template_shifts
    rw [c6, a6]
    rfl
  · show b3.m_parallaxes = s3.m_parallaxes
    rw [ep, dp]
    exact hbp
  · show b3.m_depth_map = s3.m_depth_map
    rw [ed, dd]
    exact hbd
  · show b3.m_template_image = s3.m_template_image
    rw [e5, d5]
    show b2.m_template_image = s2.m_template_image
    rw [c5, a5]
    rfl

theorem dotParamsAlt_accepted : Accepts dotSession dotParamsAlt := by
  refine ⟨rfl, by simp [dotParamsAlt], dotGray 2 2, rfl, ?_⟩
  intro pt hpt
  simp only [dotParamsAlt, List.mem_cons, List.mem_singleton, List.not_mem_nil,
    or_false] at hpt
  rcases hpt with rfl | rfl <;> simp [InBounds, dotParamsAlt, dotGray]

/-- C13. In a well-formed session, two accepted parameter sets `q` and `p` with
`0 < template_size ≤ search_window_size`: `process` with `q`, `process` with `p`, and
`process` with `p` after `process` with `q` all return `true`, and the last leaves the
same displacement sequences, parallax list, depth map and synthetic image as `process`
with `p` alone. -/
theorem process_recomputes (ops : CvOps F) (s : SyntheticAperture F)
    (p q : SA_Parameters) (hwf : WellFormed s)
    (hpts : 0 < p.template_size) (hpsw : p.template_size ≤ p.search_window_size)
    (hqts : 0 < q.template_size) (hqsw : q.template_size ≤ q.search_window_size)
    (hp : Accepts s p) (hq : Accepts s q) :
    ∃ s1 s2 s3, process ops s q = some (true, s1) ∧
      process ops s p = some (true, s2) ∧ process ops s1 p = some (true, s3) ∧
      s3.m_multi_template_shifts = s2.m_multi_template_shifts ∧
      s3.m_parallaxes = s2.m_parallaxes ∧ s3.m_depth_map = s2.m_depth_map ∧
      s3.m_synthetic_image = s2.m_synthetic_image := by
  obtain ⟨s1, h1⟩ := process_total ops s q hwf hqts hqsw hq
  obtain ⟨s2, h2⟩ := process_total ops s p hwf hpts hpsw hp
  obtain ⟨k1, k2, k3, k4⟩ := process_keeps_frames ops s s1 q true h1
  obtain ⟨s3, h3, e1, e2, e3, e4, -⟩ := process_congr ops s s1 s2 p k1 k2 k3 k4 h2
  exact ⟨s1, s2, s3, h1, h2, h3, e1, e2, e3, e4⟩

/-- Witness for C13: the sample session processed with two templates and then with
one. -/
theorem process_recomputes_witness :
    ∃ s1 s2 s3, process exactOps dotSession dotParamsAlt = some (true, s1) ∧
      process exactOps dotSession dotParams = some (true, s2) ∧
      process exactOps s1 dotParams = some (true, s3) ∧
      s3.m_multi_template_shifts = s2.m_multi_template_shifts ∧
      s3.m_parallaxes = s2.m_parallaxes ∧ s3.m_depth_map = s2.m_depth_map ∧
      s3.m_synthetic_image = s2.m_synthetic_image :=
  process_recomputes exactOps dotSession dotParams dotParamsAlt dotSession_wellFormed
    (by decide) (by decide) (by decide) (by decide) dotParams_accepted
    dotParamsAlt_accepted

end Recompute

/-! ## The peak of the response map -/

section Peak

variable {F : Type} [LinearOrderedField F]

/-- The running maximum ends at an element that splits the visited list: everything
before it is strictly smaller, everything after it is not larger. -/
theorem foldl_maxStep_split (m : Mat F) (l : List Point) :
    ∀ p : Point, ∃ pre post, p :: l = pre ++ (l.foldl (maxStep m) p) :: post ∧
      (∀ q ∈ pre, m.px q.x q.y < m.px (l.foldl (maxStep m) p).x (l.foldl (maxStep m) p).y) ∧
      (∀ q ∈ post, m.px q.x q.y ≤ m.px (l.foldl (maxStep m) p).x (l.foldl (maxStep m) p).y) := by
  induction l with
  | nil =>
    intro p
    exact ⟨[], [], rfl, by simp, by simp⟩
  | cons a l ih =>
    intro p
    rw [List.foldl_cons]
    by_cases hlt : m.px p.x p.y < m.px a.x a.y
    · have hstep : maxStep m p a = a := by unfold maxStep; rw [if_pos hlt]
      rw [hstep]
      obtain ⟨pre, post, hsplit, hpre, hpost⟩ := ih a
      generalize l.foldl (maxStep m) a = r at hsplit hpre hpost
      have har : m.px a.x a.y ≤ m.px r.x r.y := by
        have hmem : a ∈ pre ++ r :: post := by rw [← hsplit]; simp
        rcases List.mem_append.mp hmem with h | h
        · exact le_of_lt (hpre a h)
        · rcases List.mem_cons.mp h with h | h
          · rw [h]
          · exact hpost a h
      refine ⟨p :: pre, post, by rw [hsplit]; rfl, ?_, hpost⟩
      intro q hq
      rcases List.mem_cons.mp hq with h | h
      · rw [h]; exact lt_of_lt_of_le hlt har
      · exact hpre q h
    · have hstep : maxStep m p a = p := by unfold maxStep; rw [if_neg hlt]
      rw [hstep]
      obtain ⟨pre, post, hsplit, hpre, hpost⟩ := ih p
      generalize l.foldl (maxStep m) p = r at hsplit hpre hpost
      cases pre with
      | nil =>
        simp only [List.nil_append, List.cons.injEq] at hsplit
        obtain ⟨hpr, hl⟩ := hsplit
        refine ⟨[], a :: post, by rw [← hpr, hl]; rfl, by simp, ?_⟩
        intro q hq
        rcases List.mem_cons.mp hq with h | h
        · rw [h, ← hpr]; exact not_lt.mp hlt
        · exact hpost q h
      | cons c pre =>
        simp only [List.cons_append, List.cons.injEq] at hsplit
        obtain ⟨hpc, hl⟩ := hsplit
        refine ⟨p :: a :: pre, post, by rw [hl]; rfl, ?_, hpost⟩
        intro q hq
        have hpr : m.px p.x p.y < m.px r.x r.y := hpre p (by rw [hpc]; simp)
        rcases List.mem_cons.mp hq with h | h
        · rw [h]; exact hpr
        · rcases List.mem_cons.mp h with h | h
          · rw [h]; exact lt_of_le_of_lt (not_lt.mp hlt) hpr
          · exact hpre q (List.mem_cons_of_mem _ h)

/-- The scan visits the placements in increasing row-major order. -/
theorem scanOrder_pairwise (cols rows : Nat) :
    (scanOrder cols rows).Pairwise ScanBefore := by
  unfold scanOrder
  rw [List.pairwise_flatMap]
  constructor
  · intro j _
    rw [List.pairwise_map]
    refine (List.pairwise_lt_range cols).imp ?_
    intro a b hab
    exact Or.inr ⟨rfl, by dsimp only; exact_mod_cast hab⟩
  · refine (List.pairwise_lt_range rows).imp ?_
    intro a b hab x hx y hy
    obtain ⟨i, -, rfl⟩ := List.mem_map.mp hx
    obtain ⟨k, -, rfl⟩ := List.mem_map.mp hy
    exact Or.inl (by dsimp only; exact_mod_cast hab)

/-- What `minMaxLoc` returns: a position of the map, with a value no other position
exceeds, and ahead in scan order of every other position with the same value. -/
theorem minMaxLoc_spec (m : Mat F) (peak : Point) (h : minMaxLoc m = some peak) :
    peak ∈ scanOrder m.cols m.rows ∧
    (∀ q ∈ scanOrder m.cols m.rows, m.px q.x q.y ≤ m.px peak.x peak.y) ∧
    (∀ q ∈ scanOrder m.cols m.rows, m.px q.x q.y = m.px peak.x peak.y →
      q = peak ∨ ScanBefore peak q) := by
  have hpw := scanOrder_pairwise m.cols m.rows
  unfold minMaxLoc at h
  cases hs : scanOrder m.cols m.rows with
  | nil => rw [hs] at h; simp at h
  | cons p ps =>
    rw [hs] at h hpw
    simp only [Option.some.injEq] at h
    obtain ⟨pre, post, hsplit, hpre, hpost⟩ := foldl_maxStep_split m ps p
    rw [h] at hsplit hpre hpost
    rw [hsplit] at hpw ⊢
    refine ⟨by simp, ?_, ?_⟩
    · intro q hq
      rcases List.mem_append.mp hq with hq | hq
      · exact le_of_lt (hpre q hq)
      · rcases List.mem_cons.mp hq with hq | hq
        · rw [hq]
        · exact hpost q hq
    · intro q hq heq
      rcases List.mem_append.mp hq with hq | hq
      · exact absurd heq (ne_of_lt (hpre q hq))
      · rcases List.mem_cons.mp hq with hq | hq
        · exact Or.inl hq
        · right
          have h2 := (List.pairwise_append.mp hpw).2.1
          exact List.rel_of_pairwise_cons h2 hq

theorem forall₂_imp_mem {α β : Type} {R P : α → β → Prop} {l₁ : List α} {l₂ : List β}
    (h : List.Forall₂ R l₁ l₂) (himp : ∀ a ∈ l₁, ∀ b, R a b → P a b) :
    List.Forall₂ P l₁ l₂ := by
  induction h with
  | nil => exact List.Forall₂.nil
  | cons hab _ ih =>
    exact List.Forall₂.cons (himp _ (List.mem_cons_self _ _) _ hab)
      (ih fun a ha b hb => himp a (List.mem_cons_of_mem _ ha) b hb)

/-- A property of every single search carries over to the whole displacement sequence
of a template, which exists when the template square lies inside frame 0 and all
frames have the size of frame 0. -/
theorem trackTemplate_forall₂ (ops : CvOps F) (params : SA_Parameters) (f0 : Mat Nat)
    (rest : List (Mat Nat)) (pt : Point) (hts : 0 < params.template_size)
    (hsw : params.template_size ≤ params.search_window_size)
    (hin : InBounds params.template_size f0 pt)
    (hsize : ∀ f ∈ rest, f.sameSize f0) (P : Mat Nat → Point → Prop)
    (hP : ∀ f d, InBounds params.template_size f pt →
      trackFrame ops params
        (f0.roi ⟨pt.x, pt.y, params.template_size, params.template_size⟩) pt
        (searchOffset params pt) f = some d → P f d) :
    ∃ ds, trackTemplate ops params (f0 :: rest) pt =
        some (f0.roi ⟨pt.x, pt.y, params.template_size, params.template_size⟩,
          ⟨0, 0⟩ :: ds) ∧
      List.Forall₂ P rest ds := by
  obtain ⟨ds, hds⟩ := trackRest_total ops params
    (f0.roi ⟨pt.x, pt.y, params.template_size, params.template_size⟩) f0 pt rest hts hsw
    hin rfl rfl hsize
  refine ⟨ds, ?_, ?_⟩
  · unfold trackTemplate
    simp only []
    rw [hds]
  · refine forall₂_imp_mem ((trackRest_some_iff ops params _ pt _ rest ds).mp hds) ?_
    intro f hf d hd
    exact hP f d (inBounds_of_sameSize _ f f0 pt (hsize f hf) hin) hd

/-- The position found in one frame, in frame coordinates: it is a placement inside the
clipped search window, no placement has a larger response, and every other placement
with the same response comes later in the scan. -/
theorem trackFrame_peak (ops : CvOps F) (params : SA_Parameters) (f0 frame : Mat Nat)
    (pt d : Point) (hts : 0 < params.template_size)
    (hsw : params.template_size ≤ params.search_window_size)
    (hin : InBounds params.template_size frame pt)
    (h : trackFrame ops params
      (f0.roi ⟨pt.x, pt.y, params.template_size, params.template_size⟩) pt
      (searchOffset params pt) frame = some d) :
    IsCandidate params pt frame ⟨pt.x + d.x, pt.y + d.y⟩ ∧
    ∀ b, IsCandidate params pt frame b →
      responseAt ops params f0 pt frame b ≤
        responseAt ops params f0 pt frame ⟨pt.x + d.x, pt.y + d.y⟩ ∧
      (responseAt ops params f0 pt frame b =
          responseAt ops params f0 pt frame ⟨pt.x + d.x, pt.y + d.y⟩ →
        b = ⟨pt.x + d.x, pt.y + d.y⟩ ∨ ScanBefore ⟨pt.x + d.x, pt.y + d.y⟩ b) := by
  obtain ⟨-, -, -, hx, hy⟩ := searchWindowRoi_contains params frame pt hts hsw hin
  obtain ⟨peak, hpk, htf⟩ := trackFrame_eq ops params
    (f0.roi ⟨pt.x, pt.y, params.template_size, params.template_size⟩) frame pt hts hsw hin
    rfl rfl
  rw [htf] at h
  simp only [Option.some.injEq] at h
  subst h
  unfold IsCandidate responseAt
  generalize searchWindowRoi params (searchOffset params pt) frame = r at hx hy hpk ⊢
  obtain ⟨hmem, hmax, hfirst⟩ := minMaxLoc_spec _ peak hpk
  obtain ⟨i, j, hi, hj, rfl⟩ := (mem_scanOrder _ _ peak).mp hmem
  have hi2 : i < r.width.toNat - params.template_size.toNat + 1 := hi
  have hj2 : j < r.height.toNat - params.template_size.toNat + 1 := hj
  have hpx : pt.x + (r.x + (i : Int) - pt.x) = r.x + (i : Int) := by omega
  have hpy : pt.y + (r.y + (j : Int) - pt.y) = r.y + (j : Int) := by omega
  dsimp only at hmax hfirst ⊢
  rw [hpx, hpy]
  refine ⟨⟨by omega, by omega, by omega, by omega⟩, ?_⟩
  intro b hb
  obtain ⟨b1, b2, b3, b4⟩ := hb
  have hqx : ((b.x - r.x).toNat : Int) = b.x - r.x := Int.toNat_of_nonneg (by omega)
  have hqy : ((b.y - r.y).toNat : Int) = b.y - r.y := Int.toNat_of_nonneg (by omega)
  have hbx : r.x + (b.x - r.x) = b.x := by omega
  have hby : r.y + (b.y - r.y) = b.y := by omega
  have hbm : (⟨b.x - r.x, b.y - r.y⟩ : Point) ∈
      scanOrder (responseMap ops frame r params.template_size.toNat
        (f0.roi ⟨pt.x, pt.y, params.template_size, params.template_size⟩).content).cols
      (responseMap ops frame r params.template_size.toNat
        (f0.roi ⟨pt.x, pt.y, params.template_size, params.template_size⟩).content).rows := by
    apply (mem_scanOrder _ _ _).mpr
    refine ⟨(b.x - r.x).toNat, (b.y - r.y).toNat, ?_, ?_, by rw [hqx, hqy]⟩
    · show _ < r.width.toNat - params.template_size.toNat + 1
      omega
    · show _ < r.height.toNat - params.template_size.toNat + 1
      omega
  have h1 := hmax _ hbm
  have h2 := hfirst _ hbm
  unfold responseMap at h1 h2
  dsimp only at h1 h2
  rw [hbx, hby] at h1 h2
  refine ⟨h1, ?_⟩
  intro heq
  rcases h2 heq with h3 | h3
  · left
    simp only [Point.mk.injEq] at h3
    cases b
    simp only [Point.mk.injEq]
    dsimp only at h3
    omega
  · right
    unfold ScanBefore at h3 ⊢
    dsimp only at h3 ⊢
    omega

/-- A pixel position lies in the intersection of two rectangles exactly when it lies in
both. -/
theorem contains_inter (a b : Rect) (q : Point) :
    (a.inter b).Contains q ↔ a.Contains q ∧ b.Contains q := by
  unfold Rect.inter Rect.Contains
  dsimp only
  split_ifs with h
  · dsimp only
    omega
  · dsimp only
    omega

/-- One search written out: the response map of the clipped window, its peak, and the
displacement formed from the window corner, the peak and the template origin. -/
theorem trackFrame_steps (ops : CvOps F) (params : SA_Parameters) (templ frame : Mat Nat)
    (pt d : Point) (hts : 0 < params.template_size)
    (hsw : params.template_size ≤ params.search_window_size)
    (hin : InBounds params.template_size frame pt)
    (hc : templ.cols = params.template_size.toNat)
    (hr : templ.rows = params.template_size.toNat)
    (h : trackFrame ops params templ pt (searchOffset params pt) frame = some d) :
    ∃ corr peak,
      matchTemplate ops (frame.roi (searchWindowRoi params (searchOffset params pt) frame))
        templ = some corr ∧
      minMaxLoc corr = some peak ∧
      d = ⟨(searchWindowRoi params (searchOffset params pt) frame).x + peak.x - pt.x,
        (searchWindowRoi params (searchOffset params pt) frame).y + peak.y - pt.y⟩ := by
  obtain ⟨-, -, -, hx, hy⟩ := searchWindowRoi_contains params frame pt hts hsw hin
  obtain ⟨peak, hpk, htf⟩ := trackFrame_eq ops params templ frame pt hts hsw hin hc hr
  rw [htf] at h
  simp only [Option.some.injEq] at h
  refine ⟨_, peak, ?_, hpk, h.symm⟩
  apply matchTemplate_roi ops frame templ _ params.template_size.toNat hc hr
  · omega
  · omega

/-- The displacement found in one frame stays within the search margins, and the
matched square lies inside the frame. -/
theorem trackFrame_bounds (ops : CvOps F) (params : SA_Parameters) (f0 frame : Mat Nat)
    (pt d : Point) (hts : 0 < params.template_size)
    (hsw : params.template_size ≤ params.search_window_size)
    (hin : InBounds params.template_size frame pt)
    (h : trackFrame ops params
      (f0.roi ⟨pt.x, pt.y, params.template_size, params.template_size⟩) pt
      (searchOffset params pt) frame = some d) :
    (-searchMargin params ≤ d.x ∧
      d.x ≤ params.search_window_size - params.template_size - searchMargin params) ∧
    (-searchMargin params ≤ d.y ∧
      d.y ≤ params.search_window_size - params.template_size - searchMargin params) ∧
    InBounds params.template_size frame ⟨pt.x + d.x, pt.y + d.y⟩ := by
  obtain ⟨-, ⟨hx0, hy0⟩, ⟨hx1, hy1⟩, -, -⟩ :=
    searchWindowRoi_contains params frame pt hts hsw hin
  obtain ⟨⟨c1, c2, c3, c4⟩, -⟩ := trackFrame_peak ops params f0 frame pt d hts hsw hin h
  unfold InBounds at hin ⊢
  generalize searchWindowRoi params (searchOffset params pt) frame = r at *
  dsimp only at c1 c2 c3 c4 ⊢
  omega

end Peak

/-! ## The search of one template -/

section Search2

variable {F : Type} [LinearOrderedField F]

/-- C14. For a template whose square lies inside frame 0, with
`0 < template_size ≤ search_window_size` and all frames of the size of frame 0, the
tracker returns a displacement for every frame `i ≥ 1`, and the position it stands for
(origin plus displacement) is a placement inside the clipped search window whose
response no other placement exceeds; every other placement with the same response
lies in a later row, or in the same row and a later column. -/
theorem tracker_picks_first_maximum (ops : CvOps F) (params : SA_Parameters)
    (f0 : Mat Nat) (rest : List (Mat Nat)) (pt : Point) (hts : 0 < params.template_size)
    (hsw : params.template_size ≤ params.search_window_size)
    (hin : InBounds params.template_size f0 pt) (hsize : ∀ f ∈ rest, f.sameSize f0) :
    ∃ ds, trackTemplate ops params (f0 :: rest) pt =
        some (f0.roi ⟨pt.x, pt.y, params.template_size, params.template_size⟩,
          ⟨0, 0⟩ :: ds) ∧
      List.Forall₂ (fun f d =>
        IsCandidate params pt f ⟨pt.x + d.x, pt.y + d.y⟩ ∧
        ∀ b, IsCandidate params pt f b →
          responseAt ops params f0 pt f b ≤
            responseAt ops params f0 pt f ⟨pt.x + d.x, pt.y + d.y⟩ ∧
          (responseAt ops params f0 pt f b =
              responseAt ops params f0 pt f ⟨pt.x + d.x, pt.y + d.y⟩ →
            b = ⟨pt.x + d.x, pt.y + d.y⟩ ∨ ScanBefore ⟨pt.x + d.x, pt.y + d.y⟩ b))
        rest ds :=
  trackTemplate_forall₂ ops params f0 rest pt hts hsw hin hsize _
    fun f d hf hd => trackFrame_peak ops params f0 f pt d hts hsw hf hd

theorem dotRest_sameSize : ∀ f ∈ [dotGray 3 2], f.sameSize (dotGray 2 2) := by
  intro f hf
  rw [List.mem_singleton] at hf
  subst hf
  exact ⟨rfl, rfl⟩

/-- Witness for C14: the two sample frames and the template at `(1, 1)`. -/
theorem tracker_picks_first_maximum_witness :
    ∃ ds, trackTemplate exactOps dotParams [dotGray 2 2, dotGray 3 2] ⟨1, 1⟩ =
        some ((dotGray 2 2).roi ⟨1, 1, 2, 2⟩, ⟨0, 0⟩ :: ds) ∧
      List.Forall₂ (fun f d =>
        IsCandidate dotParams ⟨1, 1⟩ f ⟨1 + d.x, 1 + d.y⟩ ∧
        ∀ b, IsCandidate dotParams ⟨1, 1⟩ f b →
          responseAt exactOps dotParams (dotGray 2 2) ⟨1, 1⟩ f b ≤
            responseAt exactOps dotParams (dotGray 2 2) ⟨1, 1⟩ f ⟨1 + d.x, 1 + d.y⟩ ∧
          (responseAt exactOps dotParams (dotGray 2 2) ⟨1, 1⟩ f b =
              responseAt exactOps dotParams (dotGray 2 2) ⟨1, 1⟩ f ⟨1 + d.x, 1 + d.y⟩ →
            b = ⟨1 + d.x, 1 + d.y⟩ ∨ ScanBefore ⟨1 + d.x, 1 + d.y⟩ b))
        [dotGray 3 2] ds :=
  tracker_picks_first_maximum exactOps dotParams (dotGray 2 2) [dotGray 3 2] ⟨1, 1⟩
    (by decide) (by decide) (by decide) dotRest_sameSize

/-- C15. Under the same conditions the margin is `(search_window_size - template_size) / 2`,
and for every frame `i ≥ 1` the searched rectangle holds exactly the pixel positions
that lie both in the frame and in the square of side `search_window_size` with corner
`(x - m, y - m)`; the displacement is `(wx + px - x, wy + py - y)` for the corner
`(wx, wy)` of that rectangle and the peak `(px, py)` of the response map computed on
it. -/
theorem search_region_and_displacement (ops : CvOps F) (params : SA_Parameters)
    (f0 : Mat Nat) (rest : List (Mat Nat)) (pt : Point) (hts : 0 < params.template_size)
    (hsw : params.template_size ≤ params.search_window_size)
    (hin : InBounds params.template_size f0 pt) (hsize : ∀ f ∈ rest, f.sameSize f0) :
    searchMargin params = (params.search_window_size - params.template_size) / 2 ∧
    ∃ ds, trackTemplate ops params (f0 :: rest) pt =
        some (f0.roi ⟨pt.x, pt.y, params.template_size, params.template_size⟩,
          ⟨0, 0⟩ :: ds) ∧
      List.Forall₂ (fun f d =>
        (∀ q, (searchWindowRoi params (searchOffset params pt) f).Contains q ↔
          Rect.Contains ⟨pt.x - searchMargin params, pt.y - searchMargin params,
              params.search_window_size, params.search_window_size⟩ q ∧
            Rect.Contains ⟨0, 0, f.cols, f.rows⟩ q) ∧
        ∃ corr peak,
          matchTemplate ops (f.roi (searchWindowRoi params (searchOffset params pt) f))
            (f0.roi ⟨pt.x, pt.y, params.template_size, params.template_size⟩)
            = some corr ∧
          minMaxLoc corr = some peak ∧
          d = ⟨(searchWindowRoi params (searchOffset params pt) f).x + peak.x - pt.x,
            (searchWindowRoi params (searchOffset params pt) f).y + peak.y - pt.y⟩)
        rest ds := by
  refine ⟨?_, trackTemplate_forall₂ ops params f0 rest pt hts hsw hin hsize _ ?_⟩
  · unfold searchMargin
    rw [Int.tdiv_eq_ediv]
    · omega
    · omega
  · intro f d hf hd
    exact ⟨fun q => contains_inter _ _ q,
      trackFrame_steps ops params _ f pt d hts hsw hf rfl rfl hd⟩

/-- Witness for C15: the two sample frames and the template at `(1, 1)`. -/
theorem search_region_and_displacement_witness :
    searchMargin dotParams = (4 - 2) / 2 ∧
    ∃ ds, trackTemplate exactOps dotParams [dotGray 2 2, dotGray 3 2] ⟨1, 1⟩ =
        some ((dotGray 2 2).roi ⟨1, 1, 2, 2⟩, ⟨0, 0⟩ :: ds) ∧
      List.Forall₂ (fun f d =>
        (∀ q, (searchWindowRoi dotParams (searchOffset dotParams ⟨1, 1⟩) f).Contains q ↔
          Rect.Contains ⟨1 - searchMargin dotParams, 1 - searchMargin dotParams, 4, 4⟩ q ∧
            Rect.Contains ⟨0, 0, f.cols, f.rows⟩ q) ∧
        ∃ corr peak,
          matchTemplate exactOps
            (f.roi (searchWindowRoi dotParams (searchOffset dotParams ⟨1, 1⟩) f))
            ((dotGray 2 2).roi ⟨1, 1, 2, 2⟩) = some corr ∧
          minMaxLoc corr = some peak ∧
          d = ⟨(searchWindowRoi dotParams (searchOffset dotParams ⟨1, 1⟩) f).x + peak.x - 1,
            (searchWindowRoi dotParams (searchOffset dotParams ⟨1, 1⟩) f).y + peak.y - 1⟩)
        [dotGray 3 2] ds :=
  search_region_and_displacement exactOps dotParams (dotGray 2 2) [dotGray 3 2] ⟨1, 1⟩
    (by decide) (by decide) (by decide) dotRest_sameSize

/-- C16. For a template whose square lies inside frame 0, with
`0 < template_size ≤ search_window_size`, and a frame of the size of frame 0: the
clipped search window holds every pixel position of the template square at its origin,
its width and height are at least `template_size`, the response map exists and has at
least one column and one row, one of its positions converts to the displacement
`(0, 0)`, and the origin itself is a placement inside the window. -/
theorem search_window_holds_template (ops : CvOps F) (params : SA_Parameters)
    (f0 f : Mat Nat) (pt : Point) (hts : 0 < params.template_size)
    (hsw : params.template_size ≤ params.search_window_size)
    (hin : InBounds params.template_size f0 pt) (hsize : f.sameSize f0) :
    (∀ q, Rect.Contains ⟨pt.x, pt.y, params.template_size, params.template_size⟩ q →
      (searchWindowRoi params (searchOffset params pt) f).Contains q) ∧
    (params.template_size ≤ (searchWindowRoi params (searchOffset params pt) f).width ∧
      params.template_size ≤ (searchWindowRoi params (searchOffset params pt) f).height) ∧
    (∃ corr,
      matchTemplate ops (f.roi (searchWindowRoi params (searchOffset params pt) f))
        (f0.roi ⟨pt.x, pt.y, params.template_size, params.template_size⟩) = some corr ∧
      0 < corr.cols ∧ 0 < corr.rows ∧
      ∃ q ∈ scanOrder corr.cols corr.rows,
        (⟨(searchWindowRoi params (searchOffset params pt) f).x + q.x - pt.x,
          (searchWindowRoi params (searchOffset params pt) f).y + q.y - pt.y⟩ : Point)
          = ⟨0, 0⟩) ∧
    IsCandidate params pt f pt := by
  have hf := inBounds_of_sameSize _ f f0 pt hsize hin
  obtain ⟨-, -, -, hx, hy⟩ := searchWindowRoi_contains params f pt hts hsw hf
  unfold IsCandidate
  rw [matchTemplate_roi ops f _ _ params.template_size.toNat rfl rfl
    (by show params.template_size.toNat ≤ _; omega)
    (by show params.template_size.toNat ≤ _; omega)]
  generalize searchWindowRoi params (searchOffset params pt) f = r at hx hy ⊢
  refine ⟨?_, ⟨by omega, by omega⟩, ⟨_, rfl, Nat.succ_pos _, Nat.succ_pos _, ?_⟩,
    hx.1, hx.2, hy.1, hy.2⟩
  · intro q hq
    unfold Rect.Contains at hq ⊢
    dsimp only at hq
    omega
  · refine ⟨⟨pt.x - r.x, pt.y - r.y⟩, ?_, ?_⟩
    · apply (mem_scanOrder _ _ _).mpr
      refine ⟨(pt.x - r.x).toNat, (pt.y - r.y).toNat, ?_, ?_, ?_⟩
      · show _ < r.width.toNat - params.template_size.toNat + 1
        omega
      · show _ < r.height.toNat - params.template_size.toNat + 1
        omega
      · rw [Int.toNat_of_nonneg (by omega), Int.toNat_of_nonneg (by omega)]
    · simp only [Point.mk.injEq]
      omega

/-- Witness for C16: the second sample frame and the template at `(1, 1)`. -/
theorem search_window_holds_template_witness :
    (∀ q, Rect.Contains ⟨1, 1, 2, 2⟩ q →
      (searchWindowRoi dotParams (searchOffset dotParams ⟨1, 1⟩) (dotGray 3 2)).Contains q) ∧
    ((2 : Int) ≤
        (searchWindowRoi dotParams (searchOffset dotParams ⟨1, 1⟩) (dotGray 3 2)).width ∧
      (2 : Int) ≤
        (searchWindowRoi dotParams (searchOffset dotParams ⟨1, 1⟩) (dotGray 3 2)).height) ∧
    (∃ corr,
      matchTemplate exactOps
        ((dotGray 3 2).roi
          (searchWindowRoi dotParams (searchOffset dotParams ⟨1, 1⟩) (dotGray 3 2)))
        ((dotGray 2 2).roi ⟨1, 1, 2, 2⟩) = some corr ∧
      0 < corr.cols ∧ 0 < corr.rows ∧
      ∃ q ∈ scanOrder corr.cols corr.rows,
        (⟨(searchWindowRoi dotParams (searchOffset dotParams ⟨1, 1⟩) (dotGray 3 2)).x
            + q.x - 1,
          (searchWindowRoi dotParams (searchOffset dotParams ⟨1, 1⟩) (dotGray 3 2)).y
            + q.y - 1⟩ : Point) = ⟨0, 0⟩) ∧
    IsCandidate dotParams ⟨1, 1⟩ (dotGray 3 2) ⟨1, 1⟩ :=
  search_window_holds_template exactOps dotParams (dotGray 2 2) (dotGray 3 2) ⟨1, 1⟩
    (by decide) (by decide) (by decide) (by decide)

/-- C17. For a template whose square lies inside frame 0, with
`0 < template_size ≤ search_window_size`, margin `m` and all frames of the size of
frame 0, the tracker returns a displacement `(sx, sy)` for every frame `i ≥ 1` with
`-m ≤ sx ≤ search_window_size - template_size - m`, the same for `sy`, and the square
of side `template_size` at `(x + sx, y + sy)` inside the frame. -/
theorem displacement_within_margins (ops : CvOps F) (params : SA_Parameters)
    (f0 : Mat Nat) (rest : List (Mat Nat)) (pt : Point) (hts : 0 < params.template_size)
    (hsw : params.template_size ≤ params.search_window_size)
    (hin : InBounds params.template_size f0 pt) (hsize : ∀ f ∈ rest, f.sameSize f0) :
    ∃ ds, trackTemplate ops params (f0 :: rest) pt =
        some (f0.roi ⟨pt.x, pt.y, params.template_size, params.template_size⟩,
          ⟨0, 0⟩ :: ds) ∧
      List.Forall₂ (fun f d =>
        (-searchMargin params ≤ d.x ∧
          d.x ≤ params.search_window_size - params.template_size - searchMargin params) ∧
        (-searchMargin params ≤ d.y ∧
          d.y ≤ params.search_window_size - params.template_size - searchMargin params) ∧
        InBounds params.template_size f ⟨pt.x + d.x, pt.y + d.y⟩) rest ds :=
  trackTemplate_forall₂ ops params f0 rest pt hts hsw hin hsize _
    fun f d hf hd => trackFrame_bounds ops params f0 f pt d hts hsw hf hd

/-- Witness for C17: the two sample frames and the template at `(1, 1)`. -/
theorem displacement_within_margins_witness :
    ∃ ds, trackTemplate exactOps dotParams [dotGray 2 2, dotGray 3 2] ⟨1, 1⟩ =
        some ((dotGray 2 2).roi ⟨1, 1, 2, 2⟩, ⟨0, 0⟩ :: ds) ∧
      List.Forall₂ (fun f d =>
        (-searchMargin dotParams ≤ d.x ∧ d.x ≤ 4 - 2 - searchMargin dotParams) ∧
        (-searchMargin dotParams ≤ d.y ∧ d.y ≤ 4 - 2 - searchMargin dotParams) ∧
        InBounds 2 f ⟨1 + d.x, 1 + d.y⟩) [dotGray 3 2] ds :=
  displacement_within_margins exactOps dotParams (dotGray 2 2) [dotGray 3 2] ⟨1, 1⟩
    (by decide) (by decide) (by decide) dotRest_sameSize

end Search2

/-! ## Order of the normalised depth values -/

section DepthOrder

variable {F : Type} [LinearOrderedField F]

theorem rangeEps_pos : (0 : F) < rangeEps := by
  unfold rangeEps
  positivity

/-- Normalisation never reverses the order of two parallaxes. -/
theorem normalizedDepth_mono (mn rg p q : F) (h : p ≤ q) :
    normalizedDepth mn rg p ≤ normalizedDepth mn rg q := by
  unfold normalizedDepth
  split_ifs with hr
  · have hpos : (0 : F) < rg := lt_trans rangeEps_pos hr
    exact div_le_div_of_nonneg_right (by linarith) (le_of_lt hpos)
  · exact le_refl _

/-- A parallax between the running minimum and the running maximum is normalised to a
value between 0 and 1. -/
theorem normalizedDepth_unit (mn mx p : F) (h1 : mn ≤ p) (h2 : p ≤ mx) :
    0 ≤ normalizedDepth mn (mx - mn) p ∧ normalizedDepth mn (mx - mn) p ≤ 1 := by
  unfold normalizedDepth
  split_ifs with hr
  · have hpos : (0 : F) < mx - mn := lt_trans rangeEps_pos hr
    refine ⟨div_nonneg (by linarith) (le_of_lt hpos), ?_⟩
    rw [div_le_one hpos]
    linarith
  · exact ⟨le_refl _, zero_le_one⟩

theorem depthColor_red (n : F) : depthColor n 2 = 255 * n := by
  unfold depthColor
  simp

theorem depthColor_blue (n : F) : depthColor n 0 = 255 * (1 - n) := by
  unfold depthColor
  simp

/-- C18. For at least two displacement sequences, none of them empty, with a template
point for each: `createDepthMap` returns; the parallax list holds the norm of the last
displacement of every sequence; with `mn` the running minimum started at `FLT_MAX` and
`mx` the running maximum started at `FLT_MIN`, disc `i` is painted in the colour of the
value normalised with `mn` and `mx - mn`; every such value lies between 0 and 1; and
for two parallaxes `p ≤ q` the value and the red component of `p` are at most those of
`q`, the blue component at least. -/
theorem depth_values_ordered (ops : CvOps F) (s : SyntheticAperture F)
    (hlen : 2 ≤ s.m_multi_template_shifts.length)
    (hne : ∀ sh ∈ s.m_multi_template_shifts, sh ≠ [])
    (hpts : s.m_multi_template_shifts.length ≤ s.m_params.template_points.length) :
    ∃ t mn mx, createDepthMap ops s = some t ∧
      t.m_parallaxes = s.m_multi_template_shifts.map (parallaxOf ops) ∧
      mn = t.m_parallaxes.foldl min FLT_MAX ∧ mx = t.m_parallaxes.foldl max FLT_MIN ∧
      (∀ (i : Nat) (p : F), t.m_parallaxes[i]? = some p →
        ∃ pt, s.m_params.template_points[i]? = some pt ∧
          t.m_depth_map.ops[i]? =
            some (discAt s.m_params pt (depthColor (normalizedDepth mn (mx - mn) p)))) ∧
      (∀ p ∈ t.m_parallaxes,
        0 ≤ normalizedDepth mn (mx - mn) p ∧ normalizedDepth mn (mx - mn) p ≤ 1) ∧
      ∀ p ∈ t.m_parallaxes, ∀ q ∈ t.m_parallaxes, p ≤ q →
        normalizedDepth mn (mx - mn) p ≤ normalizedDepth mn (mx - mn) q ∧
        depthColor (normalizedDepth mn (mx - mn) p) 2 ≤
          depthColor (normalizedDepth mn (mx - mn) q) 2 ∧
        depthColor (normalizedDepth mn (mx - mn) q) 0 ≤
          depthColor (normalizedDepth mn (mx - mn) p) 0 := by
  obtain ⟨t, ht⟩ := createDepthMap_total ops s hpts
  obtain ⟨hpar, -, hdiscs⟩ := createDepthMap_many ops s t hlen ht
  rw [parallaxScan_eq ops _ hne] at hpar hdiscs
  dsimp only at hpar hdiscs
  rw [← hpar] at hdiscs
  refine ⟨t, _, _, ht, hpar, rfl, rfl, ?_, ?_, ?_⟩
  · intro i p hp
    exact paintDiscs_getElem _ _ _ _ _ _ hdiscs i p hp
  · intro p hp
    exact normalizedDepth_unit _ _ p ((foldl_min_le _ _).2 p hp) ((le_foldl_max _ _).2 p hp)
  · intro p _ q _ hpq
    have hm := normalizedDepth_mono (t.m_parallaxes.foldl min FLT_MAX)
      (t.m_parallaxes.foldl max FLT_MIN - t.m_parallaxes.foldl min FLT_MAX) p q hpq
    refine ⟨hm, ?_, ?_⟩
    · rw [depthColor_red, depthColor_red]
      exact mul_le_mul_of_nonneg_left hm (by norm_num)
    · rw [depthColor_blue, depthColor_blue]
      exact mul_le_mul_of_nonneg_left (by linarith) (by norm_num)

/-- Witness for C18: the sample session with three displacement sequences ending in
`(3, 4)`, `(0, 0)` and `(0, 3)`. -/
theorem depth_values_ordered_witness :
    ∃ t mn mx, createDepthMap exactOps dotSpread = some t ∧
      t.m_parallaxes = dotSpread.m_multi_template_shifts.map (parallaxOf exactOps) ∧
      mn = t.m_parallaxes.foldl min FLT_MAX ∧ mx = t.m_parallaxes.foldl max FLT_MIN ∧
      (∀ (i : Nat) (p : ℚ), t.m_parallaxes[i]? = some p →
        ∃ pt, dotSpread.m_params.template_points[i]? = some pt ∧
          t.m_depth_map.ops[i]? =
            some (discAt dotSpread.m_params pt
              (depthColor (normalizedDepth mn (mx - mn) p)))) ∧
      (∀ p ∈ t.m_parallaxes,
        0 ≤ normalizedDepth mn (mx - mn) p ∧ normalizedDepth mn (mx - mn) p ≤ 1) ∧
      ∀ p ∈ t.m_parallaxes, ∀ q ∈ t.m_parallaxes, p ≤ q →
        normalizedDepth mn (mx - mn) p ≤ normalizedDepth mn (mx - mn) q ∧
        depthColor (normalizedDepth mn (mx - mn) p) 2 ≤
          depthColor (normalizedDepth mn (mx - mn) q) 2 ∧
        depthColor (normalizedDepth mn (mx - mn) q) 0 ≤
          depthColor (normalizedDepth mn (mx - mn) p) 0 :=
  depth_values_ordered exactOps dotSpread (by decide) (by decide) (by decide)

end DepthOrder

end SynAp
